import Mathlib

/-!
# TFTP server: packet codec and transfer sessions

A shallow embedding of the TFTP server of this repository
(`include/tftp.h`, `src/main.c`, `src/tftp_utils.c`, `src/tftp_handlers.c`,
`src/tftp_server_mt.c`).

* Bytes are `Fin 256`; a 16-bit quantity is a `Nat` reduced modulo `65536`
  where the C code stores it in an `unsigned short`.
* A C buffer handed over together with its length (`char* buffer, int buffer_len`)
  is the list of its first `buffer_len` bytes.
* A C object that is written in place and read back later (the packet structure,
  a receive buffer that keeps its old content) is a memory `Nat → Byte`.
* Calls into the operating system (sockets, files) are answered by an explicit
  environment and recorded in a trace of events.
-/

namespace Tftp

/-! ## Constants of `include/tftp.h` -/

abbrev Byte := Fin 256

abbrev BUFFER_SIZE : Nat := 516
abbrev DATA_SIZE : Nat := 512
abbrev MAX_FILENAME_LEN : Nat := 255
abbrev MAX_MODE_LEN : Nat := 10
abbrev MAX_RETRIES : Nat := 5

abbrev TFTP_RRQ : Nat := 1
abbrev TFTP_WRQ : Nat := 2
abbrev TFTP_DATA : Nat := 3
abbrev TFTP_ACK : Nat := 4
abbrev TFTP_ERROR : Nat := 5

abbrev TFTP_ERROR_NOT_DEFINED : Nat := 0
abbrev TFTP_ERROR_FILE_NOT_FOUND : Nat := 1
abbrev TFTP_ERROR_ACCESS_VIOLATION : Nat := 2
abbrev TFTP_ERROR_DISK_FULL : Nat := 3
abbrev TFTP_ERROR_ILLEGAL_OPERATION : Nat := 4
abbrev TFTP_ERROR_UNKNOWN_TID : Nat := 5
abbrev TFTP_ERROR_FILE_EXISTS : Nat := 6
abbrev TFTP_ERROR_NO_SUCH_USER : Nat := 7

/-! ## Bytes, memory and C strings -/

/-- A region of memory addressed by byte offset. -/
abbrev Mem := Nat → Byte

/-- The value `ntohs(*(unsigned short*)p)` where `p[0] = hi` and `p[1] = lo`. -/
def ntohs (hi lo : Byte) : Nat := hi.val * 256 + lo.val

/-- The two bytes that `memcpy(p, &x, 2)` stores for `x = htons(v)`:
the 16-bit value `v` in network byte order, high byte first. -/
def htons (v : Nat) : List Byte := [Fin.ofNat (v / 256), Fin.ofNat v]

/-- The call `memcpy(dst + off, src, src.length)`. -/
def memcpy (dst : Mem) (off : Nat) (src : List Byte) : Mem :=
  fun i => if off ≤ i ∧ i < off + src.length then src.getD (i - off) 0 else dst i

/-- The `n` bytes of memory that start at offset `off`. -/
def readBytes (m : Mem) (off n : Nat) : List Byte :=
  (List.range n).map (fun i => m (off + i))

/-- The C string that starts a byte sequence: the bytes before the first NUL. -/
def c_str (s : List Byte) : List Byte := s.takeWhile (fun b => b != 0)

/-- The call `strlen(s)` on a NUL-terminated byte sequence. -/
def strlen (s : List Byte) : Nat := (c_str s).length

/-- The call `strnlen(s, maxlen)`: the number of bytes before the first NUL among
the first `maxlen` bytes, `maxlen` when there is none. -/
def strnlen (s : List Byte) (maxlen : Nat) : Nat := (c_str (s.take maxlen)).length

/-- The call `strcpy(dst + off, src)`: the bytes of `src` up to and including its
first NUL are stored. -/
def strcpy (dst : Mem) (off : Nat) (src : List Byte) : Mem :=
  memcpy dst off (c_str src ++ [0])

/-- A 16-bit store `*(unsigned short*)(m + off) = v` on the little-endian host
(the server is a Winsock program). -/
def store16 (m : Mem) (off : Nat) (v : Nat) : Mem :=
  memcpy m off [Fin.ofNat v, Fin.ofNat (v / 256)]

/-- A 16-bit load `*(unsigned short*)(m + off)` on the little-endian host. -/
def load16 (m : Mem) (off : Nat) : Nat := (m off).val + (m (off + 1)).val * 256

/-- The C string held in the `cap`-byte character array at offset `off`. -/
def fieldStr (m : Mem) (off cap : Nat) : List Byte := c_str (readBytes m off cap)

/-! ## The packet structure `tftp_packet_t`

`opcode` is the `unsigned short` at offset 0; `body` is the anonymous union that
follows it at offset 2 (514 bytes). The members of the union overlay each other:
`request.filename` at union offset 0 (255 bytes), `request.mode` at 255 (10 bytes),
`data.block_num`, `ack.block_num` and `error.error_code` at 0 (2 bytes),
`data.data` and `error.error_msg` at 2 (512 bytes). -/

structure tftp_packet_t where
  opcode : Nat
  body : Mem

def tftp_packet_t.request_filename (p : tftp_packet_t) : List Byte :=
  fieldStr p.body 0 MAX_FILENAME_LEN

def tftp_packet_t.request_mode (p : tftp_packet_t) : List Byte :=
  fieldStr p.body MAX_FILENAME_LEN MAX_MODE_LEN

def tftp_packet_t.data_block_num (p : tftp_packet_t) : Nat := load16 p.body 0

/-- The first `n` bytes of `data.data`. -/
def tftp_packet_t.data_data (p : tftp_packet_t) (n : Nat) : List Byte := readBytes p.body 2 n

def tftp_packet_t.ack_block_num (p : tftp_packet_t) : Nat := load16 p.body 0

def tftp_packet_t.error_code (p : tftp_packet_t) : Nat := load16 p.body 0

def tftp_packet_t.error_msg (p : tftp_packet_t) : List Byte := fieldStr p.body 2 512

/-! ## `parse_tftp_packet` (`src/main.c`) -/

/-- The decoder `parse_tftp_packet(buffer, buffer_len, packet)` of `src/main.c`.
`buffer` is the list of the `buffer_len` received bytes and `packet` the previous
content of the structure that is filled in place; the result is the returned status
(`0` or `-1`) together with the structure as the call leaves it. -/
def parse_tftp_packet (buffer : List Byte) (packet : tftp_packet_t) : Int × tftp_packet_t :=
  let buffer_len := buffer.length
  if buffer_len < 2 then (-1, packet)
  else
    let packet := { packet with opcode := ntohs (buffer.getD 0 0) (buffer.getD 1 0) }
    if packet.opcode = TFTP_RRQ ∨ packet.opcode = TFTP_WRQ then
      let ptr := buffer.drop 2
      let remaining := buffer_len - 2
      let filename_len := strnlen ptr remaining
      if filename_len ≥ remaining ∨ filename_len ≥ MAX_FILENAME_LEN then (-1, packet)
      else
        let packet := { packet with body := strcpy packet.body 0 ptr }
        let ptr := ptr.drop (filename_len + 1)
        let remaining := remaining - (filename_len + 1)
        let mode_len := strnlen ptr remaining
        if mode_len ≥ remaining ∨ mode_len ≥ MAX_MODE_LEN then (-1, packet)
        else (0, { packet with body := strcpy packet.body MAX_FILENAME_LEN ptr })
    else if packet.opcode = TFTP_DATA then
      if buffer_len < 4 then (-1, packet)
      else
        let packet :=
          { packet with body := store16 packet.body 0 (ntohs (buffer.getD 2 0) (buffer.getD 3 0)) }
        let data_len := buffer_len - 4
        if data_len > DATA_SIZE then (-1, packet)
        else (0, { packet with body := memcpy packet.body 2 ((buffer.drop 4).take data_len) })
    else if packet.opcode = TFTP_ACK then
      if buffer_len ≠ 4 then (-1, packet)
      else
        (0, { packet with body := store16 packet.body 0 (ntohs (buffer.getD 2 0) (buffer.getD 3 0)) })
    else if packet.opcode = TFTP_ERROR then
      if buffer_len < 4 then (-1, packet)
      else
        let packet :=
          { packet with body := store16 packet.body 0 (ntohs (buffer.getD 2 0) (buffer.getD 3 0)) }
        let msg_len := buffer_len - 4
        if msg_len > 0 ∧ msg_len < 512 then
          let body := memcpy packet.body 2 ((buffer.drop 4).take msg_len)
          (0, { packet with body := memcpy body (2 + msg_len) [0] })
        else (0, { packet with body := memcpy packet.body 2 [0] })
    else (-1, packet)

/-! ## Packet builders (`src/tftp_utils.c`)

Each `send_*_packet` function fills a local buffer and hands it to `sendto`; the
definitions below are the bytes handed over. -/

/-- The `4 + strlen(error_msg) + 1` bytes that `send_error_packet` sends. -/
def error_packet_bytes (error_code : Nat) (error_msg : List Byte) : List Byte :=
  htons TFTP_ERROR ++ htons (error_code % 65536) ++ (c_str error_msg ++ [0])

/-- The 4 bytes that `send_ack_packet` sends. -/
def ack_packet_bytes (block_num : Nat) : List Byte :=
  htons TFTP_ACK ++ htons block_num

/-- The `4 + data_len` bytes that `send_data_packet` sends, `data` being the
`data_len` bytes copied from the caller. -/
def data_packet_bytes (block_num : Nat) (data : List Byte) : List Byte :=
  htons TFTP_DATA ++ htons block_num ++ data

/-! ## `parse_mode` (`src/tftp_utils.c`) -/

inductive tftp_mode_t
  | MODE_NETASCII
  | MODE_OCTET
  deriving DecidableEq, Repr

/-- The C library's `tolower` on the bytes of the "C" locale. -/
def tolower (b : Byte) : Byte := if 65 ≤ b.val ∧ b.val ≤ 90 then b + 32 else b

/-- The test `strcasecmp(s, t) == 0` on two C strings. -/
def strcasecmp_eq (s t : List Byte) : Bool :=
  (c_str s).map tolower == (c_str t).map tolower

/-- The bytes of an ASCII string literal of the source. -/
def lit (s : String) : List Byte := s.toList.map (fun c => Fin.ofNat c.toNat)

def parse_mode (mode_str : List Byte) : tftp_mode_t :=
  if strcasecmp_eq mode_str (lit "netascii") then tftp_mode_t.MODE_NETASCII
  else if strcasecmp_eq mode_str (lit "octet") then tftp_mode_t.MODE_OCTET
  else tftp_mode_t.MODE_OCTET

/-! ## Operating-system calls: outcomes and events -/

/-- What a call to `recvfrom` returns. -/
inductive RecvOutcome
  /-- `SOCKET_ERROR` with `WSAGetLastError() == WSAETIMEDOUT`. -/
  | timeout
  /-- `SOCKET_ERROR` with any other error code. -/
  | failure
  /-- A datagram with these bytes arrives. A call whose buffer holds them all
  stores them at the start of the buffer and returns their number. For a longer
  datagram Winsock fills the buffer with the first bytes, drops the others and
  returns `SOCKET_ERROR` with `WSAEMSGSIZE`. -/
  | datagram (bytes : List Byte)
  deriving DecidableEq, Repr

/-- The two sockets a handler uses: `sock`, the socket it is called with, and
`data_sock`, the socket it creates for the transfer. -/
inductive Sock
  | sock
  | data_sock
  deriving DecidableEq, Repr

/-- The calls a handler makes that act on the outside world, in program order.
`ok` is the success of the call as the handler tests it. -/
inductive Event
  | fopen (path : List Byte) (write text ok : Bool)
  | fclose
  | remove (path : List Byte)
  | socket (ok : Bool)
  | bind (ok : Bool)
  | closesocket
  | sendto (s : Sock) (bytes : List Byte) (ok : Bool)
  | recvfrom (r : RecvOutcome)
  | fwrite (data_len : Int) (data : List Byte) (ok : Bool)
  deriving DecidableEq, Repr

/-- Transfer statistics `tftp_stats_t`. `bytes_transferred` is a `size_t`, taken
modulo `2 ^ 64`; the two `int` counters are shown as integers. -/
structure tftp_stats_t where
  bytes_transferred : Nat
  start_time : Int
  end_time : Int
  blocks_sent : Int
  retransmissions : Int
  deriving DecidableEq, Repr

abbrev SIZE_MOD : Nat := 2 ^ 64

/-- The initializer `tftp_stats_t stats = {0}`. -/
def stats_zero : tftp_stats_t := ⟨0, 0, 0, 0, 0⟩

/-- The path `"tftp_root/%s"` that `snprintf` stores in the 512-byte `filepath`. -/
def make_filepath (filename : List Byte) : List Byte :=
  (lit "tftp_root/" ++ filename).take 511

/-- The file name a handler copies out of the packet by `strcpy(filename, ptr)`
with `ptr = (char*)packet + 2`, the start of the union. -/
def extract_filename (packet : tftp_packet_t) : List Byte := fieldStr packet.body 0 514

/-- The mode a handler copies out by `strcpy(mode, ptr)` after
`ptr += strlen(filename) + 1`. -/
def extract_mode (packet : tftp_packet_t) : List Byte :=
  let off := (extract_filename packet).length + 1
  fieldStr packet.body off (514 - off)

/-- The events of `send_error_packet(s, client_addr, code, msg)`. -/
def send_error_packet (s : Sock) (code : Nat) (msg : List Byte) (ok : Bool) : Event :=
  Event.sendto s (error_packet_bytes code msg) ok

/-- The events of `send_ack_packet(s, client_addr, block_num)`. -/
def send_ack_packet (s : Sock) (block_num : Nat) (ok : Bool) : Event :=
  Event.sendto s (ack_packet_bytes block_num) ok

/-- The events of `send_data_packet(s, client_addr, block_num, data, data_len)`. -/
def send_data_packet (s : Sock) (block_num : Nat) (data : List Byte) (ok : Bool) : Event :=
  Event.sendto s (data_packet_bytes block_num data) ok

/-! ## `handle_rrq` (`src/tftp_handlers.c`) -/

/-- The outside world of a download. The peer is reactive: the answers to `sendto`
and `recvfrom` may depend on everything the handler has done so far. -/
structure RrqEnv where
  /-- The call `fopen(path, text ? "r" : "rb")`: the byte stream `fread` will deliver,
  or `none` for `NULL`. -/
  fopen : List Byte → Bool → Option (List Byte)
  socket_ok : Bool
  bind_ok : Bool
  /-- Whether the `sendto` issued after the given events succeeds. -/
  sendto_ok : List Event → Bool
  /-- What the `recvfrom` issued after the given events returns. -/
  recvfrom : List Event → RecvOutcome
  /-- The content of the 4 bytes of `ack_buffer` before the first receive. -/
  ack_buffer : Mem
  start_time : Int
  end_time : Int

/-- The variables of `handle_rrq` that live across the transfer loop. -/
structure RrqState where
  trace : List Event
  ack_buffer : Mem
  block_num : Nat
  stats : tftp_stats_t

/-- The inner loop `while (!ack_received && retries < MAX_RETRIES)` for one block.
`left` is `MAX_RETRIES - retries`. The result is `ack_received` and the state.
A datagram of more than 4 bytes does not fit `ack_buffer`: `recvfrom` returns
`SOCKET_ERROR` with `WSAEMSGSIZE`, which is not `WSAETIMEDOUT`, and the loop is
left by `break`. -/
def rrq_wait_loop (env : RrqEnv) (data : List Byte) : Nat → RrqState → Bool × RrqState
  | 0, st => (false, st)
  | left + 1, st =>
    let ok := env.sendto_ok st.trace
    let st := { st with trace := st.trace ++ [send_data_packet Sock.data_sock st.block_num data ok] }
    if !ok then (false, st)
    else
      let st := { st with stats := { st.stats with blocks_sent := st.stats.blocks_sent + 1 } }
      let r := env.recvfrom st.trace
      let st := { st with trace := st.trace ++ [Event.recvfrom r] }
      match r with
      | RecvOutcome.timeout =>
        rrq_wait_loop env data left
          { st with stats := { st.stats with retransmissions := st.stats.retransmissions + 1 } }
      | RecvOutcome.failure => (false, st)
      | RecvOutcome.datagram bytes =>
        let st := { st with ack_buffer := memcpy st.ack_buffer 0 (bytes.take 4) }
        if bytes.length > 4 then (false, st)
        else
          let ack_opcode := ntohs (st.ack_buffer 0) (st.ack_buffer 1)
          let ack_block := ntohs (st.ack_buffer 2) (st.ack_buffer 3)
          if ack_opcode = TFTP_ACK ∧ ack_block = st.block_num then
            (true, { st with stats := { st.stats with
              bytes_transferred := (st.stats.bytes_transferred + data.length) % SIZE_MOD } })
          else rrq_wait_loop env data left st

/-- The outer loop `while ((bytes_read = fread(data_buffer, 1, DATA_SIZE, file)) > 0)`.
`rest` is the part of the stream not yet read. Every iteration reads at least one
byte, so `fuel = rest.length` iterations are enough (`rrq_file_loop_fuel`). -/
def rrq_file_loop (env : RrqEnv) : Nat → List Byte → RrqState → RrqState
  | 0, _, st => st
  | fuel + 1, rest, st =>
    let data_buffer := rest.take DATA_SIZE
    let bytes_read := data_buffer.length
    if bytes_read > 0 then
      let r := rrq_wait_loop env data_buffer MAX_RETRIES st
      let st := r.2
      if !r.1 then
        { st with trace := st.trace ++
            [send_error_packet Sock.data_sock TFTP_ERROR_NOT_DEFINED (lit "Transfer timed out")
              (env.sendto_ok st.trace)] }
      else
        let st := { st with block_num := (st.block_num + 1) % 65536 }
        if bytes_read < DATA_SIZE then st
        else rrq_file_loop env fuel (rest.drop DATA_SIZE) st
    else st

/-- The handler `handle_rrq(sock, packet, client_addr)`; the result holds the trace
of its calls and the final statistics. -/
def handle_rrq (env : RrqEnv) (packet : tftp_packet_t) : RrqState :=
  let filename := extract_filename packet
  let mode := extract_mode packet
  let filepath := make_filepath filename
  let text := decide (parse_mode mode = tftp_mode_t.MODE_NETASCII)
  match env.fopen filepath text with
  | none =>
    let t := [Event.fopen filepath false text false]
    { trace := t ++ [send_error_packet Sock.sock TFTP_ERROR_FILE_NOT_FOUND (lit "File not found")
        (env.sendto_ok t)],
      ack_buffer := env.ack_buffer, block_num := 1, stats := stats_zero }
  | some file =>
    let stats := { stats_zero with start_time := env.start_time }
    let t := [Event.fopen filepath false text true, Event.socket env.socket_ok]
    if !env.socket_ok then
      let t := t ++ [Event.fclose]
      { trace := t ++ [send_error_packet Sock.sock TFTP_ERROR_NOT_DEFINED
          (lit "Server internal error") (env.sendto_ok t)],
        ack_buffer := env.ack_buffer, block_num := 1, stats := stats }
    else
      let t := t ++ [Event.bind env.bind_ok]
      if !env.bind_ok then
        let t := t ++ [Event.closesocket, Event.fclose]
        { trace := t ++ [send_error_packet Sock.sock TFTP_ERROR_NOT_DEFINED
            (lit "Server internal error") (env.sendto_ok t)],
          ack_buffer := env.ack_buffer, block_num := 1, stats := stats }
      else
        let st := rrq_file_loop env file.length file
          { trace := t, ack_buffer := env.ack_buffer, block_num := 1, stats := stats }
        { st with
          trace := st.trace ++ [Event.fclose, Event.closesocket],
          stats := { st.stats with end_time := env.end_time } }

/-- The datagrams handed to `sendto`, in order. -/
def sent (trace : List Event) : List (Sock × List Byte) :=
  trace.filterMap (fun e => match e with
    | Event.sendto s bytes _ => some (s, bytes)
    | _ => none)

/-! ## `handle_wrq` (`src/tftp_handlers.c`) -/

/-- What one pass of the receive loop of an upload meets: the result of its
`recvfrom` and, should the pass call `fwrite`, whether `fwrite` returns the
requested count. -/
structure WrqInput where
  recv : RecvOutcome
  fwrite_ok : Bool
  deriving DecidableEq, Repr

/-- The outside world of an upload. The peer drives the session: `inputs` lists
what the successive passes of the receive loop meet; once the list is used up
the peer stays silent and the next `recvfrom` times out. -/
structure WrqEnv where
  /-- Whether `fopen(path, "r")` succeeds, that is, whether the file is there. -/
  file_exists : List Byte → Bool
  /-- Whether `fopen(path, text ? "w" : "wb")` succeeds. -/
  create_ok : List Byte → Bool → Bool
  socket_ok : Bool
  bind_ok : Bool
  /-- Whether the `sendto` issued after the given events succeeds. -/
  sendto_ok : List Event → Bool
  inputs : List WrqInput
  /-- The content of the 516 bytes of `recv_buffer` before the first receive. -/
  recv_buffer : Mem
  start_time : Int
  end_time : Int

/-- The variables of `handle_wrq` that live across the receive loop. -/
structure WrqState where
  trace : List Event
  recv_buffer : Mem
  expected_block : Nat
  transfer_complete : Bool
  stats : tftp_stats_t

/-- One pass through the body of `while (!transfer_complete)`. The result is
whether the pass left the loop by `break`, and the state. A datagram of more than
`BUFFER_SIZE` bytes, longer than any TFTP packet, is taken as cut off at the end of
`recv_buffer`. -/
def wrq_iter (sendto_ok : List Event → Bool) (inp : WrqInput) (st : WrqState) : Bool × WrqState :=
  let st := { st with trace := st.trace ++ [Event.recvfrom inp.recv] }
  match inp.recv with
  | RecvOutcome.timeout =>
    (true, { st with trace := st.trace ++
      [send_error_packet Sock.data_sock TFTP_ERROR_NOT_DEFINED (lit "Timeout") (sendto_ok st.trace)] })
  | RecvOutcome.failure => (true, st)
  | RecvOutcome.datagram bytes =>
    let recv_result : Int := (bytes.take BUFFER_SIZE).length
    let st := { st with recv_buffer := memcpy st.recv_buffer 0 (bytes.take BUFFER_SIZE) }
    let opcode := ntohs (st.recv_buffer 0) (st.recv_buffer 1)
    if opcode = TFTP_DATA then
      let block_num := ntohs (st.recv_buffer 2) (st.recv_buffer 3)
      let data_len : Int := recv_result - 4
      let data := readBytes st.recv_buffer 4 data_len.toNat
      if block_num = st.expected_block then
        if !inp.fwrite_ok then
          let st := { st with trace := st.trace ++ [Event.fwrite data_len data false] }
          (true, { st with trace := st.trace ++
            [send_error_packet Sock.data_sock TFTP_ERROR_DISK_FULL
              [231, 163, 129, 231, 155, 152, 229, 183, 178, 230, 187, 161] (sendto_ok st.trace)] })
        else
          let st := { st with trace := st.trace ++ [Event.fwrite data_len data true] }
          let st := { st with stats := { st.stats with
            bytes_transferred := ((st.stats.bytes_transferred + data_len) % SIZE_MOD).toNat } }
          let st := { st with trace := st.trace ++
            [send_ack_packet Sock.data_sock block_num (sendto_ok st.trace)] }
          let st := { st with expected_block := (st.expected_block + 1) % 65536 }
          if data_len < DATA_SIZE then (false, { st with transfer_complete := true })
          else (false, st)
      else
        if (block_num : Int) = (st.expected_block : Int) - 1 then
          let st := { st with trace := st.trace ++
            [send_ack_packet Sock.data_sock block_num (sendto_ok st.trace)] }
          (false, { st with stats := { st.stats with
            retransmissions := st.stats.retransmissions + 1 } })
        else (false, st)
    else if opcode = TFTP_ERROR then (true, st)
    else (false, st)

/-- The loop `while (!transfer_complete)` run against the listed inputs. -/
def wrq_loop (sendto_ok : List Event → Bool) : List WrqInput → WrqState → WrqState
  | [], st =>
    if st.transfer_complete then st
    else (wrq_iter sendto_ok ⟨RecvOutcome.timeout, false⟩ st).2
  | inp :: rest, st =>
    if st.transfer_complete then st
    else
      let r := wrq_iter sendto_ok inp st
      if r.1 then r.2 else wrq_loop sendto_ok rest r.2

/-- The variables of `handle_wrq` at the entry of the receive loop, `t` being the
calls made so far: `stats = {0}` with the start time taken, `expected_block = 1`,
`transfer_complete = 0`. -/
def wrq_begin (env : WrqEnv) (t : List Event) : WrqState where
  trace := t
  recv_buffer := env.recv_buffer
  expected_block := 1
  transfer_complete := false
  stats := { stats_zero with start_time := env.start_time }

/-- The statements of `handle_wrq` after the receive loop: the end time is taken,
the file and the socket are closed, and the file is removed unless
`transfer_complete` is set. -/
def wrq_teardown (env : WrqEnv) (filepath : List Byte) (st : WrqState) : WrqState :=
  let st := { st with
    stats := { st.stats with end_time := env.end_time },
    trace := st.trace ++ [Event.fclose, Event.closesocket] }
  if !st.transfer_complete then
    { st with trace := st.trace ++ [Event.remove filepath] }
  else st

/-- The handler `handle_wrq(sock, packet, client_addr)`; the result holds the trace
of its calls and the final values of its variables. -/
def handle_wrq (env : WrqEnv) (packet : tftp_packet_t) : WrqState :=
  let filename := extract_filename packet
  let mode := extract_mode packet
  let filepath := make_filepath filename
  let text := decide (parse_mode mode = tftp_mode_t.MODE_NETASCII)
  let idle (t : List Event) : WrqState :=
    { trace := t, recv_buffer := env.recv_buffer, expected_block := 1,
      transfer_complete := false, stats := stats_zero }
  if env.file_exists filepath then
    let t := [Event.fopen filepath false true true, Event.fclose]
    idle (t ++ [send_error_packet Sock.sock TFTP_ERROR_FILE_EXISTS (lit "File already exists")
      (env.sendto_ok t)])
  else
    let t := [Event.fopen filepath false true false]
    if !env.create_ok filepath text then
      let t := t ++ [Event.fopen filepath true text false]
      idle (t ++ [send_error_packet Sock.sock TFTP_ERROR_ACCESS_VIOLATION
        (lit "Failed to create file") (env.sendto_ok t)])
    else
      let t := t ++ [Event.fopen filepath true text true, Event.socket env.socket_ok]
      if !env.socket_ok then
        let t := t ++ [Event.fclose, Event.remove filepath]
        idle (t ++ [send_error_packet Sock.sock TFTP_ERROR_NOT_DEFINED
          (lit "Server internal error") (env.sendto_ok t)])
      else
        let t := t ++ [Event.bind env.bind_ok]
        if !env.bind_ok then
          let t := t ++ [Event.closesocket, Event.fclose, Event.remove filepath]
          idle (t ++ [send_error_packet Sock.sock TFTP_ERROR_NOT_DEFINED
            (lit "Server internal error") (env.sendto_ok t)])
        else
          let ack0 := env.sendto_ok t
          let t := t ++ [send_ack_packet Sock.data_sock 0 ack0]
          if !ack0 then
            idle (t ++ [Event.closesocket, Event.fclose, Event.remove filepath])
          else
            wrq_teardown env filepath (wrq_loop env.sendto_ok env.inputs (wrq_begin env t))

/-- The effect of one call on the existence of the file at `path`: a successful
`fopen` for writing creates it and `remove` deletes it. -/
def fs_step (path : List Byte) (e : Bool) : Event → Bool
  | Event.fopen p true _ true => e || decide (p = path)
  | Event.remove p => e && !decide (p = path)
  | _ => e

/-- Whether the file at `path` exists once the listed calls have been made, given
whether it existed before. -/
def file_exists_after (path : List Byte) (e : Bool) (trace : List Event) : Bool :=
  trace.foldl (fs_step path) e

/-- The successful `fwrite` calls of a trace: the requested length and the bytes. -/
def written (trace : List Event) : List (Int × List Byte) :=
  trace.filterMap (fun e => match e with
    | Event.fwrite n data true => some (n, data)
    | _ => none)

/-! ## Peers and sample inputs -/

/-- A peer that acknowledges every block it receives: whenever the last call was
a successful `sendto` of DATA block `b`, the next `recvfrom` returns the ACK of `b`. -/
def AcksEveryBlock (env : RrqEnv) : Prop :=
  ∀ (tr : List Event) (b : Nat) (data : List Byte), b < 65536 →
    env.recvfrom (tr ++ [send_data_packet Sock.data_sock b data true])
      = RecvOutcome.datagram (ack_packet_bytes b)

/-- A download environment in which every call succeeds, the file holds `file`
and the peer answers each datagram with an ACK that echoes its block number. -/
def acking_env (file : List Byte) : RrqEnv where
  fopen := fun _ _ => some file
  socket_ok := true
  bind_ok := true
  sendto_ok := fun _ => true
  recvfrom := fun tr =>
    match tr.getLast? with
    | some (Event.sendto _ d _) => RecvOutcome.datagram (htons TFTP_ACK ++ (d.drop 2).take 2)
    | _ => RecvOutcome.timeout
  ack_buffer := fun _ => 0
  start_time := 0
  end_time := 0

/-- A download environment in which every call succeeds, the file holds `file`
and the peer never answers. -/
def silent_env (file : List Byte) : RrqEnv where
  fopen := fun _ _ => some file
  socket_ok := true
  bind_ok := true
  sendto_ok := fun _ => true
  recvfrom := fun _ => RecvOutcome.timeout
  ack_buffer := fun _ => 0
  start_time := 0
  end_time := 0

/-- A packet structure filled with zero bytes. -/
def zero_packet : tftp_packet_t := ⟨0, fun _ => 0⟩

/-- The state of an upload that waits for block `e`, with an empty trace. -/
def upload_state (e : Nat) : WrqState where
  trace := []
  recv_buffer := fun _ => 0
  expected_block := e
  transfer_complete := false
  stats := stats_zero

/-- An upload environment in which the file is new and every call succeeds; the
receive loop meets the listed inputs. -/
def upload_env (inputs : List WrqInput) : WrqEnv where
  file_exists := fun _ => false
  create_ok := fun _ _ => true
  socket_ok := true
  bind_ok := true
  sendto_ok := fun _ => true
  inputs := inputs
  recv_buffer := fun _ => 0
  start_time := 0
  end_time := 0

/-- Events that neither create nor delete a file. -/
def Event.fs_neutral : Event → Bool
  | Event.fopen _ true _ true => false
  | Event.remove _ => false
  | _ => true

/-- Whether a trace holds a successful `fwrite` of fewer than `DATA_SIZE` bytes:
a final block has been accepted. -/
def final_block_accepted (trace : List Event) : Prop :=
  ∃ x ∈ written trace, x.1 < (DATA_SIZE : Int)

/-! ## The dispatch loop of `main` (`src/main.c`) -/

/-- The handler a pass of the dispatch loop calls. -/
inductive Handler
  | handle_rrq
  | handle_wrq
  deriving DecidableEq, Repr

/-- What one pass of `while (1)` in `main` meets: the result of `recvfrom` on the
well-known port, the content of the local `packet` before it is filled, and
whether a `sendto` of this pass succeeds. -/
structure MainInput where
  recv : RecvOutcome
  packet : tftp_packet_t
  sendto_ok : Bool

/-- What one pass of the dispatch loop does: the calls it makes itself, the
handler it invokes (if any) and the packet structure as parsed. -/
structure MainStep where
  trace : List Event
  call : Option Handler
  packet : tftp_packet_t

/-- One pass through the body of `while (1)` in `main`. Every `SOCKET_ERROR` of
`recvfrom` is logged (unless it is `WSAEINTR`) and followed by `continue`; a
datagram of more than `BUFFER_SIZE` bytes does not fit `buffer` and is such an
error (`WSAEMSGSIZE`). -/
def main_iter (inp : MainInput) : MainStep :=
  match inp.recv with
  | RecvOutcome.timeout => ⟨[Event.recvfrom inp.recv], none, inp.packet⟩
  | RecvOutcome.failure => ⟨[Event.recvfrom inp.recv], none, inp.packet⟩
  | RecvOutcome.datagram bytes =>
    if bytes.length > BUFFER_SIZE then ⟨[Event.recvfrom inp.recv], none, inp.packet⟩
    else
      let buffer := bytes
      let recv_result := buffer.length
      if recv_result = 0 then ⟨[Event.recvfrom inp.recv], none, inp.packet⟩
      else
        let r := parse_tftp_packet buffer inp.packet
        if r.1 < 0 then
          ⟨[Event.recvfrom inp.recv,
            send_error_packet Sock.sock TFTP_ERROR_ILLEGAL_OPERATION (lit "Invalid packet format")
              inp.sendto_ok], none, r.2⟩
        else if r.2.opcode = TFTP_RRQ then
          ⟨[Event.recvfrom inp.recv], some Handler.handle_rrq, r.2⟩
        else if r.2.opcode = TFTP_WRQ then
          ⟨[Event.recvfrom inp.recv], some Handler.handle_wrq, r.2⟩
        else if r.2.opcode = TFTP_DATA ∨ r.2.opcode = TFTP_ACK then
          ⟨[Event.recvfrom inp.recv,
            send_error_packet Sock.sock TFTP_ERROR_UNKNOWN_TID (lit "Unknown transfer ID")
              inp.sendto_ok], none, r.2⟩
        else if r.2.opcode = TFTP_ERROR then
          ⟨[Event.recvfrom inp.recv], none, r.2⟩
        else
          ⟨[Event.recvfrom inp.recv,
            send_error_packet Sock.sock TFTP_ERROR_ILLEGAL_OPERATION (lit "Unsupported operation")
              inp.sendto_ok], none, r.2⟩

/-- The dispatch loop run on the listed inputs: one step per pass, in order. -/
def main_loop (inputs : List MainInput) : List MainStep := inputs.map main_iter

/-! ## `print_throughput` (`src/tftp_utils.c`) -/

/-- The statistics line that `print_throughput` logs. The `double` quotient is kept
as the exact rational `bytes / duration`. -/
structure ThroughputReport where
  bytes : Nat
  duration : Int
  throughput : ℚ
  /-- The separate line "Retransmissions: n", logged when `n > 0`. -/
  retransmissions : Option Int

/-- The function `print_throughput(stats)`: the report it logs, or `none` when it
logs nothing. `duration` is `difftime(end_time, start_time)`. -/
def print_throughput (stats : tftp_stats_t) : Option ThroughputReport :=
  let duration := stats.end_time - stats.start_time
  if duration > 0 then
    some { bytes := stats.bytes_transferred,
           duration := duration,
           throughput := (stats.bytes_transferred : ℚ) / (duration : ℚ),
           retransmissions := if stats.retransmissions > 0 then some stats.retransmissions else none }
  else none

/-! ## Comparison of strings as the claims word it -/

/-- Two bytes are equal up to the case of an ASCII letter. -/
def ascii_ci_byte_eq (a b : Byte) : Bool :=
  a = b ∨ (65 ≤ a.val ∧ a.val ≤ 90 ∧ b.val = a.val + 32) ∨
    (65 ≤ b.val ∧ b.val ≤ 90 ∧ a.val = b.val + 32)

/-- Two strings are equal under ASCII case-insensitive comparison: same length,
and equal byte by byte up to the case of ASCII letters. -/
def ascii_ci_eq : List Byte → List Byte → Bool
  | [], [] => true
  | a :: s, b :: t => ascii_ci_byte_eq a b && ascii_ci_eq s t
  | _, _ => false

/-! ## Scripted peers and arrivals with a source -/

/-- The number of `recvfrom` calls in a trace. -/
def recv_count (tr : List Event) : Nat :=
  (tr.filter (fun e => match e with
    | Event.recvfrom _ => true
    | _ => false)).length

/-- A download environment in which every call succeeds, the file holds `file`
and the successive `recvfrom` calls return the listed answers; after the last one
the peer is silent. -/
def scripted_env (file : List Byte) (answers : List RecvOutcome) : RrqEnv where
  fopen := fun _ _ => some file
  socket_ok := true
  bind_ok := true
  sendto_ok := fun _ => true
  recvfrom := fun tr => answers.getD (recv_count tr) RecvOutcome.timeout
  ack_buffer := fun _ => 0
  start_time := 0
  end_time := 0

/-- The source of a datagram: an IPv4 address and a UDP port. -/
structure Addr where
  ip : Nat
  port : Nat
  deriving DecidableEq, Repr

/-- A datagram as it arrives at the socket of a transfer, with the source that
`recvfrom` reports through its address argument. -/
structure Arrival where
  src : Addr
  bytes : List Byte
  deriving DecidableEq, Repr

/-- What a handler has of an arrival after `recvfrom`: the bytes. The source goes
into the local `ack_addr` (download) or `recv_addr` (upload), and no statement of
the handlers reads these variables. -/
def Arrival.outcome (a : Arrival) : RecvOutcome := RecvOutcome.datagram a.bytes

/-- Whether a datagram is an ERROR packet of code 5, unknown transfer ID. -/
def is_tid_error (bytes : List Byte) : Bool := bytes.take 4 == [0, 5, 0, 5]

/-- No ERROR packet of code 5 is among the datagrams a trace hands to `sendto`. -/
def no_tid_error (trace : List Event) : Prop := ∀ x ∈ sent trace, is_tid_error x.2 = false

/-- The bytes the successful `fwrite` calls of a trace have appended to the file. -/
def file_content (trace : List Event) : List Byte := ((written trace).map (fun x => x.2)).flatten



/-! ## `parse_tftp_packet` (`src/tftp_server_mt.c`)

The multi-threaded server has its own copy of the decoder. It is the decoder of
`src/main.c` statement by statement, but for the DATA length, which is held in a
`size_t`: the `int` difference `buffer_len - 4` converted modulo `2 ^ 64`. -/

/-- The decoder `parse_tftp_packet(buffer, buffer_len, packet)` of
`src/tftp_server_mt.c`. -/
def Mt.parse_tftp_packet (buffer : List Byte) (packet : tftp_packet_t) : Int × tftp_packet_t :=
  let buffer_len := buffer.length
  if buffer_len < 2 then (-1, packet)
  else
    let packet := { packet with opcode := ntohs (buffer.getD 0 0) (buffer.getD 1 0) }
    if packet.opcode = TFTP_RRQ ∨ packet.opcode = TFTP_WRQ then
      let ptr := buffer.drop 2
      let remaining := buffer_len - 2
      let filename_len := strnlen ptr remaining
      if filename_len ≥ remaining ∨ filename_len ≥ MAX_FILENAME_LEN then (-1, packet)
      else
        let packet := { packet with body := strcpy packet.body 0 ptr }
        let ptr := ptr.drop (filename_len + 1)
        let remaining := remaining - (filename_len + 1)
        let mode_len := strnlen ptr remaining
        if mode_len ≥ remaining ∨ mode_len ≥ MAX_MODE_LEN then (-1, packet)
        else (0, { packet with body := strcpy packet.body MAX_FILENAME_LEN ptr })
    else if packet.opcode = TFTP_DATA then
      if buffer_len < 4 then (-1, packet)
      else
        let packet :=
          { packet with body := store16 packet.body 0 (ntohs (buffer.getD 2 0) (buffer.getD 3 0)) }
        let data_len : Nat := (((buffer_len : Int) - 4) % (SIZE_MOD : Int)).toNat
        if data_len > DATA_SIZE then (-1, packet)
        else (0, { packet with body := memcpy packet.body 2 ((buffer.drop 4).take data_len) })
    else if packet.opcode = TFTP_ACK then
      if buffer_len ≠ 4 then (-1, packet)
      else
        (0, { packet with body := store16 packet.body 0 (ntohs (buffer.getD 2 0) (buffer.getD 3 0)) })
    else if packet.opcode = TFTP_ERROR then
      if buffer_len < 4 then (-1, packet)
      else
        let packet :=
          { packet with body := store16 packet.body 0 (ntohs (buffer.getD 2 0) (buffer.getD 3 0)) }
        let msg_len := buffer_len - 4
        if msg_len > 0 ∧ msg_len < 512 then
          let body := memcpy packet.body 2 ((buffer.drop 4).take msg_len)
          (0, { packet with body := memcpy body (2 + msg_len) [0] })
        else (0, { packet with body := memcpy packet.body 2 [0] })
    else (-1, packet)

/-! ## `handle_rrq_mt` (`src/tftp_server_mt.c`)

The send-and-wait loop of this handler has no bound that the code itself keeps:
`retries` is incremented on a timeout only. The loop is therefore run on fuel, one
unit per pass, and the result is `none` when the fuel does not suffice. -/

/-- The inner loop `while (!ack_received && retries < MAX_RETRIES)` of
`handle_rrq_mt` for one block, from the given value of `retries`. The result is
`ack_received` and the state, or `none` when the loop is still running after `fuel`
passes. As in `handle_rrq`, a datagram of more than 4 bytes makes `recvfrom` fail
with `WSAEMSGSIZE` and the loop is left by `break`. -/
def rrq_mt_wait_loop (env : RrqEnv) (data : List Byte) :
    Nat → Nat → RrqState → Option (Bool × RrqState)
  | 0, retries, st => if retries < MAX_RETRIES then none else some (false, st)
  | fuel + 1, retries, st =>
    if retries < MAX_RETRIES then
      let ok := env.sendto_ok st.trace
      let st := { st with trace := st.trace ++ [send_data_packet Sock.data_sock st.block_num data ok] }
      if !ok then some (false, st)
      else
        let st := { st with stats := { st.stats with blocks_sent := st.stats.blocks_sent + 1 } }
        let r := env.recvfrom st.trace
        let st := { st with trace := st.trace ++ [Event.recvfrom r] }
        match r with
        | RecvOutcome.timeout =>
          rrq_mt_wait_loop env data fuel (retries + 1)
            { st with stats := { st.stats with retransmissions := st.stats.retransmissions + 1 } }
        | RecvOutcome.failure => some (false, st)
        | RecvOutcome.datagram bytes =>
          let recv_result := (bytes.take 4).length
          let st := { st with ack_buffer := memcpy st.ack_buffer 0 (bytes.take 4) }
          if bytes.length > 4 then some (false, st)
          else if recv_result = 4 then
            let ack_opcode := ntohs (st.ack_buffer 0) (st.ack_buffer 1)
            let ack_block := ntohs (st.ack_buffer 2) (st.ack_buffer 3)
            if ack_opcode = TFTP_ACK ∧ ack_block = st.block_num then
              some (true, { st with stats := { st.stats with
                bytes_transferred := (st.stats.bytes_transferred + data.length) % SIZE_MOD } })
            else rrq_mt_wait_loop env data fuel retries st
          else rrq_mt_wait_loop env data fuel retries st
    else some (false, st)

/-- The outer loop `while ((bytes_read = fread(data_buffer, 1, DATA_SIZE, file)) > 0)`
of `handle_rrq_mt`; `inner` is the fuel given to the inner loop of each block. -/
def rrq_mt_file_loop (env : RrqEnv) (inner : Nat) : Nat → List Byte → RrqState → Option RrqState
  | 0, _, st => some st
  | fuel + 1, rest, st =>
    let data_buffer := rest.take DATA_SIZE
    let bytes_read := data_buffer.length
    if bytes_read > 0 then
      match rrq_mt_wait_loop env data_buffer inner 0 st with
      | none => none
      | some r =>
        let st := r.2
        if !r.1 then some st
        else
          let st := { st with block_num := (st.block_num + 1) % 65536 }
          if bytes_read < DATA_SIZE then some st
          else rrq_mt_file_loop env inner fuel (rest.drop DATA_SIZE) st
    else some st

/-- The handler `handle_rrq_mt(sock, packet, client_addr)`, each inner loop run on
`fuel` passes: the trace of its calls and the final statistics, or `none` when an
inner loop is still running after `fuel` passes. -/
def handle_rrq_mt (env : RrqEnv) (fuel : Nat) (packet : tftp_packet_t) : Option RrqState :=
  let filename := extract_filename packet
  let mode := extract_mode packet
  let filepath := make_filepath filename
  let text := decide (parse_mode mode = tftp_mode_t.MODE_NETASCII)
  let idle (t : List Event) : RrqState :=
    { trace := t, ack_buffer := env.ack_buffer, block_num := 1, stats := stats_zero }
  match env.fopen filepath text with
  | none =>
    let t := [Event.fopen filepath false text false]
    some (idle (t ++ [send_error_packet Sock.sock TFTP_ERROR_FILE_NOT_FOUND (lit "File not found")
      (env.sendto_ok t)]))
  | some file =>
    let t := [Event.fopen filepath false text true, Event.socket env.socket_ok]
    if !env.socket_ok then
      let t := t ++ [Event.fclose]
      some (idle (t ++ [send_error_packet Sock.sock TFTP_ERROR_NOT_DEFINED
        (lit "Server internal error") (env.sendto_ok t)]))
    else
      let t := t ++ [Event.bind env.bind_ok]
      if !env.bind_ok then
        let t := t ++ [Event.closesocket, Event.fclose]
        some (idle (t ++ [send_error_packet Sock.sock TFTP_ERROR_NOT_DEFINED
          (lit "Server internal error") (env.sendto_ok t)]))
      else
        let stats := { stats_zero with start_time := env.start_time }
        match rrq_mt_file_loop env fuel file.length file
            { trace := t, ack_buffer := env.ack_buffer, block_num := 1, stats := stats } with
        | none => none
        | some st =>
          let st := { st with
            trace := st.trace ++ [Event.closesocket, Event.fclose],
            stats := { st.stats with end_time := env.end_time } }
          some st

/-- A download environment in which every call succeeds, the file holds `file`
and the peer answers every datagram with the same `answer`. -/
def repeating_env (file : List Byte) (answer : RecvOutcome) : RrqEnv where
  fopen := fun _ _ => some file
  socket_ok := true
  bind_ok := true
  sendto_ok := fun _ => true
  recvfrom := fun _ => answer
  ack_buffer := fun _ => 0
  start_time := 0
  end_time := 0

/-! ## `handle_wrq_mt` (`src/tftp_server_mt.c`) -/

/-- The variables of `handle_wrq_mt` that live across the receive loop. The local
`data_packet` of the loop body keeps the bytes of the pass before. -/
structure WrqMtState where
  trace : List Event
  data_packet : tftp_packet_t
  expected_block : Nat
  stats : tftp_stats_t
  /-- Whether the handler has returned. It has not when it waits in a `recvfrom`
  that never returns: `sock`, the socket of the server, has no receive timeout. -/
  returned : Bool

/-- One pass through the body of `while (1)` in `handle_wrq_mt`. The result is
whether the pass left the loop by `break`, and the state. All datagrams go through
`sock`, the socket the handler is called with. As in `handle_wrq`, a datagram of
more than `BUFFER_SIZE` bytes is taken as cut off at the end of `buffer`. -/
def wrq_mt_iter (env : WrqEnv) (inp : WrqInput) (st : WrqMtState) : Bool × WrqMtState :=
  let st := { st with trace := st.trace ++ [Event.recvfrom inp.recv] }
  match inp.recv with
  | RecvOutcome.timeout => (true, st)
  | RecvOutcome.failure => (true, st)
  | RecvOutcome.datagram bytes =>
    let buffer := bytes.take BUFFER_SIZE
    let recv_result : Int := buffer.length
    let r := Mt.parse_tftp_packet buffer st.data_packet
    let st := { st with data_packet := r.2 }
    if r.1 < 0 then (false, st)
    else if st.data_packet.opcode = TFTP_DATA then
      if st.data_packet.data_block_num = st.expected_block then
        let data_len : Nat := ((recv_result - 4) % (SIZE_MOD : Int)).toNat
        let data := st.data_packet.data_data data_len
        if !inp.fwrite_ok then
          let st := { st with trace := st.trace ++ [Event.fwrite data_len data false] }
          (true, { st with trace := st.trace ++
            [send_error_packet Sock.sock TFTP_ERROR_DISK_FULL (lit "Disk full or write error")
              (env.sendto_ok st.trace)] })
        else
          let st := { st with trace := st.trace ++ [Event.fwrite data_len data true] }
          let st := { st with stats := { st.stats with
            bytes_transferred := (st.stats.bytes_transferred + data_len) % SIZE_MOD } }
          let ok := env.sendto_ok st.trace
          let st := { st with trace := st.trace ++ [send_ack_packet Sock.sock st.expected_block ok] }
          if !ok then (true, st)
          else
            let st := { st with expected_block := (st.expected_block + 1) % 65536 }
            if data_len < DATA_SIZE then
              (true, { st with stats := { st.stats with end_time := env.end_time } })
            else (false, st)
      else
        if (st.data_packet.data_block_num : Int) = (st.expected_block : Int) - 1 then
          (false, { st with trace := st.trace ++
            [send_ack_packet Sock.sock st.data_packet.data_block_num (env.sendto_ok st.trace)] })
        else (false, st)
    else if st.data_packet.opcode = TFTP_ERROR then (true, st)
    else (false, st)

/-- The loop `while (1)` of `handle_wrq_mt` run against the listed inputs. The
result is whether the loop has been left, and the state. Once the list is used up
no datagram arrives any more and the `recvfrom` does not return, `sock` having no
receive timeout: the loop is not left. -/
def wrq_mt_loop (env : WrqEnv) : List WrqInput → WrqMtState → Bool × WrqMtState
  | [], st => (false, st)
  | inp :: rest, st =>
    let r := wrq_mt_iter env inp st
    if r.1 then (true, r.2) else wrq_mt_loop env rest r.2

/-- The handler `handle_wrq_mt(sock, packet, client_addr)`; the result holds the
trace of its calls and the final values of its variables. The handler creates no
socket; of the environment it uses the file system, `sendto_ok` and the inputs, and
`recv_buffer` stands for the content of its local `data_packet` before the first
pass. -/
def handle_wrq_mt (env : WrqEnv) (packet : tftp_packet_t) : WrqMtState :=
  let filename := extract_filename packet
  let mode := extract_mode packet
  let filepath := make_filepath filename
  let text := decide (parse_mode mode = tftp_mode_t.MODE_NETASCII)
  let idle (t : List Event) : WrqMtState :=
    { trace := t, data_packet := ⟨0, env.recv_buffer⟩, expected_block := 1, stats := stats_zero,
      returned := true }
  if env.file_exists filepath then
    let t := [Event.fopen filepath false true true, Event.fclose]
    idle (t ++ [send_error_packet Sock.sock TFTP_ERROR_FILE_EXISTS (lit "File already exists")
      (env.sendto_ok t)])
  else
    let t := [Event.fopen filepath false true false]
    if !env.create_ok filepath text then
      let t := t ++ [Event.fopen filepath true text false]
      idle (t ++ [send_error_packet Sock.sock TFTP_ERROR_ACCESS_VIOLATION
        (lit "Cannot create file") (env.sendto_ok t)])
    else
      let t := t ++ [Event.fopen filepath true text true]
      let ack0 := env.sendto_ok t
      let t := t ++ [send_ack_packet Sock.sock 0 ack0]
      if !ack0 then idle (t ++ [Event.fclose])
      else
        let r := wrq_mt_loop env env.inputs
          { trace := t, data_packet := ⟨0, env.recv_buffer⟩, expected_block := 1,
            stats := { stats_zero with start_time := env.start_time }, returned := false }
        if r.1 then { r.2 with trace := r.2.trace ++ [Event.fclose], returned := true }
        else r.2

/-! ## Downloads with loss, as the claims word them -/

/-- The first `n` DATA packets of a download without loss of the unread stream
`rest`, numbered from `b`: each carries the next 512 bytes (fewer at the end) and
the next block number. -/
def data_blocks : Nat → Nat → List Byte → List (Sock × List Byte)
  | 0, _, _ => []
  | n + 1, b, rest =>
    (Sock.data_sock, data_packet_bytes b (rest.take DATA_SIZE))
      :: data_blocks n ((b + 1) % 65536) (rest.drop DATA_SIZE)

/-- The list in which the `i`-th element of `ps` stands `counts[i]` times in a row. -/
def repeat_each {α : Type} (counts : List Nat) (ps : List α) : List α :=
  (List.zipWith List.replicate counts ps).flatten

/-! ## Counts on the trace of a download -/

/-- The DATA packets transmitted: the datagrams of the successful `sendto` calls on
the socket of the transfer whose opcode is 3. -/
def data_sent (trace : List Event) : List (List Byte) :=
  trace.filterMap (fun e => match e with
    | Event.sendto Sock.data_sock bytes true => if bytes.take 2 = [0, 3] then some bytes else none
    | _ => none)

/-- The number of `recvfrom` calls that ended in a timeout. -/
def timeouts (trace : List Event) : Nat :=
  trace.count (Event.recvfrom RecvOutcome.timeout)

/-- The number of DATA transmissions that repeated a block transmitted before: the
transmissions minus the distinct packets among them. -/
def repeated_sends (trace : List Event) : Nat :=
  (data_sent trace).length - (data_sent trace).dedup.length

/-! ## Stop-and-wait, as a property of a trace -/

/-- The block number of a datagram that is a DATA packet (opcode 3 and the four
bytes of a header at least), `none` for any other datagram. -/
def data_block (bytes : List Byte) : Option Nat :=
  if bytes.take 2 = [0, 3] ∧ 4 ≤ bytes.length then
    some (ntohs (bytes.getD 2 0) (bytes.getD 3 0))
  else none

/-- Whether a received datagram is an ACK of block `k`: the four bytes of a header
at least, opcode 4 and block number `k`. -/
def is_ack_of (k : Nat) (d : List Byte) : Bool :=
  decide (4 ≤ d.length ∧ ntohs (d.getD 0 0) (d.getD 1 0) = TFTP_ACK ∧
    ntohs (d.getD 2 0) (d.getD 3 0) = k)

/-- What an observer of a download keeps: the number of the block last transmitted
(0 before the first) and whether an ACK of that block has been received since. -/
structure SwState where
  last : Nat
  acked : Bool
  deriving DecidableEq, Repr

/-- One call seen by the observer; `none` means that stop-and-wait is broken. As
long as the block last transmitted is not acknowledged, a DATA packet has to carry
its number again; once it is acknowledged, a DATA packet has to carry the next
number. A received ACK of the block last transmitted acknowledges it. -/
def sw_step (s : Option SwState) (e : Event) : Option SwState :=
  match s with
  | none => none
  | some s =>
    match e with
    | Event.sendto _ bytes _ =>
      match data_block bytes with
      | none => some s
      | some b =>
        if s.acked then (if b = (s.last + 1) % 65536 then some ⟨b, false⟩ else none)
        else (if b = s.last then some s else none)
    | Event.recvfrom (RecvOutcome.datagram d) =>
      if is_ack_of s.last d then some { s with acked := true } else some s
    | _ => some s

/-- Whether a trace keeps to stop-and-wait: no DATA block `k + 1` before an ACK of
block `k` has been received, one block number for all DATA packets between two
acknowledgments, and first transmissions numbered 1, 2, 3, ... (modulo 65536). -/
def stop_and_wait (trace : List Event) : Bool :=
  (trace.foldl sw_step (some ⟨0, true⟩)).isSome

/-! ## An upload session, as the claims word it

What a session accepts and what it acknowledges is defined here from the words of the
specification alone, over what the receive loop meets, to be compared with
`handle_wrq`. -/

theorem ntohs_ofNat (v : Nat) (h : v < 65536) :
    ntohs (Fin.ofNat (v / 256)) (Fin.ofNat v) = v := by
  simp only [ntohs, Fin.ofNat]
  omega

theorem c_str_nil : c_str [] = [] := rfl

theorem c_str_of_no_nul (s : List Byte) (h : ∀ b ∈ s, b ≠ 0) : c_str s = s := by
  unfold c_str
  rw [List.takeWhile_eq_self_iff]
  intro b hb
  simpa using h b hb

theorem c_str_append_nul (f t : List Byte) (h : ∀ b ∈ f, b ≠ 0) : c_str (f ++ 0 :: t) = f := by
  induction f with
  | nil => simp [c_str]
  | cons a f ih =>
    have ha : a ≠ 0 := h a (List.mem_cons_self _ _)
    have ih2 := ih (fun b hb => h b (List.mem_cons_of_mem _ hb))
    simp only [c_str] at ih2 ⊢
    simp [List.takeWhile_cons, ha, ih2]

theorem strnlen_length (s : List Byte) : strnlen s s.length = (c_str s).length := by
  simp [strnlen]

theorem memcpy_inside (dst : Mem) (off : Nat) (src : List Byte) (i : Nat) (h : i < src.length) :
    memcpy dst off src (off + i) = src.getD i 0 := by
  simp [memcpy, h]

theorem memcpy_outside (dst : Mem) (off : Nat) (src : List Byte) (j : Nat)
    (h : j < off ∨ off + src.length ≤ j) : memcpy dst off src j = dst j := by
  unfold memcpy
  rw [if_neg]
  omega

theorem readBytes_length (m : Mem) (off n : Nat) : (readBytes m off n).length = n := by
  simp [readBytes]

theorem readBytes_add (m : Mem) (off a b : Nat) :
    readBytes m off (a + b) = readBytes m off a ++ readBytes m (off + a) b := by
  simp [readBytes, List.range_add, List.map_append, List.map_map, Function.comp_def, Nat.add_assoc]

theorem readBytes_eq (m : Mem) (off : Nat) (s : List Byte)
    (h : ∀ i, i < s.length → m (off + i) = s.getD i 0) : readBytes m off s.length = s := by
  apply List.ext_getElem
  · simp [readBytes]
  · intro i h1 h2
    simp only [readBytes, List.getElem_map, List.getElem_range]
    rw [h i h2]
    simp [List.getD_eq_getElem?_getD, List.getElem?_eq_getElem h2]

/-- A NUL-terminated string stored at `off` is what the field reads back. -/
theorem fieldStr_eq (m : Mem) (off cap : Nat) (f : List Byte) (hf : ∀ b ∈ f, b ≠ 0)
    (hcap : f.length < cap) (h : ∀ i, i < f.length → m (off + i) = f.getD i 0)
    (h0 : m (off + f.length) = 0) : fieldStr m off cap = f := by
  obtain ⟨r, rfl⟩ : ∃ r, cap = f.length + (1 + r) := ⟨cap - f.length - 1, by omega⟩
  unfold fieldStr
  rw [readBytes_add, readBytes_add, readBytes_eq m off f h]
  have : readBytes m (off + f.length) 1 = [0] := by
    simp [readBytes, List.range_succ, h0]
  rw [this]
  simpa using c_str_append_nul f _ hf

/-- The request branch of the decoder, with the lengths resolved. -/
theorem parse_request (hi lo : Byte) (rest : List Byte) (packet : tftp_packet_t)
    (hop : ntohs hi lo = TFTP_RRQ ∨ ntohs hi lo = TFTP_WRQ) :
    parse_tftp_packet (hi :: lo :: rest) packet =
      if (c_str rest).length ≥ rest.length ∨ (c_str rest).length ≥ MAX_FILENAME_LEN then
        (-1, { packet with opcode := ntohs hi lo })
      else if (c_str (rest.drop ((c_str rest).length + 1))).length
            ≥ (rest.drop ((c_str rest).length + 1)).length ∨
          (c_str (rest.drop ((c_str rest).length + 1))).length ≥ MAX_MODE_LEN then
        (-1, { opcode := ntohs hi lo, body := strcpy packet.body 0 rest })
      else
        (0, { opcode := ntohs hi lo,
              body := strcpy (strcpy packet.body 0 rest) MAX_FILENAME_LEN
                (rest.drop ((c_str rest).length + 1)) }) := by
  have hlen : ¬ ((hi :: lo :: rest).length < 2) := by simp
  have hrem : (hi :: lo :: rest).length - 2 = rest.length := by simp
  have hrem2 : rest.length - ((c_str rest).length + 1)
      = (rest.drop ((c_str rest).length + 1)).length := by simp
  unfold parse_tftp_packet
  simp only [hlen, if_false, List.getD_cons_zero, List.getD_cons_succ, hop, if_true,
    List.drop_succ_cons, List.drop_zero, hrem, strnlen_length, hrem2]

/-- C10: a buffer of length 0 or 1 is rejected with status -1, and the packet
structure is left as it was: no opcode is read. -/
theorem parse_truncated (buffer : List Byte) (packet : tftp_packet_t)
    (h : buffer.length = 0 ∨ buffer.length = 1) :
    parse_tftp_packet buffer packet = (-1, packet) := by
  have h2 : buffer.length < 2 := by omega
  simp [parse_tftp_packet, h2]

theorem parse_truncated_witness :
    ([3] : List Byte).length = 1 ∧
      parse_tftp_packet [3] ⟨7, fun _ => 9⟩ = (-1, ⟨7, fun _ => 9⟩) :=
  ⟨rfl, parse_truncated [3] ⟨7, fun _ => 9⟩ (Or.inr rfl)⟩

/-- C8: a request (opcode 1 or 2) whose file name has no NUL terminator, or whose
mode (the bytes after the terminator of the file name, possibly none) has no NUL
terminator, is rejected with status -1. -/
theorem parse_request_unterminated (hi lo : Byte) (rest : List Byte) (packet : tftp_packet_t)
    (hop : ntohs hi lo = TFTP_RRQ ∨ ntohs hi lo = TFTP_WRQ)
    (hnul : (∀ b ∈ rest, b ≠ 0) ∨
      ∃ f tail, rest = f ++ 0 :: tail ∧ (∀ b ∈ f, b ≠ 0) ∧ ∀ b ∈ tail, b ≠ 0) :
    (parse_tftp_packet (hi :: lo :: rest) packet).1 = -1 := by
  rw [parse_request hi lo rest packet hop]
  rcases hnul with h | ⟨f, tail, rfl, hf, ht⟩
  · rw [c_str_of_no_nul rest h]
    simp
  · rw [c_str_append_nul f tail hf]
    have hd : (f ++ 0 :: tail).drop (f.length + 1) = tail := by
      rw [List.drop_append_eq_append_drop]; simp
    rw [hd, c_str_of_no_nul tail ht]
    split
    · rfl
    · simp

theorem parse_request_unterminated_witness :
    (ntohs 0 1 = TFTP_RRQ ∨ ntohs 0 1 = TFTP_WRQ) ∧
      (parse_tftp_packet [0, 1, 97, 0, 111] ⟨0, fun _ => 0⟩).1 = -1 :=
  ⟨Or.inl (by simp [ntohs]),
    parse_request_unterminated 0 1 [97, 0, 111] ⟨0, fun _ => 0⟩ (Or.inl (by simp [ntohs]))
      (Or.inr ⟨[97], [111], rfl, by simp, by simp⟩)⟩

theorem readBytes_congr (m1 m2 : Mem) (off n : Nat) (h : ∀ i, i < n → m1 (off + i) = m2 (off + i)) :
    readBytes m1 off n = readBytes m2 off n := by
  unfold readBytes
  apply List.map_congr_left
  intro i hi
  exact h i (List.mem_range.mp hi)

theorem getD_append_nul (f : List Byte) (i : Nat) : (f ++ [0]).getD i 0 = f.getD i 0 := by
  simp only [List.getD_eq_getElem?_getD]
  by_cases h : i < f.length
  · rw [List.getElem?_append_left h]
  · rw [List.getElem?_append_right (by omega)]
    have : f[i]? = none := List.getElem?_eq_none (by omega)
    rw [this]
    cases hk : i - f.length with
    | zero => simp
    | succ k => simp

/-- The field at `off` reads back the string that `strcpy` stored there. -/
theorem fieldStr_strcpy (dst : Mem) (off cap : Nat) (f t : List Byte) (hf : ∀ b ∈ f, b ≠ 0)
    (hcap : f.length < cap) : fieldStr (strcpy dst off (f ++ 0 :: t)) off cap = f := by
  apply fieldStr_eq _ _ _ _ hf hcap
  · intro i hi
    rw [strcpy, c_str_append_nul f t hf, memcpy_inside _ _ _ _ (by simp; omega), getD_append_nul]
  · rw [strcpy, c_str_append_nul f t hf, memcpy_inside _ _ _ _ (by simp)]
    simp [List.getD_eq_getElem?_getD]

/-- A later `strcpy` into a region that starts at or after `off + cap` leaves the
field at `off` as it was. -/
theorem fieldStr_strcpy_above (dst : Mem) (off cap off2 : Nat) (s : List Byte) (h : off + cap ≤ off2) :
    fieldStr (strcpy dst off2 s) off cap = fieldStr dst off cap := by
  unfold fieldStr
  rw [readBytes_congr]
  intro i hi
  exact memcpy_outside _ _ _ _ (Or.inl (by omega))

/-- C9: a well-formed request (opcode 1 or 2, NUL-free file name, NUL, NUL-free mode,
NUL, then any bytes) is accepted exactly when the file name has at most 254 bytes
and the mode at most 9; it is otherwise rejected with status -1, never truncated;
and when accepted the packet holds the opcode, the file name and the mode verbatim. -/
theorem parse_request_decode (op : Nat) (f m extra : List Byte) (packet : tftp_packet_t)
    (hop : op = TFTP_RRQ ∨ op = TFTP_WRQ) (hf : ∀ b ∈ f, b ≠ 0) (hm : ∀ b ∈ m, b ≠ 0) :
    ((parse_tftp_packet (htons op ++ f ++ [0] ++ m ++ [0] ++ extra) packet).1 = 0
        ↔ f.length ≤ 254 ∧ m.length ≤ 9) ∧
    ((parse_tftp_packet (htons op ++ f ++ [0] ++ m ++ [0] ++ extra) packet).1 ≠ 0 →
      (parse_tftp_packet (htons op ++ f ++ [0] ++ m ++ [0] ++ extra) packet).1 = -1) ∧
    ((parse_tftp_packet (htons op ++ f ++ [0] ++ m ++ [0] ++ extra) packet).1 = 0 →
      (parse_tftp_packet (htons op ++ f ++ [0] ++ m ++ [0] ++ extra) packet).2.opcode = op ∧
      (parse_tftp_packet (htons op ++ f ++ [0] ++ m ++ [0] ++ extra) packet).2.request_filename = f ∧
      (parse_tftp_packet (htons op ++ f ++ [0] ++ m ++ [0] ++ extra) packet).2.request_mode = m) := by
  have hbuf : htons op ++ f ++ [0] ++ m ++ [0] ++ extra
      = Fin.ofNat (op / 256) :: Fin.ofNat op :: (f ++ 0 :: (m ++ 0 :: extra)) := by
    simp [htons]
  have hv : ntohs (Fin.ofNat (op / 256)) (Fin.ofNat op) = op :=
    ntohs_ofNat op (by rcases hop with h | h <;> rw [h] <;> decide)
  have hd : (f ++ 0 :: (m ++ 0 :: extra)).drop (f.length + 1) = m ++ 0 :: extra := by
    rw [List.drop_append_eq_append_drop]; simp
  rw [hbuf, parse_request _ _ _ _ (by rw [hv]; exact hop), hv,
    c_str_append_nul f _ hf, hd, c_str_append_nul m _ hm]
  have h1 : ¬ (f.length ≥ (f ++ 0 :: (m ++ 0 :: extra)).length) := by simp
  have h2 : ¬ (m.length ≥ (m ++ 0 :: extra).length) := by simp
  by_cases hfl : f.length ≥ MAX_FILENAME_LEN
  · rw [if_pos (Or.inr hfl)]
    simp only [MAX_FILENAME_LEN] at hfl
    refine ⟨⟨fun h => absurd h (by simp), fun h => ?_⟩, fun _ => rfl, fun h => absurd h (by simp)⟩
    omega
  · rw [if_neg (by rintro (h | h); exact h1 h; exact hfl h)]
    by_cases hml : m.length ≥ MAX_MODE_LEN
    · rw [if_pos (Or.inr hml)]
      simp only [MAX_MODE_LEN] at hml
      refine ⟨⟨fun h => absurd h (by simp), fun h => ?_⟩, fun _ => rfl, fun h => absurd h (by simp)⟩
      omega
    · rw [if_neg (by rintro (h | h); exact h2 h; exact hml h)]
      simp only [MAX_FILENAME_LEN, MAX_MODE_LEN] at hfl hml
      refine ⟨⟨fun _ => by omega, fun _ => rfl⟩, fun h => absurd rfl h, fun _ => ⟨rfl, ?_, ?_⟩⟩
      · show fieldStr (strcpy (strcpy packet.body 0 _) MAX_FILENAME_LEN _) 0 MAX_FILENAME_LEN = f
        rw [fieldStr_strcpy_above _ _ _ _ _ (by omega)]
        exact fieldStr_strcpy _ _ _ _ _ hf (by simp only [MAX_FILENAME_LEN]; omega)
      · show fieldStr (strcpy (strcpy packet.body 0 _) MAX_FILENAME_LEN _) MAX_FILENAME_LEN
          MAX_MODE_LEN = m
        exact fieldStr_strcpy _ _ _ _ _ hm (by simp only [MAX_MODE_LEN]; omega)

theorem parse_request_decode_witness :
    (parse_tftp_packet (htons 1 ++ [97, 98] ++ [0] ++ [111] ++ [0] ++ [5]) ⟨0, fun _ => 0⟩).1 = 0 ∧
    (parse_tftp_packet (htons 1 ++ [97, 98] ++ [0] ++ [111] ++ [0] ++ [5])
      ⟨0, fun _ => 0⟩).2.request_filename = [97, 98] ∧
    (parse_tftp_packet (htons 1 ++ [97, 98] ++ [0] ++ [111] ++ [0] ++ [5])
      ⟨0, fun _ => 0⟩).2.request_mode = [111] :=
  have h := parse_request_decode 1 [97, 98] [111] [5] ⟨0, fun _ => 0⟩ (Or.inl rfl)
    (by simp) (by simp)
  have h0 := h.1.mpr ⟨by simp, by simp⟩
  ⟨h0, (h.2.2 h0).2.1, (h.2.2 h0).2.2⟩

theorem load16_store16 (m : Mem) (off v : Nat) (h : v < 65536) :
    load16 (store16 m off v) off = v := by
  have h0 := memcpy_inside m off [Fin.ofNat v, Fin.ofNat (v / 256)] 0 (by simp)
  have h1 := memcpy_inside m off [Fin.ofNat v, Fin.ofNat (v / 256)] 1 (by simp)
  simp only [Nat.add_zero] at h0
  simp only [load16, store16, h0, h1]
  simp only [List.getD_cons_zero, List.getD_cons_succ, Fin.ofNat]
  omega

theorem load16_memcpy_above (m : Mem) (off off2 : Nat) (s : List Byte) (h : off + 2 ≤ off2) :
    load16 (memcpy m off2 s) off = load16 m off := by
  simp only [load16]
  rw [memcpy_outside _ _ _ _ (Or.inl (by omega)), memcpy_outside _ _ _ _ (Or.inl (by omega))]

theorem readBytes_memcpy (m : Mem) (off : Nat) (s : List Byte) :
    readBytes (memcpy m off s) off s.length = s :=
  readBytes_eq _ _ _ (fun i hi => memcpy_inside m off s i hi)

/-- The fixed-header branches of the decoder on a buffer given by its first four
bytes and the rest. -/
theorem parse_header (b0 b1 b2 b3 : Byte) (rest : List Byte) (packet : tftp_packet_t) :
    parse_tftp_packet (b0 :: b1 :: b2 :: b3 :: rest) packet =
      if ntohs b0 b1 = TFTP_RRQ ∨ ntohs b0 b1 = TFTP_WRQ then
        parse_tftp_packet (b0 :: b1 :: b2 :: b3 :: rest) packet
      else if ntohs b0 b1 = TFTP_DATA then
        if rest.length > DATA_SIZE then
          (-1, { opcode := ntohs b0 b1, body := store16 packet.body 0 (ntohs b2 b3) })
        else
          (0, { opcode := ntohs b0 b1, body := memcpy (store16 packet.body 0 (ntohs b2 b3)) 2 rest })
      else if ntohs b0 b1 = TFTP_ACK then
        if rest.length ≠ 0 then (-1, { packet with opcode := ntohs b0 b1 })
        else (0, { opcode := ntohs b0 b1, body := store16 packet.body 0 (ntohs b2 b3) })
      else if ntohs b0 b1 = TFTP_ERROR then
        if rest.length > 0 ∧ rest.length < 512 then
          (0, { opcode := ntohs b0 b1,
                body := memcpy (memcpy (store16 packet.body 0 (ntohs b2 b3)) 2 rest)
                  (2 + rest.length) [0] })
        else
          (0, { opcode := ntohs b0 b1, body := memcpy (store16 packet.body 0 (ntohs b2 b3)) 2 [0] })
      else (-1, { packet with opcode := ntohs b0 b1 }) := by
  by_cases hreq : ntohs b0 b1 = TFTP_RRQ ∨ ntohs b0 b1 = TFTP_WRQ
  · rw [if_pos hreq]
  · rw [if_neg hreq]
    have hlen : ¬ ((b0 :: b1 :: b2 :: b3 :: rest).length < 2) := by simp
    have hlen4 : ¬ ((b0 :: b1 :: b2 :: b3 :: rest).length < 4) := by simp
    have hsub : (b0 :: b1 :: b2 :: b3 :: rest).length - 4 = rest.length := by simp
    have hne : (b0 :: b1 :: b2 :: b3 :: rest).length ≠ 4 ↔ rest.length ≠ 0 := by simp
    unfold parse_tftp_packet
    simp only [hlen, hlen4, if_false, List.getD_cons_zero, List.getD_cons_succ, hreq, hsub, hne,
      List.drop_succ_cons, List.drop_zero, List.take_length]

/-- C5: for every block number `b` in 0..65535 and every payload of at most 512
bytes, the bytes built by `send_data_packet` (opcode 3 and `b` big-endian, then the
payload) decode successfully to opcode 3, block number `b` and the same payload in
`data.data`; the 4 bytes built by `send_ack_packet` (opcode 4 and `b` big-endian)
decode successfully to opcode 4 and block number `b`. -/
theorem data_ack_round_trip (b : Nat) (payload : List Byte) (packet : tftp_packet_t)
    (hb : b < 65536) (hp : payload.length ≤ 512) :
    (data_packet_bytes b payload
        = [0, 3, Fin.ofNat (b / 256), Fin.ofNat (b % 256)] ++ payload ∧
      (parse_tftp_packet (data_packet_bytes b payload) packet).1 = 0 ∧
      (parse_tftp_packet (data_packet_bytes b payload) packet).2.opcode = 3 ∧
      (parse_tftp_packet (data_packet_bytes b payload) packet).2.data_block_num = b ∧
      (parse_tftp_packet (data_packet_bytes b payload) packet).2.data_data payload.length
        = payload) ∧
    (ack_packet_bytes b = [0, 4, Fin.ofNat (b / 256), Fin.ofNat (b % 256)] ∧
      (parse_tftp_packet (ack_packet_bytes b) packet).1 = 0 ∧
      (parse_tftp_packet (ack_packet_bytes b) packet).2.opcode = 4 ∧
      (parse_tftp_packet (ack_packet_bytes b) packet).2.ack_block_num = b) := by
  have hv : ntohs (Fin.ofNat (b / 256)) (Fin.ofNat (b % 256)) = b := by
    simp only [ntohs, Fin.ofNat]; omega
  have hd : data_packet_bytes b payload
      = 0 :: 3 :: Fin.ofNat (b / 256) :: Fin.ofNat (b % 256) :: payload := by
    have h : htons TFTP_DATA = [0, 3] := by decide
    rw [data_packet_bytes, h]
    simp [htons, Fin.ofNat]
  have ha : ack_packet_bytes b = 0 :: 4 :: Fin.ofNat (b / 256) :: Fin.ofNat (b % 256) :: [] := by
    have h : htons TFTP_ACK = [0, 4] := by decide
    rw [ack_packet_bytes, h]
    simp [htons, Fin.ofNat]
  have h3 : ntohs 0 3 = 3 := by decide
  have h4 : ntohs 0 4 = 4 := by decide
  have hpd : parse_tftp_packet (data_packet_bytes b payload) packet
      = (0, { opcode := 3, body := memcpy (store16 packet.body 0 b) 2 payload }) := by
    rw [hd, parse_header, h3, hv]
    simp [Nat.not_lt.mpr hp]
  have hpa : parse_tftp_packet (ack_packet_bytes b) packet
      = (0, { opcode := 4, body := store16 packet.body 0 b }) := by
    rw [ha, parse_header, h4, hv]
    simp
  refine ⟨⟨by rw [hd]; rfl, by rw [hpd], by rw [hpd], ?_, ?_⟩, ⟨by rw [ha], by rw [hpa], by rw [hpa], ?_⟩⟩
  · rw [hpd]
    show load16 (memcpy (store16 packet.body 0 b) 2 payload) 0 = b
    rw [load16_memcpy_above _ _ _ _ (by omega), load16_store16 _ _ _ hb]
  · rw [hpd]
    exact readBytes_memcpy _ _ _
  · rw [hpa]
    exact load16_store16 _ _ _ hb

theorem data_ack_round_trip_witness :
    (parse_tftp_packet (data_packet_bytes 258 [9, 8, 7]) ⟨0, fun _ => 0⟩).2.data_block_num = 258 ∧
    (parse_tftp_packet (data_packet_bytes 258 [9, 8, 7]) ⟨0, fun _ => 0⟩).2.data_data 3
      = [9, 8, 7] ∧
    (parse_tftp_packet (ack_packet_bytes 258) ⟨0, fun _ => 0⟩).2.ack_block_num = 258 :=
  have h := data_ack_round_trip 258 [9, 8, 7] ⟨0, fun _ => 0⟩ (by omega) (by simp)
  ⟨h.1.2.2.2.1, h.1.2.2.2.2, h.2.2.2.2⟩

/-- The bytes of an ERROR packet for a NUL-free message. -/
theorem error_packet_bytes_eq (c : Nat) (m : List Byte) (hc : c < 65536) (hm : ∀ b ∈ m, b ≠ 0) :
    error_packet_bytes c m
      = 0 :: 5 :: Fin.ofNat (c / 256) :: Fin.ofNat (c % 256) :: (m ++ [0]) := by
  have h : htons TFTP_ERROR = [0, 5] := by decide
  rw [error_packet_bytes, h, c_str_of_no_nul m hm, Nat.mod_eq_of_lt hc]
  simp [htons, Fin.ofNat]

/-- What the decoder makes of the ERROR packet built for a NUL-free message. -/
theorem parse_error_packet (c : Nat) (m : List Byte) (packet : tftp_packet_t)
    (hc : c < 65536) (hm : ∀ b ∈ m, b ≠ 0) :
    parse_tftp_packet (error_packet_bytes c m) packet =
      if m.length + 1 < 512 then
        (0, { opcode := 5,
              body := memcpy (memcpy (store16 packet.body 0 c) 2 (m ++ [0]))
                (2 + (m.length + 1)) [0] })
      else (0, { opcode := 5, body := memcpy (store16 packet.body 0 c) 2 [0] }) := by
  have hv : ntohs (Fin.ofNat (c / 256)) (Fin.ofNat (c % 256)) = c := by
    simp only [ntohs, Fin.ofNat]; omega
  have h5 : ntohs 0 5 = 5 := by decide
  rw [error_packet_bytes_eq c m hc hm, parse_header, h5, hv]
  simp

/-- A message of 511 bytes is decoded as the empty message: its packet carries
512 bytes after the header, which the guard `msg_len < 512` excludes. -/
theorem parse_error_511 (c : Nat) (m : List Byte) (packet : tftp_packet_t)
    (hc : c < 65536) (hm : ∀ b ∈ m, b ≠ 0) (hlen : m.length = 511) :
    (parse_tftp_packet (error_packet_bytes c m) packet).2.error_msg = [] := by
  rw [parse_error_packet c m packet hc hm, if_neg (by omega)]
  show fieldStr (memcpy (store16 packet.body 0 c) 2 [0]) 2 512 = []
  apply fieldStr_eq _ _ _ [] (by simp) (by simp) (by simp)
  exact memcpy_inside _ 2 [0] 0 (by simp)

/-- C6, as the claim states it, fails: a NUL-free message of 511 bytes fits the
516-byte send buffer, yet the decoder returns the empty message for the packet
built from it. -/
theorem error_msg_511_is_dropped :
    (List.replicate 511 (65 : Byte)).length = 511 ∧
    (∀ b ∈ List.replicate 511 (65 : Byte), b ≠ 0) ∧
    (error_packet_bytes 0 (List.replicate 511 65)).length = 516 ∧
    (parse_tftp_packet (error_packet_bytes 0 (List.replicate 511 65)) ⟨0, fun _ => 0⟩).2.error_msg
      = [] ∧
    (parse_tftp_packet (error_packet_bytes 0 (List.replicate 511 65)) ⟨0, fun _ => 0⟩).2.error_msg
      ≠ List.replicate 511 65 := by
  have hl : (List.replicate 511 (65 : Byte)).length = 511 := List.length_replicate _ _
  have hm : ∀ b ∈ List.replicate 511 (65 : Byte), b ≠ 0 := by
    intro b hb
    rw [List.eq_of_mem_replicate hb]
    decide
  have hmsg := parse_error_511 0 _ ⟨0, fun _ => 0⟩ (by omega) hm hl
  refine ⟨hl, hm, ?_, hmsg, ?_⟩
  · rw [error_packet_bytes_eq 0 _ (by omega) hm]
    simp only [List.length_cons, List.length_append, hl, List.length_nil]
  · rw [hmsg]
    intro h
    have h2 := congrArg List.length h
    rw [hl] at h2
    exact absurd h2 (by decide)

/-- C6, amended: for every 16-bit error code `c` and every NUL-free message `m` of at
most 510 bytes, the bytes built by `send_error_packet` decode successfully to
opcode 5, error code `c` and error message `m`. -/
theorem error_round_trip (c : Nat) (m : List Byte) (packet : tftp_packet_t)
    (hc : c < 65536) (hm : ∀ b ∈ m, b ≠ 0) (hlen : m.length ≤ 510) :
    (parse_tftp_packet (error_packet_bytes c m) packet).1 = 0 ∧
    (parse_tftp_packet (error_packet_bytes c m) packet).2.opcode = 5 ∧
    (parse_tftp_packet (error_packet_bytes c m) packet).2.error_code = c ∧
    (parse_tftp_packet (error_packet_bytes c m) packet).2.error_msg = m := by
  rw [parse_error_packet c m packet hc hm, if_pos (by omega)]
  refine ⟨rfl, rfl, ?_, ?_⟩
  · show load16 (memcpy (memcpy (store16 packet.body 0 c) 2 (m ++ [0]))
      (2 + (m.length + 1)) [0]) 0 = c
    rw [load16_memcpy_above _ _ _ _ (by omega), load16_memcpy_above _ _ _ _ (by omega),
      load16_store16 _ _ _ hc]
  · show fieldStr (memcpy (memcpy (store16 packet.body 0 c) 2 (m ++ [0]))
      (2 + (m.length + 1)) [0]) 2 512 = m
    apply fieldStr_eq _ _ _ _ hm (by omega)
    · intro i hi
      rw [memcpy_outside _ _ _ _ (Or.inl (by omega)), memcpy_inside _ _ _ _ (by simp; omega),
        getD_append_nul]
    · rw [memcpy_outside _ _ _ _ (Or.inl (by omega)), memcpy_inside _ _ _ _ (by simp)]
      simp [List.getD_eq_getElem?_getD]

theorem error_round_trip_witness :
    (parse_tftp_packet (error_packet_bytes 6 [70, 105]) ⟨0, fun _ => 0⟩).1 = 0 ∧
    (parse_tftp_packet (error_packet_bytes 6 [70, 105]) ⟨0, fun _ => 0⟩).2.error_code = 6 ∧
    (parse_tftp_packet (error_packet_bytes 6 [70, 105]) ⟨0, fun _ => 0⟩).2.error_msg = [70, 105] :=
  have h := error_round_trip 6 [70, 105] ⟨0, fun _ => 0⟩ (by omega) (by simp) (by simp)
  ⟨h.1, h.2.2.1, h.2.2.2⟩

/-! ## Lemmas on traces -/

theorem sent_append (a b : List Event) : sent (a ++ b) = sent a ++ sent b := by
  simp [sent, List.filterMap_append]

theorem sent_nil : sent [] = [] := rfl

theorem sent_sendto (s : Sock) (bytes : List Byte) (ok : Bool) :
    sent [Event.sendto s bytes ok] = [(s, bytes)] := rfl

theorem sent_recvfrom (r : RecvOutcome) : sent [Event.recvfrom r] = [] := rfl

/-! ## The download loops -/

/-- Fuel beyond the length of the unread stream changes nothing: the file loop of
`handle_rrq` never runs out of it. -/
theorem rrq_file_loop_fuel (env : RrqEnv) :
    ∀ (fuel1 fuel2 : Nat) (rest : List Byte) (st : RrqState),
      rest.length ≤ fuel1 → rest.length ≤ fuel2 →
      rrq_file_loop env fuel1 rest st = rrq_file_loop env fuel2 rest st := by
  intro fuel1
  induction fuel1 with
  | zero =>
    intro fuel2 rest st h1 _
    have hr : rest = [] := List.length_eq_zero.mp (by omega)
    subst hr
    cases fuel2 with
    | zero => rfl
    | succ f2 => simp [rrq_file_loop]
  | succ f1 ih =>
    intro fuel2 rest st h1 h2
    cases fuel2 with
    | zero =>
      have hr : rest = [] := List.length_eq_zero.mp (by omega)
      subst hr
      simp [rrq_file_loop]
    | succ f2 =>
      simp only [rrq_file_loop]
      by_cases hfull : (List.take DATA_SIZE rest).length < DATA_SIZE
      · simp only [hfull, if_true]
      · simp only [hfull, if_false]
        have hlen : DATA_SIZE ≤ rest.length := by
          simp only [List.length_take, DATA_SIZE] at hfull ⊢
          omega
        have hd : (rest.drop DATA_SIZE).length = rest.length - DATA_SIZE := List.length_drop _ _
        simp only [DATA_SIZE] at hlen hd
        rw [ih f2 (rest.drop DATA_SIZE) _ (by simp only [DATA_SIZE]; omega)
          (by simp only [DATA_SIZE]; omega)]

/-- When every `sendto` succeeds and every `recvfrom` times out, the wait loop
sends its block once per remaining try and gives up without an acknowledgment. -/
theorem rrq_wait_loop_timeouts (env : RrqEnv) (data : List Byte)
    (hsend : ∀ tr, env.sendto_ok tr = true)
    (htimeout : ∀ tr, env.recvfrom tr = RecvOutcome.timeout) :
    ∀ (left : Nat) (st : RrqState),
      (rrq_wait_loop env data left st).1 = false ∧
      (rrq_wait_loop env data left st).2.block_num = st.block_num ∧
      sent (rrq_wait_loop env data left st).2.trace
        = sent st.trace ++ List.replicate left (Sock.data_sock, data_packet_bytes st.block_num data) := by
  intro left
  induction left with
  | zero => intro st; simp [rrq_wait_loop]
  | succ n ih =>
    intro st
    simp only [rrq_wait_loop, hsend, htimeout, Bool.not_true, Bool.false_eq_true, if_false]
    refine ⟨(ih _).1, (ih _).2.1, ?_⟩
    rw [(ih _).2.2]
    simp [sent_append, send_data_packet, List.replicate_succ]
    rfl

/-- C2, as the claim states it, fails: with a 3-byte file and a peer that never
answers, block 1 is handed to `sendto` 5 times, not 6, before the ERROR packet. -/
theorem rrq_retry_count_is_five :
    (sent (handle_rrq (silent_env [7, 7, 7]) zero_packet).trace).count
        (Sock.data_sock, data_packet_bytes 1 [7, 7, 7]) = 5 ∧
    ¬ (sent (handle_rrq (silent_env [7, 7, 7]) zero_packet).trace).count
        (Sock.data_sock, data_packet_bytes 1 [7, 7, 7]) = 6 := by
  set_option maxRecDepth 100000 in decide

/-- C2, amended: when the file is not empty, every `sendto` succeeds and every wait
for an acknowledgment times out, `handle_rrq` sends exactly: block 1 five times
(the first transmission and four retransmissions), then one ERROR packet with code 0
and message "Transfer timed out"; nothing else is sent. -/
theorem rrq_retry_bound (env : RrqEnv) (packet : tftp_packet_t) (file : List Byte)
    (hopen : env.fopen (make_filepath (extract_filename packet))
      (decide (parse_mode (extract_mode packet) = tftp_mode_t.MODE_NETASCII)) = some file)
    (hfile : file ≠ [])
    (hsock : env.socket_ok = true) (hbind : env.bind_ok = true)
    (hsend : ∀ tr, env.sendto_ok tr = true)
    (htimeout : ∀ tr, env.recvfrom tr = RecvOutcome.timeout) :
    sent (handle_rrq env packet).trace
      = List.replicate 5 (Sock.data_sock, data_packet_bytes 1 (file.take DATA_SIZE))
        ++ [(Sock.data_sock, error_packet_bytes TFTP_ERROR_NOT_DEFINED (lit "Transfer timed out"))] := by
  obtain ⟨a, rest, rfl⟩ : ∃ a rest, file = a :: rest := List.exists_cons_of_ne_nil hfile
  have hpos : (List.take DATA_SIZE (a :: rest)).length > 0 := by simp [DATA_SIZE]
  simp only [handle_rrq, hopen, hsock, hbind, Bool.not_true, Bool.false_eq_true, if_false,
    List.length_cons, rrq_file_loop, hpos, if_true]
  have h := rrq_wait_loop_timeouts env (List.take DATA_SIZE (a :: rest)) hsend htimeout MAX_RETRIES
    { trace := [Event.fopen (make_filepath (extract_filename packet)) false
        (decide (parse_mode (extract_mode packet) = tftp_mode_t.MODE_NETASCII)) true,
        Event.socket true] ++ [Event.bind true],
      ack_buffer := env.ack_buffer, block_num := 1,
      stats := { stats_zero with start_time := env.start_time } }
  simp only [h.1, Bool.not_false, if_true, sent_append, h.2.2]
  simp [sent, send_error_packet, List.replicate]

theorem rrq_retry_bound_witness :
    sent (handle_rrq (silent_env [7, 7, 7]) zero_packet).trace
      = List.replicate 5 (Sock.data_sock, data_packet_bytes 1 [7, 7, 7])
        ++ [(Sock.data_sock, error_packet_bytes 0 (lit "Transfer timed out"))] :=
  rrq_retry_bound (silent_env [7, 7, 7]) zero_packet [7, 7, 7] rfl (by simp) rfl rfl
    (fun _ => rfl) (fun _ => rfl)

theorem ack_packet_bytes_eq (b : Nat) :
    ack_packet_bytes b = [0, 4, Fin.ofNat (b / 256), Fin.ofNat b] := by
  have h : htons TFTP_ACK = [0, 4] := by decide
  rw [ack_packet_bytes, h]
  rfl

/-- An ACK packet has 4 bytes and fits the 4-byte `ack_buffer` of a download. -/
theorem ack_packet_bytes_fit (b : Nat) : ¬ ((ack_packet_bytes b).length > 4) := by
  rw [ack_packet_bytes_eq]
  simp

/-- The two tests the download makes on a received ACK of block `b`. -/
theorem ack_check (buf : Mem) (b : Nat) (hb : b < 65536) :
    ntohs (memcpy buf 0 ((ack_packet_bytes b).take 4) 0)
        (memcpy buf 0 ((ack_packet_bytes b).take 4) 1) = TFTP_ACK ∧
    ntohs (memcpy buf 0 ((ack_packet_bytes b).take 4) 2)
        (memcpy buf 0 ((ack_packet_bytes b).take 4) 3) = b := by
  rw [ack_packet_bytes_eq]
  simp only [memcpy, ntohs, List.take, List.length_cons, List.length_nil, List.getD_cons_zero,
    List.getD_cons_succ, Fin.ofNat, TFTP_ACK]
  simp
  omega

/-- Against a peer that acknowledges every block, the wait loop sends its block
once and is acknowledged at once. -/
theorem rrq_wait_loop_acked (env : RrqEnv) (data : List Byte)
    (hsend : ∀ tr, env.sendto_ok tr = true) (hpeer : AcksEveryBlock env)
    (left : Nat) (st : RrqState) (hb : st.block_num < 65536) :
    (rrq_wait_loop env data (left + 1) st).1 = true ∧
    (rrq_wait_loop env data (left + 1) st).2.block_num = st.block_num ∧
    sent (rrq_wait_loop env data (left + 1) st).2.trace
      = sent st.trace ++ [(Sock.data_sock, data_packet_bytes st.block_num data)] := by
  have hr := hpeer st.trace st.block_num data hb
  have hc := ack_check st.ack_buffer st.block_num hb
  simp only [rrq_wait_loop, hsend, Bool.not_true, Bool.false_eq_true, if_false, hr, hc.1, hc.2,
    and_self, if_true, ack_packet_bytes_fit]
  refine ⟨trivial, trivial, ?_⟩
  simp [sent_append, send_data_packet]
  rfl

/-- Against a peer that acknowledges every block, the file loop sends the unread
stream as consecutive DATA blocks: numbered from the current block number, none of
them empty, all but the last of 512 bytes, `ceil(rest.length / 512)` in all, whose
payloads concatenate to the stream. -/
theorem rrq_file_loop_acked (env : RrqEnv)
    (hsend : ∀ tr, env.sendto_ok tr = true) (hpeer : AcksEveryBlock env) :
    ∀ (fuel : Nat) (rest : List Byte) (st : RrqState),
      rest.length ≤ fuel → st.block_num + (rest.length + 511) / 512 ≤ 65535 →
      ∃ payloads : List (List Byte),
        sent (rrq_file_loop env fuel rest st).trace
          = sent st.trace ++ (payloads.enumFrom st.block_num).map
              (fun x => (Sock.data_sock, data_packet_bytes x.1 x.2)) ∧
        payloads.length = (rest.length + 511) / 512 ∧
        (∀ i, i + 1 < payloads.length → (payloads.getD i []).length = 512) ∧
        (∀ p ∈ payloads, p ≠ [] ∧ p.length ≤ 512) ∧
        payloads.flatten = rest := by
  intro fuel
  induction fuel with
  | zero =>
    intro rest st h1 _
    have hr : rest = [] := List.length_eq_zero.mp (by omega)
    subst hr
    exact ⟨[], by simp [rrq_file_loop], by simp, by simp, by simp, by simp⟩
  | succ f ih =>
    intro rest st h1 h2
    by_cases hr : rest = []
    · subst hr
      exact ⟨[], by simp [rrq_file_loop], by simp, by simp, by simp, by simp⟩
    · have hlen : 0 < rest.length := List.length_pos.mpr hr
      have hpos : (List.take DATA_SIZE rest).length > 0 := by
        simp only [List.length_take, DATA_SIZE]; omega
      have hb : st.block_num < 65536 := by omega
      have hw := rrq_wait_loop_acked env (List.take DATA_SIZE rest) hsend hpeer 4 st hb
      have hnext : (st.block_num + 1) % 65536 = st.block_num + 1 :=
        Nat.mod_eq_of_lt (by omega)
      simp only [rrq_file_loop, hpos, if_true, hw.1, Bool.not_true, Bool.false_eq_true, if_false,
        hw.2.1, hnext]
      by_cases hshort : (List.take DATA_SIZE rest).length < DATA_SIZE
      · have hrl : rest.length < 512 := by
          simp only [List.length_take, DATA_SIZE] at hshort; omega
        have htake : List.take DATA_SIZE rest = rest := List.take_of_length_le (by
          simp only [DATA_SIZE]; omega)
        simp only [hshort, if_true, hw.2.2]
        refine ⟨[rest], ?_, ?_, ?_, ?_, ?_⟩
        · simp [htake]
        · simp; omega
        · intro i hi; simp at hi
        · intro p hp
          simp at hp
          subst hp
          exact ⟨hr, by omega⟩
        · simp
      · have hrl : 512 ≤ rest.length := by
          simp only [List.length_take, DATA_SIZE] at hshort; omega
        have hchunk : (List.take DATA_SIZE rest).length = 512 := by
          simp only [List.length_take, DATA_SIZE]; omega
        have hd : (rest.drop DATA_SIZE).length = rest.length - 512 := List.length_drop _ _
        simp only [hshort, if_false]
        obtain ⟨ps, hs, hl, hfull, hne, hj⟩ := ih (rest.drop DATA_SIZE)
          { (rrq_wait_loop env (List.take DATA_SIZE rest) MAX_RETRIES st).2 with
            block_num := st.block_num + 1 }
          (by omega) (by show st.block_num + 1 + _ ≤ _; omega)
        refine ⟨List.take DATA_SIZE rest :: ps, ?_, ?_, ?_, ?_, ?_⟩
        · rw [hs]
          show sent (rrq_wait_loop env (List.take DATA_SIZE rest) MAX_RETRIES st).2.trace ++ _ = _
          rw [hw.2.2]
          simp [List.enumFrom_cons]
        · simp only [List.length_cons, hl, hd]; omega
        · intro i hi
          cases i with
          | zero => simpa using hchunk
          | succ j =>
            simp only [List.getD_cons_succ]
            exact hfull j (by simpa using hi)
        · intro p hp
          rcases List.mem_cons.mp hp with h | h
          · subst h
            exact ⟨fun h0 => by rw [h0] at hchunk; simp at hchunk, by omega⟩
          · exact hne p h
        · simp [hj]

theorem acking_env_acks (file : List Byte) : AcksEveryBlock (acking_env file) := by
  intro tr b data _
  show (match (tr ++ [send_data_packet Sock.data_sock b data true]).getLast? with
    | some (Event.sendto _ d _) => RecvOutcome.datagram (htons TFTP_ACK ++ (d.drop 2).take 2)
    | _ => RecvOutcome.timeout) = _
  rw [List.getLast?_concat]
  simp [send_data_packet, data_packet_bytes, ack_packet_bytes, htons]

/-- C1: when the file is opened, the sockets are set up, every `sendto` succeeds and
the peer acknowledges every block it receives, `handle_rrq` on a file of `N` bytes
with fewer than 65535 blocks sends exactly `ceil(N / 512)` datagrams, all of them
DATA blocks on the transfer socket, numbered 1, 2, ... in that order, every block
before the last carrying exactly 512 bytes, and the payloads concatenated in block
order are the bytes of the file. -/
theorem download_completeness (env : RrqEnv) (packet : tftp_packet_t) (file : List Byte)
    (hopen : env.fopen (make_filepath (extract_filename packet))
      (decide (parse_mode (extract_mode packet) = tftp_mode_t.MODE_NETASCII)) = some file)
    (hsock : env.socket_ok = true) (hbind : env.bind_ok = true)
    (hsend : ∀ tr, env.sendto_ok tr = true) (hpeer : AcksEveryBlock env)
    (hN : (file.length + 511) / 512 < 65535) :
    ∃ payloads : List (List Byte),
      sent (handle_rrq env packet).trace
        = (payloads.enumFrom 1).map (fun x => (Sock.data_sock, data_packet_bytes x.1 x.2)) ∧
      payloads.length = (file.length + 511) / 512 ∧
      (∀ i, i + 1 < payloads.length → (payloads.getD i []).length = 512) ∧
      payloads.flatten = file := by
  obtain ⟨ps, hs, hl, hfull, _, hj⟩ := rrq_file_loop_acked env hsend hpeer file.length file
    { trace := [Event.fopen (make_filepath (extract_filename packet)) false
        (decide (parse_mode (extract_mode packet) = tftp_mode_t.MODE_NETASCII)) true,
        Event.socket true] ++ [Event.bind true],
      ack_buffer := env.ack_buffer, block_num := 1,
      stats := { stats_zero with start_time := env.start_time } }
    (Nat.le_refl _) (by show 1 + _ ≤ _; omega)
  refine ⟨ps, ?_, hl, hfull, hj⟩
  simp only [handle_rrq, hopen, hsock, hbind, Bool.not_true, Bool.false_eq_true, if_false,
    sent_append, hs]
  simp [sent]

theorem download_completeness_witness :
    ∃ payloads : List (List Byte),
      sent (handle_rrq (acking_env (List.replicate 1300 7)) zero_packet).trace
        = (payloads.enumFrom 1).map (fun x => (Sock.data_sock, data_packet_bytes x.1 x.2)) ∧
      payloads.length = ((List.replicate 1300 (7 : Byte)).length + 511) / 512 ∧
      (∀ i, i + 1 < payloads.length → (payloads.getD i []).length = 512) ∧
      payloads.flatten = List.replicate 1300 7 :=
  download_completeness (acking_env (List.replicate 1300 7)) zero_packet (List.replicate 1300 7)
    rfl rfl rfl (fun _ => rfl) (acking_env_acks _)
    (by rw [List.length_replicate]; decide)

/-- The example of C1: a 1300-byte file goes out as blocks 1, 2 and 3 carrying
512, 512 and 276 bytes. -/
theorem download_1300 :
    (sent (handle_rrq (acking_env (List.replicate 1300 7)) zero_packet).trace).map
        (fun x => (x.1, x.2.take 4, x.2.length - 4))
      = [(Sock.data_sock, [0, 3, 0, 1], 512), (Sock.data_sock, [0, 3, 0, 2], 512),
         (Sock.data_sock, [0, 3, 0, 3], 276)] := by
  set_option maxRecDepth 1000000 in decide

/-- C7 fails on the code: for an empty file nothing is sent at all, and for a file
of exactly 512 bytes the only datagram sent is DATA block 1 with its 512 bytes; in
neither case does a DATA block with an empty payload follow. -/
theorem rrq_no_empty_final_block :
    sent (handle_rrq (acking_env []) zero_packet).trace = [] ∧
    sent (handle_rrq (acking_env (List.replicate 512 7)) zero_packet).trace
      = [(Sock.data_sock, data_packet_bytes 1 (List.replicate 512 7))] := by
  constructor
  · set_option maxRecDepth 100000 in decide
  · set_option maxRecDepth 1000000 in decide

/-! ## The upload loop -/

theorem data_packet_bytes_eq (b : Nat) (payload : List Byte) :
    data_packet_bytes b payload = 0 :: 3 :: Fin.ofNat (b / 256) :: Fin.ofNat b :: payload := by
  have h : htons TFTP_DATA = [0, 3] := by decide
  rw [data_packet_bytes, h]
  rfl

/-- The header fields the upload reads from its buffer after a DATA packet of
block `b` has been received into it. -/
theorem data_check (buf : Mem) (b : Nat) (payload : List Byte) (hb : b < 65536) :
    ntohs (memcpy buf 0 ((data_packet_bytes b payload).take BUFFER_SIZE) 0)
        (memcpy buf 0 ((data_packet_bytes b payload).take BUFFER_SIZE) 1) = TFTP_DATA ∧
    ntohs (memcpy buf 0 ((data_packet_bytes b payload).take BUFFER_SIZE) 2)
        (memcpy buf 0 ((data_packet_bytes b payload).take BUFFER_SIZE) 3) = b := by
  rw [data_packet_bytes_eq]
  simp only [memcpy, ntohs, List.take_succ_cons, List.length_cons, List.getD_cons_zero,
    List.getD_cons_succ, Fin.ofNat, TFTP_DATA, BUFFER_SIZE]
  simp
  omega

/-- C4: in an active upload session that expects block `e` with `1 ≤ e ≤ 65535`,
a DATA packet numbered `e - 1` makes the pass through the receive loop send exactly
one datagram, the ACK of `e - 1`; nothing is written, the expected block stays `e`,
the pass does not leave the loop and the session goes on with the next input. -/
theorem wrq_duplicate (sendto_ok : List Event → Bool) (inp : WrqInput) (st : WrqState)
    (payload : List Byte) (rest : List WrqInput)
    (he : 1 ≤ st.expected_block ∧ st.expected_block ≤ 65535)
    (hactive : st.transfer_complete = false)
    (hrecv : inp.recv = RecvOutcome.datagram (data_packet_bytes (st.expected_block - 1) payload)) :
    (wrq_iter sendto_ok inp st).1 = false ∧
    (wrq_iter sendto_ok inp st).2.trace
      = st.trace ++ [Event.recvfrom inp.recv,
          send_ack_packet Sock.data_sock (st.expected_block - 1)
            (sendto_ok (st.trace ++ [Event.recvfrom inp.recv]))] ∧
    sent (wrq_iter sendto_ok inp st).2.trace
      = sent st.trace ++ [(Sock.data_sock, ack_packet_bytes (st.expected_block - 1))] ∧
    written (wrq_iter sendto_ok inp st).2.trace = written st.trace ∧
    (wrq_iter sendto_ok inp st).2.expected_block = st.expected_block ∧
    (wrq_iter sendto_ok inp st).2.transfer_complete = false ∧
    wrq_loop sendto_ok (inp :: rest) st
      = wrq_loop sendto_ok rest (wrq_iter sendto_ok inp st).2 := by
  have hc := data_check st.recv_buffer (st.expected_block - 1) payload (by omega)
  have hne : ¬ (st.expected_block - 1 = st.expected_block) := by omega
  have hint : ((st.expected_block - 1 : Nat) : Int) = (st.expected_block : Int) - 1 := by omega
  have hiter : wrq_iter sendto_ok inp st
      = (false, { st with
          trace := st.trace ++ [Event.recvfrom inp.recv] ++
            [send_ack_packet Sock.data_sock (st.expected_block - 1)
              (sendto_ok (st.trace ++ [Event.recvfrom inp.recv]))],
          recv_buffer := memcpy st.recv_buffer 0
            ((data_packet_bytes (st.expected_block - 1) payload).take BUFFER_SIZE),
          stats := { st.stats with retransmissions := st.stats.retransmissions + 1 } }) := by
    unfold wrq_iter
    rw [hrecv]
    simp only [hc.1, hc.2, if_true, hne, if_false, hint]
  refine ⟨by rw [hiter], by rw [hiter]; simp, ?_, ?_, by rw [hiter], by rw [hiter]; exact hactive, ?_⟩
  · rw [hiter]
    simp only [sent_append, List.append_assoc]
    rfl
  · rw [hiter]
    simp [written, send_ack_packet]
  · simp only [wrq_loop, hactive, Bool.false_eq_true, if_false]
    rw [hiter]
    simp

theorem wrq_duplicate_witness :
    sent (wrq_iter (fun _ => true)
        ⟨RecvOutcome.datagram (data_packet_bytes (2 - 1) [5]), true⟩ (upload_state 2)).2.trace
      = sent (upload_state 2).trace ++ [(Sock.data_sock, ack_packet_bytes (2 - 1))] ∧
    written (wrq_iter (fun _ => true)
        ⟨RecvOutcome.datagram (data_packet_bytes (2 - 1) [5]), true⟩ (upload_state 2)).2.trace
      = written (upload_state 2).trace ∧
    (wrq_iter (fun _ => true)
        ⟨RecvOutcome.datagram (data_packet_bytes (2 - 1) [5]), true⟩
        (upload_state 2)).2.expected_block = 2 :=
  have h := wrq_duplicate (fun _ => true)
    ⟨RecvOutcome.datagram (data_packet_bytes (2 - 1) [5]), true⟩ (upload_state 2) [5] []
    ⟨by decide, by decide⟩ rfl rfl
  ⟨h.2.2.1, h.2.2.2.1, h.2.2.2.2.1⟩

theorem written_append (a b : List Event) : written (a ++ b) = written a ++ written b := by
  simp [written, List.filterMap_append]

theorem final_block_accepted_append (a b : List Event) :
    final_block_accepted (a ++ b) ↔ final_block_accepted a ∨ final_block_accepted b := by
  simp only [final_block_accepted, written_append, List.mem_append]
  constructor
  · rintro ⟨x, hx | hx, h⟩
    · exact Or.inl ⟨x, hx, h⟩
    · exact Or.inr ⟨x, hx, h⟩
  · rintro (⟨x, hx, h⟩ | ⟨x, hx, h⟩)
    · exact ⟨x, Or.inl hx, h⟩
    · exact ⟨x, Or.inr hx, h⟩

theorem file_exists_after_append (path : List Byte) (a b : List Event) (e : Bool) :
    file_exists_after path e (a ++ b) = file_exists_after path (file_exists_after path e a) b := by
  simp [file_exists_after, List.foldl_append]

theorem fs_step_neutral (path : List Byte) (e : Bool) (x : Event) (h : x.fs_neutral = true) :
    fs_step path e x = e := by
  cases x with
  | fopen p w t ok => cases w <;> cases ok <;> first | rfl | simp [Event.fs_neutral] at h
  | remove p => simp [Event.fs_neutral] at h
  | fclose => rfl
  | socket ok => rfl
  | bind ok => rfl
  | closesocket => rfl
  | sendto s bytes ok => rfl
  | recvfrom r => rfl
  | fwrite n data ok => rfl

theorem file_exists_after_neutral (path : List Byte) (a : List Event) (e : Bool)
    (h : ∀ x ∈ a, x.fs_neutral = true) : file_exists_after path e a = e := by
  induction a generalizing e with
  | nil => rfl
  | cons x a ih =>
    show file_exists_after path (fs_step path e x) a = e
    rw [fs_step_neutral path e x (h x (List.mem_cons_self _ _))]
    exact ih e (fun y hy => h y (List.mem_cons_of_mem _ hy))

theorem not_mem_of_neutral (a : List Event) (h : ∀ x ∈ a, x.fs_neutral = true) (p : List Byte) :
    Event.remove p ∉ a := by
  intro hm
  have := h _ hm
  simp [Event.fs_neutral] at this

/-- One pass of the receive loop appends events that neither create nor delete a
file, and it sets `transfer_complete` exactly when it writes a final block. -/
theorem wrq_iter_spec (sendto_ok : List Event → Bool) (inp : WrqInput) (st : WrqState) :
    ∃ evs, (wrq_iter sendto_ok inp st).2.trace = st.trace ++ evs ∧
      (∀ x ∈ evs, x.fs_neutral = true) ∧
      ((wrq_iter sendto_ok inp st).2.transfer_complete = true
        ↔ st.transfer_complete = true ∨ final_block_accepted evs) := by
  unfold wrq_iter
  cases hr : inp.recv with
  | timeout =>
    refine ⟨_, by simp only [List.append_assoc]; rfl, ?_, ?_⟩
    · simp [Event.fs_neutral, send_error_packet]
    · simp [final_block_accepted, written, send_error_packet]
  | failure =>
    refine ⟨[Event.recvfrom RecvOutcome.failure], rfl, ?_, ?_⟩
    · simp [Event.fs_neutral]
    · simp [final_block_accepted, written]
  | datagram bytes =>
    simp only
    split_ifs with h1 h2 h3 h4 h5 h6
    · refine ⟨_, by simp only [List.append_assoc]; rfl, ?_, ?_⟩
      · simp [Event.fs_neutral, send_error_packet]
      · simp [final_block_accepted, written, send_error_packet]
    · refine ⟨_, by simp only [List.append_assoc]; rfl, ?_, ?_⟩
      · simp [Event.fs_neutral, send_ack_packet]
      · simp [final_block_accepted, written, send_ack_packet]
        right
        simpa using h4
    · refine ⟨_, by simp only [List.append_assoc]; rfl, ?_, ?_⟩
      · simp [Event.fs_neutral, send_ack_packet]
      · simp [final_block_accepted, written, send_ack_packet]
        intro h
        exact absurd h (by simpa using h4)
    · refine ⟨_, by simp only [List.append_assoc]; rfl, ?_, ?_⟩
      · simp [Event.fs_neutral, send_ack_packet]
      · simp [final_block_accepted, written, send_ack_packet]
    · refine ⟨[_], rfl, ?_, ?_⟩
      · simp [Event.fs_neutral]
      · simp [final_block_accepted, written]
    · refine ⟨[_], rfl, ?_, ?_⟩
      · simp [Event.fs_neutral]
      · simp [final_block_accepted, written]
    · refine ⟨[_], rfl, ?_, ?_⟩
      · simp [Event.fs_neutral]
      · simp [final_block_accepted, written]

/-- The whole receive loop appends events that neither create nor delete a file,
and it ends with `transfer_complete` set exactly when it has written a final block. -/
theorem wrq_loop_spec (sendto_ok : List Event → Bool) :
    ∀ (inputs : List WrqInput) (st : WrqState),
      ∃ evs, (wrq_loop sendto_ok inputs st).trace = st.trace ++ evs ∧
        (∀ x ∈ evs, x.fs_neutral = true) ∧
        ((wrq_loop sendto_ok inputs st).transfer_complete = true
          ↔ st.transfer_complete = true ∨ final_block_accepted evs) := by
  have hnil : ¬ final_block_accepted [] := by simp [final_block_accepted, written]
  intro inputs
  induction inputs with
  | nil =>
    intro st
    unfold wrq_loop
    by_cases hc : st.transfer_complete = true
    · rw [if_pos hc]
      exact ⟨[], by simp, by simp, by simp [hc]⟩
    · rw [if_neg hc]
      exact wrq_iter_spec sendto_ok _ st
  | cons inp rest ih =>
    intro st
    unfold wrq_loop
    by_cases hc : st.transfer_complete = true
    · rw [if_pos hc]
      exact ⟨[], by simp, by simp, by simp [hc]⟩
    · rw [if_neg hc]
      obtain ⟨evs, ht, hn, hiff⟩ := wrq_iter_spec sendto_ok inp st
      by_cases hb : (wrq_iter sendto_ok inp st).1 = true
      · simp only [hb, if_true]
        exact ⟨evs, ht, hn, hiff⟩
      · simp only [hb, Bool.false_eq_true, if_false]
        obtain ⟨evs2, ht2, hn2, hiff2⟩ := ih (wrq_iter sendto_ok inp st).2
        refine ⟨evs ++ evs2, ?_, ?_, ?_⟩
        · rw [ht2, ht, List.append_assoc]
        · intro x hx
          rcases List.mem_append.mp hx with h | h
          · exact hn x h
          · exact hn2 x h
        · rw [hiff2, hiff, final_block_accepted_append, or_assoc]

/-- The teardown of an upload whose loop started after the calls `t0` (which
created the file and wrote nothing) leaves the file in place exactly when a final
block has been accepted. -/
theorem wrq_teardown_spec (env : WrqEnv) (path : List Byte) (t0 : List Event)
    (h0 : file_exists_after path false t0 = true)
    (h0w : ¬ final_block_accepted t0) (h0r : ∀ p, Event.remove p ∉ t0) :
    (file_exists_after path false
        (wrq_teardown env path (wrq_loop env.sendto_ok env.inputs (wrq_begin env t0))).trace = true
      ↔ final_block_accepted
        (wrq_teardown env path (wrq_loop env.sendto_ok env.inputs (wrq_begin env t0))).trace) ∧
    (final_block_accepted
        (wrq_teardown env path (wrq_loop env.sendto_ok env.inputs (wrq_begin env t0))).trace →
      ∀ p, Event.remove p ∉
        (wrq_teardown env path (wrq_loop env.sendto_ok env.inputs (wrq_begin env t0))).trace) ∧
    ((wrq_teardown env path (wrq_loop env.sendto_ok env.inputs (wrq_begin env t0))).transfer_complete
        = true
      ↔ final_block_accepted
        (wrq_teardown env path (wrq_loop env.sendto_ok env.inputs (wrq_begin env t0))).trace) := by
  obtain ⟨evs, ht, hn, hiff⟩ := wrq_loop_spec env.sendto_ok env.inputs (wrq_begin env t0)
  have hb : (wrq_begin env t0).transfer_complete = false := rfl
  have hbt : (wrq_begin env t0).trace = t0 := rfl
  rw [hb] at hiff
  rw [hbt] at ht
  have hclose : ¬ final_block_accepted [Event.fclose, Event.closesocket] := by
    simp [final_block_accepted, written]
  have hrm : ¬ final_block_accepted [Event.remove path] := by
    simp [final_block_accepted, written]
  have hex : file_exists_after path false (t0 ++ evs) = true := by
    rw [file_exists_after_append, h0, file_exists_after_neutral path evs true hn]
  unfold wrq_teardown
  by_cases hc : (wrq_loop env.sendto_ok env.inputs (wrq_begin env t0)).transfer_complete = true
  · have hacc : final_block_accepted evs := by
      rcases hiff.mp hc with h | h
      · exact absurd h (by simp)
      · exact h
    simp only [hc, Bool.not_true, Bool.false_eq_true, if_false, ht]
    have hfin : final_block_accepted (t0 ++ evs ++ [Event.fclose, Event.closesocket]) := by
      rw [final_block_accepted_append, final_block_accepted_append]
      exact Or.inl (Or.inr hacc)
    refine ⟨⟨fun _ => hfin, fun _ => ?_⟩, fun _ p hp => ?_, ⟨fun _ => hfin, fun _ => trivial⟩⟩
    · rw [file_exists_after_append, hex]
      rfl
    · rcases List.mem_append.mp hp with h | h
      · rcases List.mem_append.mp h with h | h
        · exact h0r p h
        · exact not_mem_of_neutral evs hn p h
      · simp at h
  · have hnacc : ¬ final_block_accepted evs := fun h => hc (hiff.mpr (Or.inr h))
    have hcf : (wrq_loop env.sendto_ok env.inputs (wrq_begin env t0)).transfer_complete = false := by
      simpa using hc
    simp only [hcf, Bool.not_false, if_true, ht]
    have hfin : ¬ final_block_accepted
        (t0 ++ evs ++ [Event.fclose, Event.closesocket] ++ [Event.remove path]) := by
      rw [final_block_accepted_append, final_block_accepted_append, final_block_accepted_append]
      tauto
    refine ⟨⟨fun h => ?_, fun h => absurd h hfin⟩, fun h => absurd h hfin,
      ⟨fun h => absurd h (by simp), fun h => absurd h hfin⟩⟩
    rw [file_exists_after_append] at h
    simp [file_exists_after, fs_step] at h

/-- C3: for an upload of a file that is not there yet, whatever the outcomes of the
calls and whatever is received, the file exists after `handle_wrq` has returned
exactly when a final block (a successful write of fewer than 512 bytes) has been
accepted; in that case no `remove` has been called, and `transfer_complete` is set
in exactly that case. -/
theorem upload_atomicity (env : WrqEnv) (packet : tftp_packet_t)
    (hnew : env.file_exists (make_filepath (extract_filename packet)) = false) :
    (file_exists_after (make_filepath (extract_filename packet)) false
        (handle_wrq env packet).trace = true
      ↔ final_block_accepted (handle_wrq env packet).trace) ∧
    (final_block_accepted (handle_wrq env packet).trace →
      ∀ p, Event.remove p ∉ (handle_wrq env packet).trace) ∧
    ((handle_wrq env packet).transfer_complete = true
      ↔ final_block_accepted (handle_wrq env packet).trace) := by
  unfold handle_wrq
  simp only [hnew, Bool.false_eq_true, if_false]
  split_ifs with h1 h2 h3 h4
  · simp [file_exists_after, fs_step, final_block_accepted, written, send_error_packet]
  · simp [file_exists_after, fs_step, final_block_accepted, written, send_error_packet]
  · simp [file_exists_after, fs_step, final_block_accepted, written, send_error_packet]
  · simp [file_exists_after, fs_step, final_block_accepted, written, send_error_packet,
      send_ack_packet]
  · apply wrq_teardown_spec
    · simp [file_exists_after, fs_step, send_ack_packet]
    · simp [final_block_accepted, written, send_ack_packet]
    · simp [send_ack_packet]

theorem upload_atomicity_witness :
    (file_exists_after (make_filepath (extract_filename zero_packet)) false
        (handle_wrq (upload_env [⟨RecvOutcome.datagram (data_packet_bytes 1 [1, 2, 3]), true⟩])
          zero_packet).trace = true
      ↔ final_block_accepted
        (handle_wrq (upload_env [⟨RecvOutcome.datagram (data_packet_bytes 1 [1, 2, 3]), true⟩])
          zero_packet).trace) ∧
    ((handle_wrq (upload_env [⟨RecvOutcome.datagram (data_packet_bytes 1 [1, 2, 3]), true⟩])
          zero_packet).transfer_complete = true
      ↔ final_block_accepted
        (handle_wrq (upload_env [⟨RecvOutcome.datagram (data_packet_bytes 1 [1, 2, 3]), true⟩])
          zero_packet).trace) :=
  have h := upload_atomicity
    (upload_env [⟨RecvOutcome.datagram (data_packet_bytes 1 [1, 2, 3]), true⟩]) zero_packet rfl
  ⟨h.1, h.2.2⟩

/-- The scenario of C3: three full blocks are written, then the write of block 4
fails (or the wait for block 4 times out); the file is gone after the handler. An
upload that ends with a short block leaves the file in place. -/
theorem upload_abort_examples :
    file_exists_after (make_filepath (extract_filename zero_packet)) false
      (handle_wrq (upload_env
        [⟨RecvOutcome.datagram (data_packet_bytes 1 (List.replicate 512 1)), true⟩,
         ⟨RecvOutcome.datagram (data_packet_bytes 2 (List.replicate 512 2)), true⟩,
         ⟨RecvOutcome.datagram (data_packet_bytes 3 (List.replicate 512 3)), true⟩,
         ⟨RecvOutcome.datagram (data_packet_bytes 4 (List.replicate 512 4)), false⟩])
        zero_packet).trace = false ∧
    file_exists_after (make_filepath (extract_filename zero_packet)) false
      (handle_wrq (upload_env
        [⟨RecvOutcome.datagram (data_packet_bytes 1 (List.replicate 512 1)), true⟩,
         ⟨RecvOutcome.datagram (data_packet_bytes 2 (List.replicate 512 2)), true⟩,
         ⟨RecvOutcome.datagram (data_packet_bytes 3 (List.replicate 512 3)), true⟩,
         ⟨RecvOutcome.timeout, true⟩])
        zero_packet).trace = false ∧
    file_exists_after (make_filepath (extract_filename zero_packet)) false
      (handle_wrq (upload_env
        [⟨RecvOutcome.datagram (data_packet_bytes 1 (List.replicate 512 1)), true⟩,
         ⟨RecvOutcome.datagram (data_packet_bytes 2 [9, 9]), true⟩])
        zero_packet).trace = true := by
  refine ⟨?_, ?_, ?_⟩
  · set_option maxRecDepth 1000000 in decide
  · set_option maxRecDepth 1000000 in decide
  · set_option maxRecDepth 1000000 in decide

/-! ## Acceptance of the fixed-header packets -/

/-- The decoder on a buffer of two or three bytes whose opcode is none of the
request opcodes: every branch rejects it. -/
theorem parse_short_header (buffer : List Byte) (packet : tftp_packet_t)
    (h2 : 2 ≤ buffer.length) (h4 : buffer.length < 4)
    (hreq : ¬ (ntohs (buffer.getD 0 0) (buffer.getD 1 0) = TFTP_RRQ ∨
      ntohs (buffer.getD 0 0) (buffer.getD 1 0) = TFTP_WRQ)) :
    (parse_tftp_packet buffer packet).1 = -1 := by
  have hlen : ¬ (buffer.length < 2) := by omega
  have hne : buffer.length ≠ 4 := by omega
  unfold parse_tftp_packet
  simp only [hlen, if_false, hreq, h4, if_true, hne, ne_eq, not_false_eq_true]
  split_ifs <;> rfl

/-- C11: a buffer of at least 2 bytes whose big-endian opcode is neither 1 nor 2 is
accepted exactly when the opcode is 3 (DATA) and the length is between 4 and 516,
or the opcode is 4 (ACK) and the length is 4, or the opcode is 5 (ERROR) and the
length is at least 4; otherwise the status is -1. Hence every opcode outside 1..5
and every DATA packet with more than 512 payload bytes is rejected. -/
theorem parse_fixed_header_acceptance (buffer : List Byte) (packet : tftp_packet_t)
    (h2 : 2 ≤ buffer.length)
    (hreq : ntohs (buffer.getD 0 0) (buffer.getD 1 0) ≠ TFTP_RRQ ∧
      ntohs (buffer.getD 0 0) (buffer.getD 1 0) ≠ TFTP_WRQ) :
    ((parse_tftp_packet buffer packet).1 = 0 ↔
      (ntohs (buffer.getD 0 0) (buffer.getD 1 0) = TFTP_DATA ∧
          4 ≤ buffer.length ∧ buffer.length ≤ 516) ∨
      (ntohs (buffer.getD 0 0) (buffer.getD 1 0) = TFTP_ACK ∧ buffer.length = 4) ∨
      (ntohs (buffer.getD 0 0) (buffer.getD 1 0) = TFTP_ERROR ∧ 4 ≤ buffer.length)) ∧
    ((parse_tftp_packet buffer packet).1 ≠ 0 → (parse_tftp_packet buffer packet).1 = -1) := by
  have hreq2 : ¬ (ntohs (buffer.getD 0 0) (buffer.getD 1 0) = TFTP_RRQ ∨
      ntohs (buffer.getD 0 0) (buffer.getD 1 0) = TFTP_WRQ) := by
    rintro (h | h)
    · exact hreq.1 h
    · exact hreq.2 h
  by_cases h4 : buffer.length < 4
  · have hp := parse_short_header buffer packet h2 h4 hreq2
    rw [hp]
    refine ⟨⟨fun h => absurd h (by decide), ?_⟩, fun _ => rfl⟩
    rintro (⟨_, h, _⟩ | ⟨_, h⟩ | ⟨_, h⟩) <;> omega
  · obtain ⟨b0, b1, b2, b3, rest, rfl⟩ : ∃ b0 b1 b2 b3 rest, buffer = b0 :: b1 :: b2 :: b3 :: rest := by
      match buffer, h4 with
      | b0 :: b1 :: b2 :: b3 :: rest, _ => exact ⟨b0, b1, b2, b3, rest, rfl⟩
      | [], h | [_], h | [_, _], h | [_, _, _], h => simp at h
    simp only [List.getD_cons_zero, List.getD_cons_succ] at hreq hreq2 ⊢
    rw [parse_header, if_neg hreq2]
    simp only [List.length_cons, TFTP_DATA, TFTP_ACK, TFTP_ERROR, DATA_SIZE]
    by_cases hd : ntohs b0 b1 = 3
    · rw [if_pos hd]
      by_cases hl : rest.length > 512
      · rw [if_pos hl]
        refine ⟨⟨fun h => absurd h (by simp), ?_⟩, fun _ => rfl⟩
        rintro (⟨_, _, h⟩ | ⟨h, _⟩ | ⟨h, _⟩) <;> omega
      · rw [if_neg hl]
        exact ⟨⟨fun _ => Or.inl ⟨hd, by omega, by omega⟩, fun _ => rfl⟩, fun h => absurd rfl h⟩
    · rw [if_neg hd]
      by_cases ha : ntohs b0 b1 = 4
      · rw [if_pos ha]
        by_cases hl : rest.length ≠ 0
        · rw [if_pos hl]
          refine ⟨⟨fun h => absurd h (by simp), ?_⟩, fun _ => rfl⟩
          rintro (⟨h, _⟩ | ⟨_, h⟩ | ⟨h, _⟩) <;> omega
        · rw [if_neg hl]
          exact ⟨⟨fun _ => Or.inr (Or.inl ⟨ha, by omega⟩), fun _ => rfl⟩, fun h => absurd rfl h⟩
      · rw [if_neg ha]
        by_cases he : ntohs b0 b1 = 5
        · rw [if_pos he]
          have hok : ∀ x y : tftp_packet_t,
              (if rest.length > 0 ∧ rest.length < 512 then ((0 : Int), x) else (0, y)).1 = 0 := by
            intro x y; split <;> rfl
          refine ⟨⟨fun _ => Or.inr (Or.inr ⟨he, by omega⟩), fun _ => hok _ _⟩,
            fun h => absurd (hok _ _) h⟩
        · rw [if_neg he]
          refine ⟨⟨fun h => absurd h (by simp), ?_⟩, fun _ => rfl⟩
          rintro (⟨h, _⟩ | ⟨h, _⟩ | ⟨h, _⟩) <;> omega

theorem parse_fixed_header_acceptance_witness :
    ((parse_tftp_packet [0, 4, 1, 2] zero_packet).1 = 0 ↔
      (ntohs 0 4 = TFTP_DATA ∧ 4 ≤ 4 ∧ 4 ≤ 516) ∨ (ntohs 0 4 = TFTP_ACK ∧ 4 = 4) ∨
      (ntohs 0 4 = TFTP_ERROR ∧ 4 ≤ 4)) ∧
    ((parse_tftp_packet [0, 9, 1, 2] zero_packet).1 = 0 ↔
      (ntohs 0 9 = TFTP_DATA ∧ 4 ≤ 4 ∧ 4 ≤ 516) ∨ (ntohs 0 9 = TFTP_ACK ∧ 4 = 4) ∨
      (ntohs 0 9 = TFTP_ERROR ∧ 4 ≤ 4)) :=
  ⟨(parse_fixed_header_acceptance [0, 4, 1, 2] zero_packet (by decide)
      ⟨by decide, by decide⟩).1,
   (parse_fixed_header_acceptance [0, 9, 1, 2] zero_packet (by decide)
      ⟨by decide, by decide⟩).1⟩

/-! ## Rejection of a write request for an existing file -/

/-- The first four bytes of an ERROR packet: opcode 5 and the error code. -/
theorem error_packet_bytes_take (c : Nat) (msg : List Byte) (hc : c < 256) :
    (error_packet_bytes c msg).take 4 = [0, 5, 0, Fin.ofNat c] := by
  have h : htons TFTP_ERROR = [0, 5] := by decide
  have h0 : (Fin.ofNat (c / 256) : Byte) = 0 := by
    simp only [Fin.ofNat]
    apply Fin.ext
    show c / 256 % 256 = 0
    omega
  rw [error_packet_bytes, h, Nat.mod_eq_of_lt (by omega)]
  simp [htons, h0]

/-- C14: when the target of a write request already exists, `handle_wrq` makes
exactly three calls: the `fopen` for reading that finds the file, its `fclose`, and
one `sendto` on the socket it was called with, carrying an ERROR packet of code 6.
So no socket is created or bound, no ACK is sent, and the file is neither opened
for writing, written nor removed. -/
theorem wrq_existing_file (env : WrqEnv) (packet : tftp_packet_t)
    (hex : env.file_exists (make_filepath (extract_filename packet)) = true) :
    (handle_wrq env packet).trace
      = [Event.fopen (make_filepath (extract_filename packet)) false true true,
         Event.fclose,
         Event.sendto Sock.sock (error_packet_bytes TFTP_ERROR_FILE_EXISTS (lit "File already exists"))
           (env.sendto_ok [Event.fopen (make_filepath (extract_filename packet)) false true true,
             Event.fclose])] ∧
    sent (handle_wrq env packet).trace
      = [(Sock.sock, error_packet_bytes TFTP_ERROR_FILE_EXISTS (lit "File already exists"))] ∧
    (error_packet_bytes TFTP_ERROR_FILE_EXISTS (lit "File already exists")).take 4 = [0, 5, 0, 6] ∧
    written (handle_wrq env packet).trace = [] ∧
    (∀ e ∈ (handle_wrq env packet).trace, e.fs_neutral = true) ∧
    (∀ ok, Event.socket ok ∉ (handle_wrq env packet).trace) ∧
    (∀ ok, Event.bind ok ∉ (handle_wrq env packet).trace) ∧
    file_exists_after (make_filepath (extract_filename packet)) true
      (handle_wrq env packet).trace = true := by
  have ht : (handle_wrq env packet).trace
      = [Event.fopen (make_filepath (extract_filename packet)) false true true,
         Event.fclose,
         Event.sendto Sock.sock (error_packet_bytes TFTP_ERROR_FILE_EXISTS (lit "File already exists"))
           (env.sendto_ok [Event.fopen (make_filepath (extract_filename packet)) false true true,
             Event.fclose])] := by
    unfold handle_wrq
    simp only [hex, if_true]
    rfl
  refine ⟨ht, ?_, ?_, ?_, ?_, ?_, ?_, ?_⟩
  · rw [ht]; rfl
  · rw [error_packet_bytes_take _ _ (by decide)]; rfl
  · rw [ht]; rfl
  · rw [ht]; simp [Event.fs_neutral]
  · rw [ht]; simp
  · rw [ht]; simp
  · rw [ht]; rfl

theorem wrq_existing_file_witness :
    sent (handle_wrq { upload_env [] with file_exists := fun _ => true } zero_packet).trace
      = [(Sock.sock, error_packet_bytes TFTP_ERROR_FILE_EXISTS (lit "File already exists"))] ∧
    written (handle_wrq { upload_env [] with file_exists := fun _ => true } zero_packet).trace = [] :=
  have h := wrq_existing_file { upload_env [] with file_exists := fun _ => true } zero_packet rfl
  ⟨h.2.1, h.2.2.2.1⟩

/-! ## Decode errors at the dispatcher -/

/-- C13, as the claim states it, fails: a zero-length datagram does not decode, yet
the dispatch loop answers it with nothing at all. -/
theorem main_empty_datagram_no_reply :
    (parse_tftp_packet [] zero_packet).1 = -1 ∧
    (main_iter ⟨RecvOutcome.datagram [], zero_packet, true⟩).trace
      = [Event.recvfrom (RecvOutcome.datagram [])] ∧
    sent (main_iter ⟨RecvOutcome.datagram [], zero_packet, true⟩).trace = [] := by
  refine ⟨?_, ?_, ?_⟩ <;> decide

/-- A datagram that does not fit the 516-byte buffer of `main` is a failed
`recvfrom`: the pass sends nothing, calls no handler and leaves `packet` alone. -/
theorem main_oversize_datagram (inp : MainInput) (bytes : List Byte)
    (hrecv : inp.recv = RecvOutcome.datagram bytes) (hbig : BUFFER_SIZE < bytes.length) :
    main_iter inp = ⟨[Event.recvfrom inp.recv], none, inp.packet⟩ := by
  unfold main_iter
  rw [hrecv]
  simp only [gt_iff_lt, hbig, if_true]

/-- C13, amended: every datagram of 1 to 516 bytes that does not decode (truncated,
malformed or of unknown opcode) is answered by exactly one datagram, an ERROR packet
of code 4 sent on the listening socket, and no handler is called; a datagram of no
byte at all, and one of more than 516 bytes, for which `recvfrom` fails, is answered
by nothing; in every case the loop goes on with the next input. -/
theorem main_decode_error (inp : MainInput) (bytes : List Byte) (rest : List MainInput)
    (hrecv : inp.recv = RecvOutcome.datagram bytes) :
    (bytes ≠ [] → bytes.length ≤ BUFFER_SIZE → (parse_tftp_packet bytes inp.packet).1 = -1 →
      (main_iter inp).trace
        = [Event.recvfrom inp.recv,
           Event.sendto Sock.sock
             (error_packet_bytes TFTP_ERROR_ILLEGAL_OPERATION (lit "Invalid packet format"))
             inp.sendto_ok] ∧
      (error_packet_bytes TFTP_ERROR_ILLEGAL_OPERATION (lit "Invalid packet format")).take 4
        = [0, 5, 0, 4] ∧
      (main_iter inp).call = none) ∧
    (bytes = [] ∨ BUFFER_SIZE < bytes.length →
      (main_iter inp).trace = [Event.recvfrom inp.recv] ∧
      sent (main_iter inp).trace = [] ∧
      (main_iter inp).call = none) ∧
    main_loop (inp :: rest) = main_iter inp :: main_loop rest := by
  refine ⟨?_, ?_, rfl⟩
  · intro hne hfit hbad
    have hbig : ¬ (bytes.length > BUFFER_SIZE) := by omega
    have hlen : ¬ (bytes.length = 0) := by
      cases bytes with
      | nil => exact absurd rfl hne
      | cons a t => simp
    have hneg : (parse_tftp_packet bytes inp.packet).1 < 0 := by
      rw [hbad]; decide
    have hiter : main_iter inp
        = ⟨[Event.recvfrom inp.recv,
            send_error_packet Sock.sock TFTP_ERROR_ILLEGAL_OPERATION (lit "Invalid packet format")
              inp.sendto_ok], none, (parse_tftp_packet bytes inp.packet).2⟩ := by
      unfold main_iter
      rw [hrecv]
      simp only [hbig, hlen, if_false, hneg, if_true]
    refine ⟨by rw [hiter]; rfl, ?_, by rw [hiter]⟩
    rw [error_packet_bytes_take _ _ (by decide)]
    rfl
  · intro h
    have hiter : main_iter inp = ⟨[Event.recvfrom inp.recv], none, inp.packet⟩ := by
      rcases h with h | h
      · subst h
        unfold main_iter
        rw [hrecv]
        rfl
      · exact main_oversize_datagram inp bytes hrecv h
    rw [hiter]
    exact ⟨rfl, rfl, rfl⟩

theorem main_decode_error_witness :
    ((main_iter ⟨RecvOutcome.datagram [0, 9, 1], zero_packet, true⟩).trace
      = [Event.recvfrom (RecvOutcome.datagram [0, 9, 1]),
         Event.sendto Sock.sock
           (error_packet_bytes TFTP_ERROR_ILLEGAL_OPERATION (lit "Invalid packet format")) true] ∧
     (main_iter ⟨RecvOutcome.datagram [0, 9, 1], zero_packet, true⟩).call = none) ∧
    sent (main_iter ⟨RecvOutcome.datagram (List.replicate 517 0), zero_packet, true⟩).trace = [] :=
  have h := (main_decode_error ⟨RecvOutcome.datagram [0, 9, 1], zero_packet, true⟩ [0, 9, 1] []
    rfl).1 (by simp) (by decide) (by decide)
  have h2 := (main_decode_error ⟨RecvOutcome.datagram (List.replicate 517 0), zero_packet, true⟩
    (List.replicate 517 0) [] rfl).2.1
      (Or.inr (by rw [List.length_replicate]; decide))
  ⟨⟨h.1, h.2.2⟩, h2.2.1⟩

/-! ## `parse_mode` -/

theorem tolower_val (a : Byte) :
    (tolower a).val = if 65 ≤ a.val ∧ a.val ≤ 90 then a.val + 32 else a.val := by
  unfold tolower
  split
  · rename_i h
    rw [Fin.val_add]
    show (a.val + 32 % 256) % 256 = a.val + 32
    omega
  · rfl

theorem tolower_eq_iff (a b : Byte) : tolower a = tolower b ↔ ascii_ci_byte_eq a b = true := by
  rw [Fin.ext_iff, tolower_val, tolower_val]
  simp only [ascii_ci_byte_eq, decide_eq_true_eq, Fin.ext_iff]
  split <;> split <;> omega

theorem map_tolower_eq_iff (x y : List Byte) :
    x.map tolower = y.map tolower ↔ ascii_ci_eq x y = true := by
  induction x generalizing y with
  | nil => cases y <;> simp [ascii_ci_eq]
  | cons a x ih =>
    cases y with
    | nil => simp [ascii_ci_eq]
    | cons b y =>
      simp only [List.map_cons, List.cons.injEq, ascii_ci_eq, Bool.and_eq_true, tolower_eq_iff, ih]

/-- C15: `parse_mode` returns `MODE_NETASCII` exactly when the string equals
"netascii" under ASCII case-insensitive comparison, and `MODE_OCTET` for every other
string. -/
theorem parse_mode_spec (s : List Byte) :
    (parse_mode s = tftp_mode_t.MODE_NETASCII ↔ ascii_ci_eq (c_str s) (lit "netascii") = true) ∧
    (parse_mode s = tftp_mode_t.MODE_OCTET ↔ ascii_ci_eq (c_str s) (lit "netascii") = false) := by
  have hc : c_str (lit "netascii") = lit "netascii" := by decide
  have hiff : strcasecmp_eq s (lit "netascii") = true
      ↔ ascii_ci_eq (c_str s) (lit "netascii") = true := by
    unfold strcasecmp_eq
    rw [hc, beq_iff_eq, map_tolower_eq_iff]
  unfold parse_mode
  by_cases h : strcasecmp_eq s (lit "netascii") = true
  · rw [if_pos h]
    refine ⟨⟨fun _ => hiff.mp h, fun _ => rfl⟩, ⟨fun hf => absurd hf (by decide), fun hf => ?_⟩⟩
    rw [hiff.mp h] at hf
    exact absurd hf (by decide)
  · rw [if_neg h]
    have hoct : (if strcasecmp_eq s (lit "octet") = true then tftp_mode_t.MODE_OCTET
        else tftp_mode_t.MODE_OCTET) = tftp_mode_t.MODE_OCTET := by split <;> rfl
    rw [hoct]
    refine ⟨⟨fun hf => absurd hf (by decide), fun hf => absurd (hiff.mpr hf) h⟩,
      ⟨fun _ => ?_, fun _ => rfl⟩⟩
    cases hci : ascii_ci_eq (c_str s) (lit "netascii") with
    | false => rfl
    | true => exact absurd (hiff.mpr hci) h

/-- Instances of C15: letter case is ignored; "octet", the empty string and an
unknown mode give `MODE_OCTET`. -/
theorem parse_mode_examples :
    parse_mode (lit "NetAscii") = tftp_mode_t.MODE_NETASCII ∧
    parse_mode (lit "OCTET") = tftp_mode_t.MODE_OCTET ∧
    parse_mode [] = tftp_mode_t.MODE_OCTET ∧
    parse_mode (lit "mail") = tftp_mode_t.MODE_OCTET ∧
    parse_mode (lit "netascii2") = tftp_mode_t.MODE_OCTET := by
  refine ⟨?_, ?_, ?_, ?_, ?_⟩ <;> (set_option maxRecDepth 100000 in decide)

/-! ## `print_throughput` -/

/-- C16, as the claim states it, fails: for a session of 5 seconds that moved no
byte a throughput figure is reported all the same (0 bytes per second). -/
theorem throughput_reported_for_zero_bytes :
    (⟨0, 0, 5, 0, 0⟩ : tftp_stats_t).bytes_transferred = 0 ∧
    (print_throughput ⟨0, 0, 5, 0, 0⟩).isSome = true ∧
    (print_throughput ⟨0, 0, 5, 0, 0⟩).map (fun r => r.throughput) = some 0 := by
  refine ⟨rfl, by decide, ?_⟩
  simp [print_throughput]

/-- C16, amended: `print_throughput` reports a throughput figure exactly when the
duration `end_time - start_time` is positive, whatever `bytes_transferred` is; the
figure is `bytes_transferred / duration`, so the divisor of a reported figure is
never zero, and nothing is reported for a duration of zero (or less). -/
theorem throughput_report (stats : tftp_stats_t) :
    ((print_throughput stats).isSome = true ↔ 0 < stats.end_time - stats.start_time) ∧
    (stats.end_time - stats.start_time ≤ 0 → print_throughput stats = none) ∧
    (∀ r, print_throughput stats = some r →
      r.duration = stats.end_time - stats.start_time ∧ r.duration ≠ 0 ∧
      r.bytes = stats.bytes_transferred ∧
      r.throughput = (stats.bytes_transferred : ℚ) / (r.duration : ℚ) ∧
      r.throughput * (r.duration : ℚ) = (stats.bytes_transferred : ℚ)) := by
  by_cases h : stats.end_time - stats.start_time > 0
  · have hp : print_throughput stats = some
        { bytes := stats.bytes_transferred,
          duration := stats.end_time - stats.start_time,
          throughput := (stats.bytes_transferred : ℚ) / ((stats.end_time - stats.start_time : Int) : ℚ),
          retransmissions :=
            if stats.retransmissions > 0 then some stats.retransmissions else none } := by
      unfold print_throughput
      rw [if_pos h]
    rw [hp]
    refine ⟨⟨fun _ => h, fun _ => rfl⟩, fun hle => absurd h (by omega), fun r hr => ?_⟩
    have hr2 := (Option.some.inj hr).symm
    subst hr2
    have hd : ((stats.end_time - stats.start_time : Int) : ℚ) ≠ 0 := by
      have : stats.end_time - stats.start_time ≠ 0 := by omega
      exact_mod_cast this
    refine ⟨rfl, ?_, rfl, rfl, div_mul_cancel₀ _ hd⟩
    show stats.end_time - stats.start_time ≠ 0
    omega
  · have hp : print_throughput stats = none := by
      unfold print_throughput
      rw [if_neg h]
    rw [hp]
    refine ⟨⟨fun hs => absurd hs (by simp), fun hpos => absurd hpos h⟩, fun _ => rfl, fun r hr => ?_⟩
    exact absurd hr (by simp)

theorem throughput_report_witness :
    ((print_throughput ⟨1024, 10, 14, 3, 0⟩).isSome = true ↔ (0 : Int) < 14 - 10) ∧
    ((14 : Int) - 14 ≤ 0 → print_throughput ⟨1024, 14, 14, 3, 0⟩ = none) :=
  ⟨(throughput_report ⟨1024, 10, 14, 3, 0⟩).1, (throughput_report ⟨1024, 14, 14, 3, 0⟩).2.1⟩

/-! ## Timeouts, peer errors and stray packets in the upload loop -/

/-- A timeout makes the pass send the ERROR packet "Timeout" and leave the loop. -/
theorem wrq_iter_timeout (sendto_ok : List Event → Bool) (inp : WrqInput) (st : WrqState)
    (hrecv : inp.recv = RecvOutcome.timeout) :
    wrq_iter sendto_ok inp st
      = (true, { st with trace := st.trace ++ [Event.recvfrom RecvOutcome.timeout] ++
          [send_error_packet Sock.data_sock TFTP_ERROR_NOT_DEFINED (lit "Timeout")
            (sendto_ok (st.trace ++ [Event.recvfrom RecvOutcome.timeout]))] }) := by
  unfold wrq_iter
  rw [hrecv]

/-- The receive loop ends on the first timeout, whatever inputs would follow. -/
theorem wrq_loop_timeout (sendto_ok : List Event → Bool) (inp : WrqInput) (rest : List WrqInput)
    (st : WrqState) (hactive : st.transfer_complete = false)
    (hrecv : inp.recv = RecvOutcome.timeout) :
    wrq_loop sendto_ok (inp :: rest) st
      = { st with trace := st.trace ++ [Event.recvfrom RecvOutcome.timeout] ++
          [send_error_packet Sock.data_sock TFTP_ERROR_NOT_DEFINED (lit "Timeout")
            (sendto_ok (st.trace ++ [Event.recvfrom RecvOutcome.timeout]))] } := by
  simp only [wrq_loop, hactive, Bool.false_eq_true, if_false, wrq_iter_timeout sendto_ok inp st hrecv,
    if_true]

/-- C18, as the claim states it, fails: the first wait of an upload times out and
the peer would then send block 1; the handler has sent ACK 0 once and the ERROR
packet "Timeout", nothing else, and has written nothing. -/
theorem wrq_no_retry_on_timeout :
    sent (handle_wrq (upload_env [⟨RecvOutcome.timeout, true⟩,
        ⟨RecvOutcome.datagram (data_packet_bytes 1 [1, 2, 3]), true⟩]) zero_packet).trace
      = [(Sock.data_sock, ack_packet_bytes 0),
         (Sock.data_sock, error_packet_bytes TFTP_ERROR_NOT_DEFINED (lit "Timeout"))] ∧
    written (handle_wrq (upload_env [⟨RecvOutcome.timeout, true⟩,
        ⟨RecvOutcome.datagram (data_packet_bytes 1 [1, 2, 3]), true⟩]) zero_packet).trace = [] := by
  constructor <;> (set_option maxRecDepth 100000 in decide)

/-- C18, amended: in an active upload session a timeout of the wait for the next
DATA block ends the session at once, whatever the peer would send next: the handler
sends one ERROR packet (code 0, "Timeout") and no ACK, writes nothing, closes the
file and the socket and removes the file. No retry is made. -/
theorem wrq_timeout_ends_session (env : WrqEnv) (path : List Byte) (inp : WrqInput)
    (rest : List WrqInput) (st : WrqState)
    (hactive : st.transfer_complete = false) (hrecv : inp.recv = RecvOutcome.timeout) :
    (wrq_teardown env path (wrq_loop env.sendto_ok (inp :: rest) st)).trace
      = st.trace ++ [Event.recvfrom RecvOutcome.timeout,
          Event.sendto Sock.data_sock (error_packet_bytes TFTP_ERROR_NOT_DEFINED (lit "Timeout"))
            (env.sendto_ok (st.trace ++ [Event.recvfrom RecvOutcome.timeout])),
          Event.fclose, Event.closesocket, Event.remove path] ∧
    sent (wrq_teardown env path (wrq_loop env.sendto_ok (inp :: rest) st)).trace
      = sent st.trace
        ++ [(Sock.data_sock, error_packet_bytes TFTP_ERROR_NOT_DEFINED (lit "Timeout"))] ∧
    written (wrq_teardown env path (wrq_loop env.sendto_ok (inp :: rest) st)).trace
      = written st.trace ∧
    (wrq_teardown env path (wrq_loop env.sendto_ok (inp :: rest) st)).expected_block
      = st.expected_block ∧
    (wrq_teardown env path (wrq_loop env.sendto_ok (inp :: rest) st)).transfer_complete = false := by
  rw [wrq_loop_timeout _ _ _ _ hactive hrecv]
  have ht : (wrq_teardown env path { st with trace := st.trace ++ [Event.recvfrom RecvOutcome.timeout] ++
          [send_error_packet Sock.data_sock TFTP_ERROR_NOT_DEFINED (lit "Timeout")
            (env.sendto_ok (st.trace ++ [Event.recvfrom RecvOutcome.timeout]))] }).trace
      = st.trace ++ [Event.recvfrom RecvOutcome.timeout,
          Event.sendto Sock.data_sock (error_packet_bytes TFTP_ERROR_NOT_DEFINED (lit "Timeout"))
            (env.sendto_ok (st.trace ++ [Event.recvfrom RecvOutcome.timeout])),
          Event.fclose, Event.closesocket, Event.remove path] := by
    simp [wrq_teardown, hactive, send_error_packet]
  refine ⟨ht, ?_, ?_, ?_, ?_⟩
  · rw [ht, sent_append]; rfl
  · rw [ht, written_append]
    simp [written]
  · simp [wrq_teardown, hactive]
  · simp [wrq_teardown, hactive]

theorem wrq_timeout_ends_session_witness :
    sent (wrq_teardown (upload_env []) [1]
        (wrq_loop (upload_env []).sendto_ok
          [⟨RecvOutcome.timeout, true⟩, ⟨RecvOutcome.datagram (data_packet_bytes 1 [1, 2, 3]), true⟩]
          (upload_state 1))).trace
      = sent (upload_state 1).trace
        ++ [(Sock.data_sock, error_packet_bytes TFTP_ERROR_NOT_DEFINED (lit "Timeout"))] :=
  (wrq_timeout_ends_session (upload_env []) [1] ⟨RecvOutcome.timeout, true⟩
    [⟨RecvOutcome.datagram (data_packet_bytes 1 [1, 2, 3]), true⟩] (upload_state 1) rfl rfl).2.1

/-- The first wait of `handle_wrq` times out: the handler has sent ACK 0 and the
ERROR packet "Timeout", has received nothing else, and the file is gone. -/
theorem wrq_first_timeout (env : WrqEnv) (packet : tftp_packet_t)
    (w : Bool) (rest : List WrqInput)
    (hnew : env.file_exists (make_filepath (extract_filename packet)) = false)
    (hcreate : env.create_ok (make_filepath (extract_filename packet))
      (decide (parse_mode (extract_mode packet) = tftp_mode_t.MODE_NETASCII)) = true)
    (hsock : env.socket_ok = true) (hbind : env.bind_ok = true)
    (hsend : ∀ tr, env.sendto_ok tr = true)
    (hin : env.inputs = ⟨RecvOutcome.timeout, w⟩ :: rest) :
    sent (handle_wrq env packet).trace
      = [(Sock.data_sock, ack_packet_bytes 0),
         (Sock.data_sock, error_packet_bytes TFTP_ERROR_NOT_DEFINED (lit "Timeout"))] ∧
    (handle_wrq env packet).trace.count (Event.recvfrom RecvOutcome.timeout) = 1 ∧
    (∀ r, Event.recvfrom r ∈ (handle_wrq env packet).trace → r = RecvOutcome.timeout) ∧
    written (handle_wrq env packet).trace = [] ∧
    (handle_wrq env packet).transfer_complete = false ∧
    file_exists_after (make_filepath (extract_filename packet)) false
      (handle_wrq env packet).trace = false := by
  have ht : (handle_wrq env packet).trace
      = [Event.fopen (make_filepath (extract_filename packet)) false true false,
         Event.fopen (make_filepath (extract_filename packet)) true
           (decide (parse_mode (extract_mode packet) = tftp_mode_t.MODE_NETASCII)) true,
         Event.socket true, Event.bind true,
         Event.sendto Sock.data_sock (ack_packet_bytes 0) true,
         Event.recvfrom RecvOutcome.timeout,
         Event.sendto Sock.data_sock (error_packet_bytes TFTP_ERROR_NOT_DEFINED (lit "Timeout")) true,
         Event.fclose, Event.closesocket,
         Event.remove (make_filepath (extract_filename packet))] := by
    unfold handle_wrq
    simp only [hnew, hcreate, hsock, hbind, hsend, hin, Bool.not_true, Bool.false_eq_true, if_false]
    rw [wrq_loop_timeout _ _ _ _ rfl rfl]
    simp [wrq_teardown, wrq_begin, send_ack_packet, send_error_packet, hsend]
  have hc : (handle_wrq env packet).transfer_complete = false := by
    unfold handle_wrq
    simp only [hnew, hcreate, hsock, hbind, hsend, hin, Bool.not_true, Bool.false_eq_true, if_false]
    rw [wrq_loop_timeout _ _ _ _ rfl rfl]
    simp [wrq_teardown, wrq_begin]
  refine ⟨by rw [ht]; rfl, ?_, ?_, by rw [ht]; rfl, hc, ?_⟩
  · rw [ht]; simp
  · rw [ht]; simp
  · rw [ht]; simp [file_exists_after, fs_step]


/-! ## Datagrams that are not the awaited ACK in the download loop -/

/-- A received datagram of at most 4 bytes that is not the ACK of the current block
uses up one try of the wait loop: the loop goes on with one try less (the retry
counter is one higher) and so, if a try is left, sends the block again. The
statistics count the transmission but no retransmission. -/
theorem rrq_wait_loop_mismatch (env : RrqEnv) (data : List Byte) (left : Nat) (st : RrqState)
    (d : List Byte) (hfit : ¬ (d.length > 4)) (hsend : env.sendto_ok st.trace = true)
    (hrecv : env.recvfrom (st.trace ++ [send_data_packet Sock.data_sock st.block_num data true])
      = RecvOutcome.datagram d)
    (hbad : ¬ (ntohs (memcpy st.ack_buffer 0 (d.take 4) 0) (memcpy st.ack_buffer 0 (d.take 4) 1)
        = TFTP_ACK ∧
      ntohs (memcpy st.ack_buffer 0 (d.take 4) 2) (memcpy st.ack_buffer 0 (d.take 4) 3)
        = st.block_num)) :
    rrq_wait_loop env data (left + 1) st
      = rrq_wait_loop env data left
          { st with
            trace := st.trace ++ [send_data_packet Sock.data_sock st.block_num data true,
              Event.recvfrom (RecvOutcome.datagram d)],
            ack_buffer := memcpy st.ack_buffer 0 (d.take 4),
            stats := { st.stats with blocks_sent := st.stats.blocks_sent + 1 } } := by
  conv => lhs; unfold rrq_wait_loop
  simp only [hsend, Bool.not_true, Bool.false_eq_true, if_false, hrecv, hfit, hbad,
    List.append_assoc, List.singleton_append]

/-- A received datagram of more than 4 bytes does not fit `ack_buffer`: the wait
loop is left at once without acknowledgment, whatever the datagram holds. -/
theorem rrq_wait_loop_oversize (env : RrqEnv) (data : List Byte) (left : Nat) (st : RrqState)
    (d : List Byte) (hbig : d.length > 4) (hsend : env.sendto_ok st.trace = true)
    (hrecv : env.recvfrom (st.trace ++ [send_data_packet Sock.data_sock st.block_num data true])
      = RecvOutcome.datagram d) :
    rrq_wait_loop env data (left + 1) st
      = (false, { st with
            trace := st.trace ++ [send_data_packet Sock.data_sock st.block_num data true,
              Event.recvfrom (RecvOutcome.datagram d)],
            ack_buffer := memcpy st.ack_buffer 0 (d.take 4),
            stats := { st.stats with blocks_sent := st.stats.blocks_sent + 1 } }) := by
  conv => lhs; unfold rrq_wait_loop
  simp only [hsend, Bool.not_true, Bool.false_eq_true, if_false, hrecv, hbig, if_true,
    List.append_assoc, List.singleton_append]

/-- The header fields of a buffer into which a datagram of at least four bytes has
been received. -/
theorem memcpy_header (buf : Mem) (b0 b1 b2 b3 : Byte) (tail : List Byte) (n : Nat) (hn : 4 ≤ n) :
    memcpy buf 0 ((b0 :: b1 :: b2 :: b3 :: tail).take n) 0 = b0 ∧
    memcpy buf 0 ((b0 :: b1 :: b2 :: b3 :: tail).take n) 1 = b1 ∧
    memcpy buf 0 ((b0 :: b1 :: b2 :: b3 :: tail).take n) 2 = b2 ∧
    memcpy buf 0 ((b0 :: b1 :: b2 :: b3 :: tail).take n) 3 = b3 := by
  obtain ⟨m, rfl⟩ : ∃ m, n = m + 4 := ⟨n - 4, by omega⟩
  simp [memcpy, List.take_succ_cons]

/-- C19, as the claim states it, fails: a stray ACK 0 while block 1 awaits its
acknowledgment makes the handler send block 1 a second time, and five stray ACKs
end the session with the ERROR packet although the peer would then send ACK 1. -/
theorem rrq_stray_ack_retransmits :
    sent (handle_rrq (scripted_env [7, 7, 7]
        [RecvOutcome.datagram (ack_packet_bytes 0), RecvOutcome.datagram (ack_packet_bytes 1)])
        zero_packet).trace
      = [(Sock.data_sock, data_packet_bytes 1 [7, 7, 7]),
         (Sock.data_sock, data_packet_bytes 1 [7, 7, 7])] ∧
    sent (handle_rrq (scripted_env [7, 7, 7]
        (List.replicate 5 (RecvOutcome.datagram (ack_packet_bytes 0))
          ++ [RecvOutcome.datagram (ack_packet_bytes 1)]))
        zero_packet).trace
      = List.replicate 5 (Sock.data_sock, data_packet_bytes 1 [7, 7, 7])
        ++ [(Sock.data_sock, error_packet_bytes TFTP_ERROR_NOT_DEFINED (lit "Transfer timed out"))] := by
  constructor <;> (set_option maxRecDepth 100000 in decide)

/-- C19, amended: while block `k` awaits its acknowledgment, an ACK whose block
number is not `k` counts as a failed try: the wait loop goes on with one try less
(`retries` is incremented, `stats.retransmissions` is not) and therefore sends block
`k` again if a try is left; when it was the last of the five tries the loop ends
without acknowledgment, after which the handler gives up. -/
theorem rrq_mismatched_ack (env : RrqEnv) (data : List Byte) (left : Nat) (st : RrqState)
    (j : Nat) (hj : j < 65536) (hne : j ≠ st.block_num)
    (hsend : env.sendto_ok st.trace = true)
    (hrecv : env.recvfrom (st.trace ++ [send_data_packet Sock.data_sock st.block_num data true])
      = RecvOutcome.datagram (ack_packet_bytes j)) :
    rrq_wait_loop env data (left + 1) st
      = rrq_wait_loop env data left
          { st with
            trace := st.trace ++ [send_data_packet Sock.data_sock st.block_num data true,
              Event.recvfrom (RecvOutcome.datagram (ack_packet_bytes j))],
            ack_buffer := memcpy st.ack_buffer 0 ((ack_packet_bytes j).take 4),
            stats := { st.stats with blocks_sent := st.stats.blocks_sent + 1 } } ∧
    (rrq_wait_loop env data 1 st).1 = false ∧
    sent (rrq_wait_loop env data 1 st).2.trace
      = sent st.trace ++ [(Sock.data_sock, data_packet_bytes st.block_num data)] ∧
    (rrq_wait_loop env data 1 st).2.stats.retransmissions = st.stats.retransmissions := by
  have hc := ack_check st.ack_buffer j hj
  have hbad : ¬ (ntohs (memcpy st.ack_buffer 0 ((ack_packet_bytes j).take 4) 0)
        (memcpy st.ack_buffer 0 ((ack_packet_bytes j).take 4) 1) = TFTP_ACK ∧
      ntohs (memcpy st.ack_buffer 0 ((ack_packet_bytes j).take 4) 2)
        (memcpy st.ack_buffer 0 ((ack_packet_bytes j).take 4) 3) = st.block_num) := by
    rw [hc.2]
    exact fun h => hne h.2
  have h := fun l => rrq_wait_loop_mismatch env data l st _ (ack_packet_bytes_fit j) hsend hrecv hbad
  refine ⟨h left, ?_, ?_, ?_⟩
  · rw [h 0]; rfl
  · rw [h 0]
    show sent (st.trace ++ _) = _
    rw [sent_append]
    rfl
  · rw [h 0]; rfl

theorem rrq_mismatched_ack_witness :
    (rrq_wait_loop (scripted_env [7] [RecvOutcome.datagram (ack_packet_bytes 0)]) [7] 1
      ⟨[], fun _ => 0, 1, stats_zero⟩).1 = false ∧
    sent (rrq_wait_loop (scripted_env [7] [RecvOutcome.datagram (ack_packet_bytes 0)]) [7] 1
      ⟨[], fun _ => 0, 1, stats_zero⟩).2.trace
      = sent [] ++ [(Sock.data_sock, data_packet_bytes 1 [7])] :=
  have h := rrq_mismatched_ack (scripted_env [7] [RecvOutcome.datagram (ack_packet_bytes 0)])
    [7] 0 ⟨[], fun _ => 0, 1, stats_zero⟩ 0 (by decide) (by decide) rfl rfl
  ⟨h.2.1, h.2.2.1⟩

/-- Four stray ACKs followed by the awaited one still let the transfer go on: block
1 is sent five times, is then acknowledged, and block 2 follows. -/
theorem rrq_four_stray_acks :
    sent (handle_rrq (scripted_env (List.replicate 512 7 ++ [8])
        (List.replicate 4 (RecvOutcome.datagram (ack_packet_bytes 0))
          ++ [RecvOutcome.datagram (ack_packet_bytes 1), RecvOutcome.datagram (ack_packet_bytes 2)]))
        zero_packet).trace
      = List.replicate 5 (Sock.data_sock, data_packet_bytes 1 (List.replicate 512 7))
        ++ [(Sock.data_sock, data_packet_bytes 2 [8])] := by
  set_option maxRecDepth 1000000 in decide

/-! ## ERROR packets and packets of unknown opcode during a transfer -/

/-- The opcode bytes of a buffer into which a datagram of at least two bytes has
been received. -/
theorem memcpy_opcode (buf : Mem) (b0 b1 : Byte) (tail : List Byte) (n : Nat) (hn : 2 ≤ n) :
    memcpy buf 0 ((b0 :: b1 :: tail).take n) 0 = b0 ∧
    memcpy buf 0 ((b0 :: b1 :: tail).take n) 1 = b1 := by
  obtain ⟨m, rfl⟩ : ∃ m, n = m + 2 := ⟨n - 2, by omega⟩
  simp [memcpy, List.take_succ_cons]

/-- An ERROR packet makes the pass of the upload loop leave the loop without
sending anything. -/
theorem wrq_iter_error (sendto_ok : List Event → Bool) (inp : WrqInput) (st : WrqState)
    (b0 b1 : Byte) (tail : List Byte)
    (hrecv : inp.recv = RecvOutcome.datagram (b0 :: b1 :: tail))
    (hop : ntohs b0 b1 = TFTP_ERROR) :
    wrq_iter sendto_ok inp st
      = (true, { st with
          trace := st.trace ++ [Event.recvfrom inp.recv],
          recv_buffer := memcpy st.recv_buffer 0 ((b0 :: b1 :: tail).take BUFFER_SIZE) }) := by
  have hm := memcpy_opcode st.recv_buffer b0 b1 tail BUFFER_SIZE (by decide)
  unfold wrq_iter
  rw [hrecv]
  simp only [hm.1, hm.2, hop]
  simp

/-- A packet that is neither DATA nor ERROR is passed over: nothing is sent and the
loop is not left. -/
theorem wrq_iter_unknown (sendto_ok : List Event → Bool) (inp : WrqInput) (st : WrqState)
    (b0 b1 : Byte) (tail : List Byte)
    (hrecv : inp.recv = RecvOutcome.datagram (b0 :: b1 :: tail))
    (hnd : ntohs b0 b1 ≠ TFTP_DATA) (hne : ntohs b0 b1 ≠ TFTP_ERROR) :
    wrq_iter sendto_ok inp st
      = (false, { st with
          trace := st.trace ++ [Event.recvfrom inp.recv],
          recv_buffer := memcpy st.recv_buffer 0 ((b0 :: b1 :: tail).take BUFFER_SIZE) }) := by
  have hm := memcpy_opcode st.recv_buffer b0 b1 tail BUFFER_SIZE (by decide)
  unfold wrq_iter
  rw [hrecv]
  simp only [hm.1, hm.2, hnd, if_false, hne]

/-- C20, as the claim states it, fails: in an upload a packet of unknown opcode 9
does not abort the session. The handler waits on, the block 1 that follows is
written, a further datagram (ACK 1) is sent and the upload completes. -/
theorem peer_error_not_always_abort :
    written (handle_wrq (upload_env [⟨RecvOutcome.datagram [0, 9, 0, 0], true⟩,
        ⟨RecvOutcome.datagram (data_packet_bytes 1 [1, 2, 3]), true⟩]) zero_packet).trace
      = [(3, [1, 2, 3])] ∧
    sent (handle_wrq (upload_env [⟨RecvOutcome.datagram [0, 9, 0, 0], true⟩,
        ⟨RecvOutcome.datagram (data_packet_bytes 1 [1, 2, 3]), true⟩]) zero_packet).trace
      = [(Sock.data_sock, ack_packet_bytes 0), (Sock.data_sock, ack_packet_bytes 1)] ∧
    (handle_wrq (upload_env [⟨RecvOutcome.datagram [0, 9, 0, 0], true⟩,
        ⟨RecvOutcome.datagram (data_packet_bytes 1 [1, 2, 3]), true⟩]) zero_packet).transfer_complete
      = true := by
  refine ⟨?_, ?_, ?_⟩ <;> (set_option maxRecDepth 100000 in decide)

/-- C20, amended, for an active upload session and a datagram that holds an opcode
and fits the 516-byte receive buffer. An ERROR packet from the peer ends the receive
loop at once, nothing more is sent or written, and the teardown closes the file and
the socket and removes the file. A packet whose opcode is neither DATA nor ERROR is
passed over: nothing is sent and the session goes on with the next input. -/
theorem peer_error_or_unknown (env : WrqEnv) (path : List Byte) (inp : WrqInput)
    (rest : List WrqInput) (st : WrqState) (b0 b1 : Byte) (tail : List Byte)
    (hactive : st.transfer_complete = false)
    (hrecv : inp.recv = RecvOutcome.datagram (b0 :: b1 :: tail))
    (hfit : (b0 :: b1 :: tail).length ≤ BUFFER_SIZE) :
    (ntohs b0 b1 = TFTP_ERROR →
      (wrq_teardown env path (wrq_loop env.sendto_ok (inp :: rest) st)).trace
        = st.trace ++ [Event.recvfrom inp.recv, Event.fclose, Event.closesocket, Event.remove path] ∧
      sent (wrq_teardown env path (wrq_loop env.sendto_ok (inp :: rest) st)).trace
        = sent st.trace ∧
      written (wrq_teardown env path (wrq_loop env.sendto_ok (inp :: rest) st)).trace
        = written st.trace) ∧
    (ntohs b0 b1 ≠ TFTP_DATA → ntohs b0 b1 ≠ TFTP_ERROR →
      wrq_loop env.sendto_ok (inp :: rest) st
        = wrq_loop env.sendto_ok rest { st with
            trace := st.trace ++ [Event.recvfrom inp.recv],
            recv_buffer := memcpy st.recv_buffer 0 (b0 :: b1 :: tail) }) := by
  have htake : (b0 :: b1 :: tail).take BUFFER_SIZE = b0 :: b1 :: tail :=
    List.take_of_length_le hfit
  refine ⟨fun hop => ?_, fun hnd hne => ?_⟩
  · have hl : wrq_loop env.sendto_ok (inp :: rest) st
        = { st with
            trace := st.trace ++ [Event.recvfrom inp.recv],
            recv_buffer := memcpy st.recv_buffer 0 (b0 :: b1 :: tail) } := by
      simp only [wrq_loop, hactive, Bool.false_eq_true, if_false,
        wrq_iter_error env.sendto_ok inp st b0 b1 tail hrecv hop, if_true, htake]
    rw [hl]
    have ht : (wrq_teardown env path { st with
            trace := st.trace ++ [Event.recvfrom inp.recv],
            recv_buffer := memcpy st.recv_buffer 0 (b0 :: b1 :: tail) }).trace
        = st.trace ++ [Event.recvfrom inp.recv, Event.fclose, Event.closesocket,
            Event.remove path] := by
      simp [wrq_teardown, hactive]
    refine ⟨ht, ?_, ?_⟩
    · rw [ht, sent_append]
      simp [sent]
    · rw [ht, written_append]
      simp [written]
  · simp only [wrq_loop, hactive, Bool.false_eq_true, if_false,
      wrq_iter_unknown env.sendto_ok inp st b0 b1 tail hrecv hnd hne, htake]

theorem peer_error_or_unknown_witness :
    sent (wrq_teardown (upload_env []) [1]
        (wrq_loop (upload_env []).sendto_ok
          [⟨RecvOutcome.datagram (error_packet_bytes 0 (lit "stop")), true⟩,
           ⟨RecvOutcome.datagram (data_packet_bytes 1 [1, 2, 3]), true⟩]
          (upload_state 1))).trace
      = sent (upload_state 1).trace ∧
    wrq_loop (upload_env []).sendto_ok
        [⟨RecvOutcome.datagram [0, 9, 0, 0], true⟩,
         ⟨RecvOutcome.datagram (data_packet_bytes 1 [1, 2, 3]), true⟩] (upload_state 1)
      = wrq_loop (upload_env []).sendto_ok
        [⟨RecvOutcome.datagram (data_packet_bytes 1 [1, 2, 3]), true⟩]
        { upload_state 1 with
          trace := (upload_state 1).trace ++ [Event.recvfrom (RecvOutcome.datagram [0, 9, 0, 0])],
          recv_buffer := memcpy (upload_state 1).recv_buffer 0 [0, 9, 0, 0] } :=
  have h := peer_error_or_unknown (upload_env []) [1]
    ⟨RecvOutcome.datagram (error_packet_bytes 0 (lit "stop")), true⟩
    [⟨RecvOutcome.datagram (data_packet_bytes 1 [1, 2, 3]), true⟩] (upload_state 1)
    0 5 [0, 0, 115, 116, 111, 112, 0] rfl (by decide) (by decide)
  have h2 := peer_error_or_unknown (upload_env []) [1]
    ⟨RecvOutcome.datagram [0, 9, 0, 0], true⟩
    [⟨RecvOutcome.datagram (data_packet_bytes 1 [1, 2, 3]), true⟩] (upload_state 1)
    0 9 [0, 0] rfl rfl (by decide)
  ⟨(h.1 (by decide)).2.1, h2.2 (by decide) (by decide)⟩

/-- The download handler has no branch for a packet that is not an ACK. An ERROR
packet from the peer, 5 bytes or more, does not fit the 4-byte `ack_buffer`:
`recvfrom` fails, the handler stops sending the file and answers with an ERROR
packet of its own. A 4-byte packet of another opcode counts as a failed try and the
block is sent again. -/
theorem rrq_peer_error_answered :
    sent (handle_rrq (scripted_env [7, 7, 7]
        [RecvOutcome.datagram (error_packet_bytes 0 (lit "stop")),
         RecvOutcome.datagram (ack_packet_bytes 1)])
        zero_packet).trace
      = [(Sock.data_sock, data_packet_bytes 1 [7, 7, 7]),
         (Sock.data_sock, error_packet_bytes TFTP_ERROR_NOT_DEFINED (lit "Transfer timed out"))] ∧
    sent (handle_rrq (scripted_env [7, 7, 7]
        [RecvOutcome.datagram [0, 9, 0, 0], RecvOutcome.datagram (ack_packet_bytes 1)])
        zero_packet).trace
      = [(Sock.data_sock, data_packet_bytes 1 [7, 7, 7]),
         (Sock.data_sock, data_packet_bytes 1 [7, 7, 7])] := by
  refine ⟨?_, ?_⟩ <;> (set_option maxRecDepth 100000 in decide)

/-! ## The source of a received datagram is not checked -/

theorem no_tid_error_append (a b : List Event) :
    no_tid_error (a ++ b) ↔ no_tid_error a ∧ no_tid_error b := by
  simp only [no_tid_error, sent_append, List.mem_append]
  constructor
  · intro h
    exact ⟨fun x hx => h x (Or.inl hx), fun x hx => h x (Or.inr hx)⟩
  · rintro ⟨ha, hb⟩ x (hx | hx)
    · exact ha x hx
    · exact hb x hx

theorem no_tid_error_nil : no_tid_error [] := by simp [no_tid_error, sent]

theorem no_tid_error_data (s : Sock) (b : Nat) (data : List Byte) (ok : Bool) :
    no_tid_error [send_data_packet s b data ok] := by
  intro x hx
  simp only [send_data_packet, sent_sendto, List.mem_singleton] at hx
  subst hx
  rw [is_tid_error, data_packet_bytes_eq]
  simp

theorem no_tid_error_ack (s : Sock) (b : Nat) (ok : Bool) :
    no_tid_error [send_ack_packet s b ok] := by
  intro x hx
  simp only [send_ack_packet, sent_sendto, List.mem_singleton] at hx
  subst hx
  rw [is_tid_error, ack_packet_bytes_eq]
  simp

theorem no_tid_error_error (s : Sock) (c : Nat) (msg : List Byte) (ok : Bool)
    (hc : c < 256) (h5 : c ≠ 5) : no_tid_error [send_error_packet s c msg ok] := by
  intro x hx
  simp only [send_error_packet, sent_sendto, List.mem_singleton] at hx
  subst hx
  rw [is_tid_error, error_packet_bytes_take c msg hc]
  simp only [beq_eq_false_iff_ne, ne_eq, List.cons.injEq, and_true, true_and]
  intro h
  have hv : (Fin.ofNat c : Byte).val = (5 : Byte).val := congrArg Fin.val h
  have h5v : (5 : Byte).val = 5 := rfl
  have hcv : (Fin.ofNat c : Byte).val = c % 256 := rfl
  rw [h5v, hcv] at hv
  omega

theorem no_tid_error_other (e : Event) (h : ∀ s bytes ok, e ≠ Event.sendto s bytes ok) :
    no_tid_error [e] := by
  cases e with
  | sendto s bytes ok => exact absurd rfl (h s bytes ok)
  | fopen p w t ok => simp [no_tid_error, sent]
  | remove p => simp [no_tid_error, sent]
  | fclose => simp [no_tid_error, sent]
  | socket ok => simp [no_tid_error, sent]
  | bind ok => simp [no_tid_error, sent]
  | closesocket => simp [no_tid_error, sent]
  | recvfrom r => simp [no_tid_error, sent]
  | fwrite n data ok => simp [no_tid_error, sent]

theorem no_tid_error_recvfrom (r : RecvOutcome) : no_tid_error [Event.recvfrom r] :=
  no_tid_error_other _ (fun _ _ _ h => by cases h)

theorem rrq_wait_loop_no_tid_error (env : RrqEnv) (data : List Byte) :
    ∀ (left : Nat) (st : RrqState), no_tid_error st.trace →
      no_tid_error (rrq_wait_loop env data left st).2.trace := by
  intro left
  induction left with
  | zero => intro st h; exact h
  | succ n ih =>
    intro st h
    have h1 : no_tid_error (st.trace ++ [send_data_packet Sock.data_sock st.block_num data
        (env.sendto_ok st.trace)]) :=
      (no_tid_error_append _ _).mpr ⟨h, no_tid_error_data _ _ _ _⟩
    have h2 : ∀ r, no_tid_error (st.trace ++ [send_data_packet Sock.data_sock st.block_num data
        (env.sendto_ok st.trace)] ++ [Event.recvfrom r]) :=
      fun r => (no_tid_error_append _ _).mpr ⟨h1, no_tid_error_recvfrom r⟩
    unfold rrq_wait_loop
    by_cases hs : env.sendto_ok st.trace = true
    · simp only [hs, Bool.not_true, Bool.false_eq_true, if_false]
      rw [hs] at h2
      split
      · exact ih _ (h2 _)
      · exact h2 _
      · split
        · exact h2 _
        · split
          · exact h2 _
          · exact ih _ (h2 _)
    · have hf : env.sendto_ok st.trace = false := by simpa using hs
      rw [hf] at h1
      simp only [hf, Bool.not_false, if_true]
      exact h1

theorem rrq_file_loop_no_tid_error (env : RrqEnv) :
    ∀ (fuel : Nat) (rest : List Byte) (st : RrqState), no_tid_error st.trace →
      no_tid_error (rrq_file_loop env fuel rest st).trace := by
  intro fuel
  induction fuel with
  | zero => intro rest st h; exact h
  | succ n ih =>
    intro rest st h
    have hw := rrq_wait_loop_no_tid_error env (List.take DATA_SIZE rest) MAX_RETRIES st h
    unfold rrq_file_loop
    simp only
    split_ifs
    · exact (no_tid_error_append _ _).mpr
        ⟨hw, no_tid_error_error _ _ _ _ (by decide) (by decide)⟩
    · exact hw
    · exact ih _ _ hw
    · exact h

theorem handle_rrq_no_tid_error (env : RrqEnv) (packet : tftp_packet_t) :
    no_tid_error (handle_rrq env packet).trace := by
  have hfo : ∀ p w t ok, no_tid_error [Event.fopen p w t ok] :=
    fun p w t ok => no_tid_error_other _ (fun _ _ _ h => by cases h)
  have hso : ∀ ok, no_tid_error [Event.socket ok] :=
    fun ok => no_tid_error_other _ (fun _ _ _ h => by cases h)
  have hbi : ∀ ok, no_tid_error [Event.bind ok] :=
    fun ok => no_tid_error_other _ (fun _ _ _ h => by cases h)
  have hfc : no_tid_error [Event.fclose] := no_tid_error_other _ (fun _ _ _ h => by cases h)
  have hcs : no_tid_error [Event.closesocket] := no_tid_error_other _ (fun _ _ _ h => by cases h)
  have herr : ∀ s c msg ok, c < 256 → c ≠ 5 → no_tid_error [send_error_packet s c msg ok] :=
    fun s c msg ok h1 h2 => no_tid_error_error s c msg ok h1 h2
  unfold handle_rrq
  simp only
  split
  · exact (no_tid_error_append [_] [_]).mpr ⟨hfo _ _ _ _, herr _ _ _ _ (by decide) (by decide)⟩
  · split_ifs
    · exact (no_tid_error_append ([_, _] ++ [_]) [_]).mpr
        ⟨(no_tid_error_append [_, _] [_]).mpr
          ⟨(no_tid_error_append [_] [_]).mpr ⟨hfo _ _ _ _, hso _⟩, hfc⟩,
         herr _ _ _ _ (by decide) (by decide)⟩
    · exact (no_tid_error_append ([_, _] ++ [_] ++ [_, _]) [_]).mpr
        ⟨(no_tid_error_append ([_, _] ++ [_]) [_, _]).mpr
          ⟨(no_tid_error_append [_, _] [_]).mpr
            ⟨(no_tid_error_append [_] [_]).mpr ⟨hfo _ _ _ _, hso _⟩, hbi _⟩,
           (no_tid_error_append [_] [_]).mpr ⟨hcs, hfc⟩⟩,
         herr _ _ _ _ (by decide) (by decide)⟩
    · refine (no_tid_error_append _ [_, _]).mpr
        ⟨rrq_file_loop_no_tid_error env _ _ _ ?_, (no_tid_error_append [_] [_]).mpr ⟨hfc, hcs⟩⟩
      exact (no_tid_error_append [_, _] [_]).mpr
        ⟨(no_tid_error_append [_] [_]).mpr ⟨hfo _ _ _ _, hso _⟩, hbi _⟩

theorem wrq_iter_no_tid_error (sendto_ok : List Event → Bool) (inp : WrqInput) (st : WrqState)
    (h : no_tid_error st.trace) : no_tid_error (wrq_iter sendto_ok inp st).2.trace := by
  have hr : no_tid_error (st.trace ++ [Event.recvfrom inp.recv]) :=
    (no_tid_error_append _ _).mpr ⟨h, no_tid_error_recvfrom _⟩
  have hw : ∀ n data ok, no_tid_error [Event.fwrite n data ok] :=
    fun n data ok => no_tid_error_other _ (fun _ _ _ h => by cases h)
  unfold wrq_iter
  cases hrecv : inp.recv with
  | timeout =>
    rw [hrecv] at hr
    exact (no_tid_error_append _ _).mpr ⟨hr, no_tid_error_error _ _ _ _ (by decide) (by decide)⟩
  | failure =>
    rw [hrecv] at hr
    exact hr
  | datagram bytes =>
    rw [hrecv] at hr
    simp only
    split_ifs
    · exact (no_tid_error_append _ _).mpr
        ⟨(no_tid_error_append _ _).mpr ⟨hr, hw _ _ _⟩,
          no_tid_error_error _ _ _ _ (by decide) (by decide)⟩
    · exact (no_tid_error_append _ _).mpr
        ⟨(no_tid_error_append _ _).mpr ⟨hr, hw _ _ _⟩, no_tid_error_ack _ _ _⟩
    · exact (no_tid_error_append _ _).mpr
        ⟨(no_tid_error_append _ _).mpr ⟨hr, hw _ _ _⟩, no_tid_error_ack _ _ _⟩
    · exact (no_tid_error_append _ _).mpr ⟨hr, no_tid_error_ack _ _ _⟩
    · exact hr
    · exact hr
    · exact hr

theorem wrq_loop_no_tid_error (sendto_ok : List Event → Bool) :
    ∀ (inputs : List WrqInput) (st : WrqState), no_tid_error st.trace →
      no_tid_error (wrq_loop sendto_ok inputs st).trace := by
  intro inputs
  induction inputs with
  | nil =>
    intro st h
    unfold wrq_loop
    split
    · exact h
    · exact wrq_iter_no_tid_error _ _ _ h
  | cons inp rest ih =>
    intro st h
    unfold wrq_loop
    simp only
    split_ifs
    · exact h
    · exact wrq_iter_no_tid_error _ _ _ h
    · exact ih _ (wrq_iter_no_tid_error _ _ _ h)

theorem no_tid_error_cons (e : Event) (t : List Event) :
    no_tid_error (e :: t) ↔ no_tid_error [e] ∧ no_tid_error t :=
  no_tid_error_append [e] t

theorem handle_wrq_no_tid_error (env : WrqEnv) (packet : tftp_packet_t) :
    no_tid_error (handle_wrq env packet).trace := by
  have hfo : ∀ p w t ok, no_tid_error [Event.fopen p w t ok] :=
    fun p w t ok => no_tid_error_other _ (fun _ _ _ h => by cases h)
  have hso : ∀ ok, no_tid_error [Event.socket ok] :=
    fun ok => no_tid_error_other _ (fun _ _ _ h => by cases h)
  have hbi : ∀ ok, no_tid_error [Event.bind ok] :=
    fun ok => no_tid_error_other _ (fun _ _ _ h => by cases h)
  have hrm : ∀ p, no_tid_error [Event.remove p] :=
    fun p => no_tid_error_other _ (fun _ _ _ h => by cases h)
  have hfc : no_tid_error [Event.fclose] := no_tid_error_other _ (fun _ _ _ h => by cases h)
  have hcs : no_tid_error [Event.closesocket] := no_tid_error_other _ (fun _ _ _ h => by cases h)
  have h6 : ∀ s msg ok, no_tid_error [send_error_packet s TFTP_ERROR_FILE_EXISTS msg ok] :=
    fun s msg ok => no_tid_error_error s _ msg ok (by decide) (by decide)
  have h2 : ∀ s msg ok, no_tid_error [send_error_packet s TFTP_ERROR_ACCESS_VIOLATION msg ok] :=
    fun s msg ok => no_tid_error_error s _ msg ok (by decide) (by decide)
  have h0 : ∀ s msg ok, no_tid_error [send_error_packet s TFTP_ERROR_NOT_DEFINED msg ok] :=
    fun s msg ok => no_tid_error_error s _ msg ok (by decide) (by decide)
  have hack := no_tid_error_ack
  unfold handle_wrq
  simp only
  split_ifs
  · simp only [List.cons_append, List.nil_append, no_tid_error_cons, hfo, hfc, h6, and_self,
      no_tid_error_nil]
  · simp only [List.cons_append, List.nil_append, no_tid_error_cons, hfo, h2, and_self,
      no_tid_error_nil]
  · simp only [List.cons_append, List.nil_append, no_tid_error_cons, hfo, hso, hfc, hrm, h0,
      and_self, no_tid_error_nil]
  · simp only [List.cons_append, List.nil_append, no_tid_error_cons, hfo, hso, hbi, hcs, hfc, hrm,
      h0, and_self, no_tid_error_nil]
  · simp only [List.cons_append, List.nil_append, no_tid_error_cons, hfo, hso, hbi, hcs, hfc, hrm,
      hack, and_self, no_tid_error_nil]
  · have hl : no_tid_error (wrq_loop env.sendto_ok env.inputs (wrq_begin env
        ([Event.fopen (make_filepath (extract_filename packet)) false true false] ++
          [Event.fopen (make_filepath (extract_filename packet)) true
            (decide (parse_mode (extract_mode packet) = tftp_mode_t.MODE_NETASCII)) true,
            Event.socket env.socket_ok] ++ [Event.bind env.bind_ok] ++
          [send_ack_packet Sock.data_sock 0
            (env.sendto_ok ([Event.fopen (make_filepath (extract_filename packet)) false true false] ++
              [Event.fopen (make_filepath (extract_filename packet)) true
                (decide (parse_mode (extract_mode packet) = tftp_mode_t.MODE_NETASCII)) true,
                Event.socket env.socket_ok] ++ [Event.bind env.bind_ok]))]))).trace := by
      apply wrq_loop_no_tid_error
      show no_tid_error (_ ++ _ ++ _ ++ _)
      simp only [List.cons_append, List.nil_append, no_tid_error_cons, hfo, hso, hbi, hack,
        and_self, no_tid_error_nil]
    unfold wrq_teardown
    simp only
    split_ifs
    · exact (no_tid_error_append _ _).mpr
        ⟨(no_tid_error_append _ _).mpr ⟨hl, (no_tid_error_cons _ _).mpr ⟨hfc, hcs⟩⟩, hrm _⟩
    · exact (no_tid_error_append _ _).mpr ⟨hl, (no_tid_error_cons _ _).mpr ⟨hfc, hcs⟩⟩

/-- C12, as the claim states it, fails. The client is 10.0.0.1:1025. During its
upload a DATA block 1 arrives from 10.0.0.2:2050: it is written to the file and
acknowledged, and no ERROR packet is sent. During its download an ACK of block 1
arrives from 10.0.0.2:2050: it is taken as the awaited ACK and block 2 goes out. -/
theorem foreign_datagram_accepted :
    (⟨167772162, 2050⟩ : Addr) ≠ ⟨167772161, 1025⟩ ∧
    written (handle_wrq (upload_env
        [⟨(Arrival.mk ⟨167772162, 2050⟩ (data_packet_bytes 1 [1, 2, 3])).outcome, true⟩])
        zero_packet).trace = [(3, [1, 2, 3])] ∧
    sent (handle_wrq (upload_env
        [⟨(Arrival.mk ⟨167772162, 2050⟩ (data_packet_bytes 1 [1, 2, 3])).outcome, true⟩])
        zero_packet).trace
      = [(Sock.data_sock, ack_packet_bytes 0), (Sock.data_sock, ack_packet_bytes 1)] ∧
    sent (handle_rrq (scripted_env (List.replicate 512 7 ++ [8])
        [(Arrival.mk ⟨167772162, 2050⟩ (ack_packet_bytes 1)).outcome,
         (Arrival.mk ⟨167772161, 1025⟩ (ack_packet_bytes 2)).outcome])
        zero_packet).trace
      = [(Sock.data_sock, data_packet_bytes 1 (List.replicate 512 7)),
         (Sock.data_sock, data_packet_bytes 2 [8])] := by
  refine ⟨by decide, ?_, ?_, ?_⟩ <;> (set_option maxRecDepth 1000000 in decide)

/-- C12, amended: the handlers make no transfer-ID check. What `recvfrom` gives
them of an arrival is its bytes, whatever its source; and whatever is received,
neither `handle_rrq` nor `handle_wrq` ever sends an ERROR packet of code 5. -/
theorem no_tid_check (renv : RrqEnv) (wenv : WrqEnv) (packet : tftp_packet_t)
    (src1 src2 : Addr) (bytes : List Byte) :
    (Arrival.mk src1 bytes).outcome = (Arrival.mk src2 bytes).outcome ∧
    (∀ x ∈ sent (handle_rrq renv packet).trace, x.2.take 4 ≠ [0, 5, 0, 5]) ∧
    (∀ x ∈ sent (handle_wrq wenv packet).trace, x.2.take 4 ≠ [0, 5, 0, 5]) := by
  refine ⟨rfl, fun x hx => ?_, fun x hx => ?_⟩
  · have h := handle_rrq_no_tid_error renv packet x hx
    simpa [is_tid_error] using h
  · have h := handle_wrq_no_tid_error wenv packet x hx
    simpa [is_tid_error] using h

/-! ## Upload correctness -/

/-- The payload of a datagram is what the upload reads behind the 4-byte header of
its receive buffer. -/
theorem readBytes_recv (buf : Mem) (b0 b1 b2 b3 : Byte) (pl : List Byte) :
    readBytes (memcpy buf 0 (b0 :: b1 :: b2 :: b3 :: pl)) 4 pl.length = pl := by
  apply readBytes_eq
  intro i hi
  have h := memcpy_inside buf 0 (b0 :: b1 :: b2 :: b3 :: pl) (4 + i) (by simp; omega)
  rw [Nat.zero_add] at h
  rw [h]
  simp only [List.getD_eq_getElem?_getD]
  have : (b0 :: b1 :: b2 :: b3 :: pl)[4 + i]? = pl[i]? := by
    rw [Nat.add_comm]
    show (b0 :: b1 :: b2 :: b3 :: pl)[i + 1 + 1 + 1 + 1]? = pl[i]?
    simp only [List.getElem?_cons_succ]
  rw [this]

/-- A pass that receives the expected DATA block, the write succeeding: the payload
is written, the block is acknowledged, the expected number advances, and the
transfer is complete when the payload is shorter than 512 bytes. -/
theorem wrq_iter_accept (sendto_ok : List Event → Bool) (inp : WrqInput) (st : WrqState)
    (payload : List Byte) (hp : payload.length ≤ 512) (he : st.expected_block < 65536)
    (hrecv : inp.recv = RecvOutcome.datagram (data_packet_bytes st.expected_block payload))
    (hw : inp.fwrite_ok = true) :
    (wrq_iter sendto_ok inp st).1 = false ∧
    (wrq_iter sendto_ok inp st).2.trace
      = st.trace ++ [Event.recvfrom inp.recv, Event.fwrite payload.length payload true,
          send_ack_packet Sock.data_sock st.expected_block
            (sendto_ok (st.trace ++ [Event.recvfrom inp.recv,
              Event.fwrite payload.length payload true]))] ∧
    (wrq_iter sendto_ok inp st).2.expected_block = (st.expected_block + 1) % 65536 ∧
    ((wrq_iter sendto_ok inp st).2.transfer_complete = true
      ↔ st.transfer_complete = true ∨ payload.length < 512) := by
  have hc := data_check st.recv_buffer st.expected_block payload he
  have htake : (data_packet_bytes st.expected_block payload).take BUFFER_SIZE
      = data_packet_bytes st.expected_block payload := by
    apply List.take_of_length_le
    rw [data_packet_bytes_eq]
    simp only [List.length_cons, BUFFER_SIZE]
    omega
  have hlen : ((data_packet_bytes st.expected_block payload).length : Int) - 4
      = (payload.length : Int) := by
    rw [data_packet_bytes_eq]
    simp only [List.length_cons]
    push_cast
    omega
  have hdata : readBytes (memcpy st.recv_buffer 0 (data_packet_bytes st.expected_block payload)) 4
      payload.length = payload := by
    rw [data_packet_bytes_eq]
    exact readBytes_recv _ _ _ _ _ _
  rw [htake] at hc
  have hiter : wrq_iter sendto_ok inp st
      = (false, { st with
          trace := st.trace ++ [Event.recvfrom inp.recv] ++
            [Event.fwrite payload.length payload true] ++
            [send_ack_packet Sock.data_sock st.expected_block
              (sendto_ok (st.trace ++ [Event.recvfrom inp.recv] ++
                [Event.fwrite payload.length payload true]))],
          recv_buffer := memcpy st.recv_buffer 0 (data_packet_bytes st.expected_block payload),
          expected_block := (st.expected_block + 1) % 65536,
          transfer_complete := if payload.length < 512 then true else st.transfer_complete,
          stats := { st.stats with bytes_transferred :=
            (((st.stats.bytes_transferred : Int) + (payload.length : Int)) % SIZE_MOD).toNat } }) := by
    unfold wrq_iter
    rw [hrecv]
    simp only [htake, hc.1, hc.2, if_true, hw, Bool.not_true, Bool.false_eq_true, if_false, hlen,
      Int.toNat_ofNat, hdata]
    by_cases hs : payload.length < 512
    · have hs2 : (payload.length : Int) < (DATA_SIZE : Int) := by
        simp only [DATA_SIZE]; omega
      simp only [hs, hs2, if_true]
    · have hs2 : ¬ (payload.length : Int) < (DATA_SIZE : Int) := by
        simp only [DATA_SIZE]; omega
      simp only [hs, hs2, if_false]
  rw [hiter]
  refine ⟨rfl, by simp, rfl, ?_⟩
  show (if payload.length < 512 then true else st.transfer_complete) = true ↔ _
  by_cases hs : payload.length < 512
  · simp [hs]
  · simp [hs]

/-- A pass that receives a DATA block other than the expected one writes nothing
and leaves the expected number as it is. -/
theorem wrq_iter_reject (sendto_ok : List Event → Bool) (inp : WrqInput) (st : WrqState)
    (b : Nat) (payload : List Byte) (hb : b < 65536) (hne : b ≠ st.expected_block)
    (hrecv : inp.recv = RecvOutcome.datagram (data_packet_bytes b payload)) :
    (wrq_iter sendto_ok inp st).1 = false ∧
    written (wrq_iter sendto_ok inp st).2.trace = written st.trace ∧
    (wrq_iter sendto_ok inp st).2.expected_block = st.expected_block ∧
    (wrq_iter sendto_ok inp st).2.transfer_complete = st.transfer_complete := by
  have hc := data_check st.recv_buffer b payload hb
  unfold wrq_iter
  rw [hrecv]
  simp only [hc.1, hc.2, if_true, hne, if_false]
  split
  · refine ⟨rfl, ?_, rfl, rfl⟩
    simp [written, send_ack_packet]
  · refine ⟨rfl, ?_, rfl, rfl⟩
    simp [written]

theorem wrq_teardown_fields (env : WrqEnv) (path : List Byte) (st : WrqState) :
    written (wrq_teardown env path st).trace = written st.trace ∧
    (wrq_teardown env path st).expected_block = st.expected_block ∧
    (wrq_teardown env path st).transfer_complete = st.transfer_complete := by
  unfold wrq_teardown
  simp only
  split
  · refine ⟨?_, rfl, rfl⟩
    simp [written]
  · refine ⟨?_, rfl, rfl⟩
    simp [written]

/-- A pass of the receive loop writes no negative length when its datagram (if any)
has at least the four bytes of a header. -/
theorem wrq_iter_written_nonneg (sendto_ok : List Event → Bool) (inp : WrqInput) (st : WrqState)
    (hlen : ∀ d, inp.recv = RecvOutcome.datagram d → 4 ≤ d.length)
    (h : ∀ x ∈ written st.trace, 0 ≤ x.1) :
    ∀ x ∈ written (wrq_iter sendto_ok inp st).2.trace, 0 ≤ x.1 := by
  unfold wrq_iter
  cases hr : inp.recv with
  | timeout =>
    intro x hx
    simp [written_append, written, send_error_packet] at hx
    exact h x (by simpa [written] using hx)
  | failure =>
    intro x hx
    simp [written_append, written] at hx
    exact h x (by simpa [written] using hx)
  | datagram bytes =>
    have h4 := hlen bytes hr
    have hl : (0 : Int) ≤ (516 : Int) ⊓ (bytes.length : Int) - 4 := by
      have : (4 : Int) ≤ (516 : Int) ⊓ (bytes.length : Int) := le_inf (by decide) (by exact_mod_cast h4)
      omega
    intro x hx
    simp only at hx
    split_ifs at hx <;>
      simp only [written_append, List.mem_append] at hx <;>
      simp [written, send_error_packet, send_ack_packet] at hx
    all_goals
      first
      | exact h x (by simpa [written] using hx)
      | (rcases hx with hx | hx
         · exact h x (by simpa [written] using hx)
         · rw [hx]; exact hl)

/-- The receive loop writes no negative length when every datagram it receives has
at least the four bytes of a header. -/
theorem wrq_loop_written_nonneg (sendto_ok : List Event → Bool) :
    ∀ (inputs : List WrqInput) (st : WrqState),
      (∀ i ∈ inputs, ∀ d, i.recv = RecvOutcome.datagram d → 4 ≤ d.length) →
      (∀ x ∈ written st.trace, 0 ≤ x.1) →
      ∀ x ∈ written (wrq_loop sendto_ok inputs st).trace, 0 ≤ x.1 := by
  intro inputs
  induction inputs with
  | nil =>
    intro st _ h
    unfold wrq_loop
    split
    · exact h
    · exact wrq_iter_written_nonneg sendto_ok _ st (fun d hd => by cases hd) h
  | cons inp rest ih =>
    intro st hlen h
    have h1 := wrq_iter_written_nonneg sendto_ok inp st (hlen inp (List.mem_cons_self _ _)) h
    unfold wrq_loop
    split
    · exact h
    · simp only
      split
      · exact h1
      · exact ih _ (fun i hi => hlen i (List.mem_cons_of_mem _ hi)) h1

/-- The upload handler writes no negative length when every datagram it receives
has at least the four bytes of a header. -/
theorem handle_wrq_written_nonneg (env : WrqEnv) (packet : tftp_packet_t)
    (hlen : ∀ i ∈ env.inputs, ∀ d, i.recv = RecvOutcome.datagram d → 4 ≤ d.length) :
    ∀ x ∈ written (handle_wrq env packet).trace, 0 ≤ x.1 := by
  unfold handle_wrq
  simp only
  split_ifs
  · simp [written, send_error_packet]
  · simp [written, send_error_packet]
  · simp [written, send_error_packet]
  · simp [written, send_error_packet]
  · simp [written, send_ack_packet]
  · rw [(wrq_teardown_fields _ _ _).1]
    apply wrq_loop_written_nonneg _ _ _ hlen
    simp [wrq_begin, written, send_ack_packet]

/-- An upload in two blocks: 512 bytes, then 2 bytes. Both are written in order,
each is acknowledged, and the file holds the 514 bytes. -/
theorem upload_two_blocks :
    sent (handle_wrq (upload_env
        [⟨RecvOutcome.datagram (data_packet_bytes 1 (List.replicate 512 1)), true⟩,
         ⟨RecvOutcome.datagram (data_packet_bytes 2 [9, 9]), true⟩]) zero_packet).trace
      = [(Sock.data_sock, ack_packet_bytes 0), (Sock.data_sock, ack_packet_bytes 1),
         (Sock.data_sock, ack_packet_bytes 2)] ∧
    file_content (handle_wrq (upload_env
        [⟨RecvOutcome.datagram (data_packet_bytes 1 (List.replicate 512 1)), true⟩,
         ⟨RecvOutcome.datagram (data_packet_bytes 2 [9, 9]), true⟩]) zero_packet).trace
      = List.replicate 512 1 ++ [9, 9] ∧
    (handle_wrq (upload_env
        [⟨RecvOutcome.datagram (data_packet_bytes 1 (List.replicate 512 1)), true⟩,
         ⟨RecvOutcome.datagram (data_packet_bytes 2 [9, 9]), true⟩]) zero_packet).transfer_complete
      = true := by
  refine ⟨?_, ?_, ?_⟩ <;> (set_option maxRecDepth 1000000 in decide)

/-! ## Out-of-order blocks in the upload loop -/

/-- A pass of the upload loop that receives a DATA packet whose block number is
neither the expected one nor the one before it: the packet is passed over. Nothing
is sent or written, no variable of the session changes but the receive buffer, and
the pass does not leave the loop. -/
theorem wrq_iter_out_of_order (sendto_ok : List Event → Bool) (inp : WrqInput) (st : WrqState)
    (b : Nat) (payload : List Byte) (hb : b < 65536) (hne : b ≠ st.expected_block)
    (hprev : (b : Int) ≠ (st.expected_block : Int) - 1)
    (hrecv : inp.recv = RecvOutcome.datagram (data_packet_bytes b payload)) :
    wrq_iter sendto_ok inp st
      = (false, { st with
          trace := st.trace ++ [Event.recvfrom inp.recv],
          recv_buffer := memcpy st.recv_buffer 0
            ((data_packet_bytes b payload).take BUFFER_SIZE) }) := by
  have hc := data_check st.recv_buffer b payload hb
  unfold wrq_iter
  rw [hrecv]
  simp only [hc.1, hc.2, if_true, hne, if_false, hprev]

/-- C21, as the claim states it, fails: the upload expects block 1, a DATA packet
numbered 7 arrives, and the session goes on: the block 1 that follows is written
and acknowledged and the upload completes. -/
theorem wrq_out_of_order_goes_on :
    written (handle_wrq (upload_env [⟨RecvOutcome.datagram (data_packet_bytes 7 [9]), true⟩,
        ⟨RecvOutcome.datagram (data_packet_bytes 1 [1, 2, 3]), true⟩]) zero_packet).trace
      = [(3, [1, 2, 3])] ∧
    sent (handle_wrq (upload_env [⟨RecvOutcome.datagram (data_packet_bytes 7 [9]), true⟩,
        ⟨RecvOutcome.datagram (data_packet_bytes 1 [1, 2, 3]), true⟩]) zero_packet).trace
      = [(Sock.data_sock, ack_packet_bytes 0), (Sock.data_sock, ack_packet_bytes 1)] ∧
    (handle_wrq (upload_env [⟨RecvOutcome.datagram (data_packet_bytes 7 [9]), true⟩,
        ⟨RecvOutcome.datagram (data_packet_bytes 1 [1, 2, 3]), true⟩]) zero_packet).transfer_complete
      = true := by
  refine ⟨?_, ?_, ?_⟩ <;> (set_option maxRecDepth 100000 in decide)

/-- C21, amended: in an active upload session that expects block `e`, a DATA packet
whose block number is neither `e` nor `e - 1` is passed over: the pass sends
nothing, writes nothing, leaves the expected block and the completion flag as they
were and does not leave the receive loop, which goes on with the next input. -/
theorem wrq_out_of_order_ignored (sendto_ok : List Event → Bool) (inp : WrqInput)
    (st : WrqState) (b : Nat) (payload : List Byte) (rest : List WrqInput)
    (hb : b < 65536) (hne : b ≠ st.expected_block)
    (hprev : (b : Int) ≠ (st.expected_block : Int) - 1)
    (hactive : st.transfer_complete = false)
    (hrecv : inp.recv = RecvOutcome.datagram (data_packet_bytes b payload)) :
    (wrq_iter sendto_ok inp st).1 = false ∧
    (wrq_iter sendto_ok inp st).2.trace = st.trace ++ [Event.recvfrom inp.recv] ∧
    sent (wrq_iter sendto_ok inp st).2.trace = sent st.trace ∧
    written (wrq_iter sendto_ok inp st).2.trace = written st.trace ∧
    (wrq_iter sendto_ok inp st).2.expected_block = st.expected_block ∧
    (wrq_iter sendto_ok inp st).2.transfer_complete = false ∧
    wrq_loop sendto_ok (inp :: rest) st
      = wrq_loop sendto_ok rest (wrq_iter sendto_ok inp st).2 := by
  have hiter := wrq_iter_out_of_order sendto_ok inp st b payload hb hne hprev hrecv
  refine ⟨by rw [hiter], by rw [hiter], ?_, ?_, by rw [hiter], by rw [hiter]; exact hactive, ?_⟩
  · rw [hiter, sent_append]
    simp [sent]
  · rw [hiter, written_append]
    simp [written]
  · simp only [wrq_loop, hactive, Bool.false_eq_true, if_false]
    rw [hiter]
    simp

theorem wrq_out_of_order_ignored_witness :
    sent (wrq_iter (fun _ => true)
        ⟨RecvOutcome.datagram (data_packet_bytes 7 [9]), true⟩ (upload_state 1)).2.trace
      = sent (upload_state 1).trace ∧
    wrq_loop (fun _ => true)
        (⟨RecvOutcome.datagram (data_packet_bytes 7 [9]), true⟩ ::
          [⟨RecvOutcome.datagram (data_packet_bytes 1 [1, 2, 3]), true⟩]) (upload_state 1)
      = wrq_loop (fun _ => true) [⟨RecvOutcome.datagram (data_packet_bytes 1 [1, 2, 3]), true⟩]
          (wrq_iter (fun _ => true)
            ⟨RecvOutcome.datagram (data_packet_bytes 7 [9]), true⟩ (upload_state 1)).2 :=
  have h := wrq_out_of_order_ignored (fun _ => true)
    ⟨RecvOutcome.datagram (data_packet_bytes 7 [9]), true⟩ (upload_state 1) 7 [9]
    [⟨RecvOutcome.datagram (data_packet_bytes 1 [1, 2, 3]), true⟩]
    (by decide) (by decide) (by decide) rfl rfl
  ⟨h.2.2.1, h.2.2.2.2.2.2⟩

/-! ## The duplicate test at the wraparound of the block number -/

/-- The comparison `block_num == expected_block - 1` is made on `int` values. It
agrees with the 16-bit predecessor `(e - 1) mod 65536` for every `e` but `0`, where
`expected_block - 1` is `-1` and no block number equals it. -/
theorem prev_block_int (e b : Nat) (he : e < 65536) (hb : b < 65536) :
    ((b : Int) = (e : Int) - 1 ↔ e ≠ 0 ∧ b = (e + 65535) % 65536) := by
  omega

/-- C29 fails on the code. An upload that has accepted block 65535 expects block 0
(the counter is an `unsigned short`). A DATA packet numbered 65535, which is
`(0 - 1) mod 65536` and so the block just accepted, is then not recognised as the
preceding block: the pass sends no ACK, it only receives. -/
theorem wraparound_duplicate_not_acked (sendto_ok : List Event → Bool) (w c : Bool)
    (payload : List Byte) (t : List Event) (buf : Mem) (stats : tftp_stats_t) :
    (wrq_iter (fun _ => true)
        ⟨RecvOutcome.datagram (data_packet_bytes 65535 (List.replicate 512 7)), true⟩
        (upload_state 65535)).2.expected_block = 0 ∧
    (0 + 65535) % 65536 = 65535 ∧
    wrq_iter sendto_ok ⟨RecvOutcome.datagram (data_packet_bytes 65535 payload), w⟩
        ⟨t, buf, 0, c, stats⟩
      = (false, ⟨t ++ [Event.recvfrom (RecvOutcome.datagram (data_packet_bytes 65535 payload))],
          memcpy buf 0 ((data_packet_bytes 65535 payload).take BUFFER_SIZE), 0, c, stats⟩) ∧
    sent (wrq_iter sendto_ok ⟨RecvOutcome.datagram (data_packet_bytes 65535 payload), w⟩
        ⟨t, buf, 0, c, stats⟩).2.trace = sent t := by
  have h1 := (wrq_iter_accept (fun _ => true)
    ⟨RecvOutcome.datagram (data_packet_bytes 65535 (List.replicate 512 7)), true⟩
    (upload_state 65535) (List.replicate 512 7) (by rw [List.length_replicate]) (by decide) rfl rfl).2.2.1
  have h2 := wrq_iter_out_of_order sendto_ok
    ⟨RecvOutcome.datagram (data_packet_bytes 65535 payload), w⟩ ⟨t, buf, 0, c, stats⟩
    65535 payload (by decide) (by show 65535 ≠ 0; decide)
    (by show ((65535 : Nat) : Int) ≠ ((0 : Nat) : Int) - 1; decide) rfl
  refine ⟨h1, rfl, h2, ?_⟩
  rw [h2, sent_append]
  simp [sent]

/-- The duplicate of the block just accepted is acknowledged again after every
block number but 65535: an instance with expected block 2 next to the one with
expected block 0. -/
theorem duplicate_ack_around_wraparound :
    sent (wrq_iter (fun _ => true) ⟨RecvOutcome.datagram (data_packet_bytes 1 [5]), true⟩
        (upload_state 2)).2.trace = [(Sock.data_sock, ack_packet_bytes 1)] ∧
    sent (wrq_iter (fun _ => true) ⟨RecvOutcome.datagram (data_packet_bytes 65535 [5]), true⟩
        (upload_state 0)).2.trace = [] := by
  constructor <;> (set_option maxRecDepth 100000 in decide)

/-! ## The length handed to `fwrite` by the upload -/

/-- A pass of the receive loop asks `fwrite` for at most 512 bytes. -/
theorem wrq_iter_written_le (sendto_ok : List Event → Bool) (inp : WrqInput) (st : WrqState)
    (h : ∀ x ∈ written st.trace, x.1 ≤ 512) :
    ∀ x ∈ written (wrq_iter sendto_ok inp st).2.trace, x.1 ≤ 512 := by
  unfold wrq_iter
  cases hr : inp.recv with
  | timeout =>
    intro x hx
    simp [written_append, written, send_error_packet] at hx
    exact h x (by simpa [written] using hx)
  | failure =>
    intro x hx
    simp [written_append, written] at hx
    exact h x (by simpa [written] using hx)
  | datagram bytes =>
    have hl : (516 : Int) ⊓ (bytes.length : Int) - 4 ≤ 512 := by
      have : (516 : Int) ⊓ (bytes.length : Int) ≤ 516 := inf_le_left
      omega
    intro x hx
    simp only at hx
    split_ifs at hx <;>
      simp only [written_append, List.mem_append] at hx <;>
      simp [written, send_error_packet, send_ack_packet] at hx
    all_goals
      first
      | exact h x (by simpa [written] using hx)
      | (rcases hx with hx | hx
         · exact h x (by simpa [written] using hx)
         · rw [hx]; exact hl)

/-- The receive loop asks `fwrite` for at most 512 bytes. -/
theorem wrq_loop_written_le (sendto_ok : List Event → Bool) :
    ∀ (inputs : List WrqInput) (st : WrqState),
      (∀ x ∈ written st.trace, x.1 ≤ 512) →
      ∀ x ∈ written (wrq_loop sendto_ok inputs st).trace, x.1 ≤ 512 := by
  intro inputs
  induction inputs with
  | nil =>
    intro st h
    unfold wrq_loop
    split
    · exact h
    · exact wrq_iter_written_le sendto_ok _ st h
  | cons inp rest ih =>
    intro st h
    have h1 := wrq_iter_written_le sendto_ok inp st h
    unfold wrq_loop
    split
    · exact h
    · simp only
      split
      · exact h1
      · exact ih _ h1

/-- The upload handler never writes more than 512 bytes at once, whatever it
receives. -/
theorem handle_wrq_written_le (env : WrqEnv) (packet : tftp_packet_t) :
    ∀ x ∈ written (handle_wrq env packet).trace, x.1 ≤ 512 := by
  unfold handle_wrq
  simp only
  split_ifs
  · simp [written, send_error_packet]
  · simp [written, send_error_packet]
  · simp [written, send_error_packet]
  · simp [written, send_error_packet]
  · simp [written, send_ack_packet]
  · rw [(wrq_teardown_fields _ _ _).1]
    apply wrq_loop_written_le
    simp [wrq_begin, written, send_ack_packet]

/-- C28 fails on the code. An upload expects block 1 and receives the 4-byte
datagram `00 09 00 01` (unknown opcode, passed over) and then the 2-byte datagram
`00 03`. The buffer then reads `00 03 00 01`, a DATA header of block 1 whose last
two bytes are left from the earlier datagram, the block is accepted and `fwrite` is
called with `data_len = 2 - 4 = -2`. When that call reports failure the session ends
with the ERROR packet of code 3; were it to report success, the handler would
acknowledge block 1 and end the upload as complete. -/
theorem wrq_negative_write_length :
    Event.fwrite (-2) [] false ∈
      (handle_wrq (upload_env [⟨RecvOutcome.datagram [0, 9, 0, 1], false⟩,
        ⟨RecvOutcome.datagram [0, 3], false⟩]) zero_packet).trace ∧
    written (handle_wrq (upload_env [⟨RecvOutcome.datagram [0, 9, 0, 1], true⟩,
        ⟨RecvOutcome.datagram [0, 3], true⟩]) zero_packet).trace = [(-2, [])] ∧
    sent (handle_wrq (upload_env [⟨RecvOutcome.datagram [0, 9, 0, 1], true⟩,
        ⟨RecvOutcome.datagram [0, 3], true⟩]) zero_packet).trace
      = [(Sock.data_sock, ack_packet_bytes 0), (Sock.data_sock, ack_packet_bytes 1)] ∧
    (handle_wrq (upload_env [⟨RecvOutcome.datagram [0, 9, 0, 1], true⟩,
        ⟨RecvOutcome.datagram [0, 3], true⟩]) zero_packet).transfer_complete = true := by
  refine ⟨?_, ?_, ?_, ?_⟩ <;> (set_option maxRecDepth 100000 in decide)

/-! ## The two copies of the decoder -/

/-- C30: on every buffer whose length fits the `int` parameter `buffer_len` (so on
every buffer of 0 to 516 bytes) and for every prior content of the packet
structure, the decoder of `src/tftp_server_mt.c` and the decoder of `src/main.c`
return the same status and leave the same packet structure: the DATA length held in
a `size_t` instead of an `int` makes no difference, since it is computed only after
the test `buffer_len < 4` has passed. -/
theorem decoders_agree (buffer : List Byte) (packet : tftp_packet_t)
    (hlen : buffer.length < 2 ^ 31) :
    Mt.parse_tftp_packet buffer packet = parse_tftp_packet buffer packet := by
  unfold Mt.parse_tftp_packet parse_tftp_packet
  by_cases h4 : buffer.length < 4
  · simp only [h4, if_true]
  · have hd : (((buffer.length : Int) - 4) % ((SIZE_MOD : Nat) : Int)).toNat = buffer.length - 4 := by
      have h1 : ((buffer.length : Int) - 4) % ((SIZE_MOD : Nat) : Int) = (buffer.length : Int) - 4 := by
        apply Int.emod_eq_of_lt
        · omega
        · have : (2 : Int) ^ 31 < ((SIZE_MOD : Nat) : Int) := by decide
          have : (buffer.length : Int) < 2 ^ 31 := by exact_mod_cast hlen
          omega
      rw [h1]
      omega
    simp only [hd]

theorem decoders_agree_witness :
    Mt.parse_tftp_packet (data_packet_bytes 7 [1, 2, 3]) zero_packet
      = parse_tftp_packet (data_packet_bytes 7 [1, 2, 3]) zero_packet :=
  decoders_agree (data_packet_bytes 7 [1, 2, 3]) zero_packet (by decide)

/-- Instances of C30 on the other packet kinds and on rejected buffers: the two
decoders return the same status. -/
theorem both_decoders_examples :
    (Mt.parse_tftp_packet (data_packet_bytes 7 [1, 2, 3]) zero_packet).1 = 0 ∧
    (parse_tftp_packet (data_packet_bytes 7 [1, 2, 3]) zero_packet).1 = 0 ∧
    (Mt.parse_tftp_packet [0, 3, 0] zero_packet).1 = -1 ∧
    (parse_tftp_packet [0, 3, 0] zero_packet).1 = -1 ∧
    (Mt.parse_tftp_packet (data_packet_bytes 7 (List.replicate 513 0)) zero_packet).1 = -1 ∧
    (parse_tftp_packet (data_packet_bytes 7 (List.replicate 513 0)) zero_packet).1 = -1 := by
  refine ⟨?_, ?_, ?_, ?_, ?_, ?_⟩ <;> (set_option maxRecDepth 1000000 in decide)

/-! ## The request fields as the handlers read them -/

/-- An accepted request: the status is 0 and the two strings have been copied into
the packet structure, the file name at union offset 0 and the mode at union offset
255 (`request.mode`). -/
theorem parse_request_accepted (op : Nat) (f m extra : List Byte) (packet : tftp_packet_t)
    (hop : op = TFTP_RRQ ∨ op = TFTP_WRQ) (hf : ∀ b ∈ f, b ≠ 0) (hm : ∀ b ∈ m, b ≠ 0)
    (hfl : f.length ≤ 254) (hml : m.length ≤ 9) :
    parse_tftp_packet (htons op ++ f ++ [0] ++ m ++ [0] ++ extra) packet
      = (0, { opcode := op,
              body := strcpy (strcpy packet.body 0 (f ++ 0 :: (m ++ 0 :: extra)))
                MAX_FILENAME_LEN (m ++ 0 :: extra) }) := by
  have hbuf : htons op ++ f ++ [0] ++ m ++ [0] ++ extra
      = Fin.ofNat (op / 256) :: Fin.ofNat op :: (f ++ 0 :: (m ++ 0 :: extra)) := by
    simp [htons]
  have hv : ntohs (Fin.ofNat (op / 256)) (Fin.ofNat op) = op :=
    ntohs_ofNat op (by rcases hop with h | h <;> rw [h] <;> decide)
  have hd : (f ++ 0 :: (m ++ 0 :: extra)).drop (f.length + 1) = m ++ 0 :: extra := by
    rw [List.drop_append_eq_append_drop]; simp
  rw [hbuf, parse_request _ _ _ _ (by rw [hv]; exact hop), hv,
    c_str_append_nul f _ hf, hd, c_str_append_nul m _ hm]
  have h1 : ¬ (f.length ≥ (f ++ 0 :: (m ++ 0 :: extra)).length) := by simp
  have h2 : ¬ (m.length ≥ (m ++ 0 :: extra).length) := by simp
  rw [if_neg (by rintro (h | h); exact h1 h; simp only [MAX_FILENAME_LEN] at h; omega),
    if_neg (by rintro (h | h); exact h2 h; simp only [MAX_MODE_LEN] at h; omega)]

/-- The bytes of the packet structure after a request has been copied into it: the
file name and its NUL from offset 0, the mode and its NUL from offset 255, and in
between what the structure held before. -/
theorem request_body (body : Mem) (f m t extra : List Byte)
    (hf : ∀ b ∈ f, b ≠ 0) (hm : ∀ b ∈ m, b ≠ 0) (hfl : f.length ≤ 254) :
    (∀ i, i < f.length →
      strcpy (strcpy body 0 (f ++ 0 :: t)) MAX_FILENAME_LEN (m ++ 0 :: extra) i = f.getD i 0) ∧
    strcpy (strcpy body 0 (f ++ 0 :: t)) MAX_FILENAME_LEN (m ++ 0 :: extra) f.length = 0 ∧
    (∀ j, f.length < j → j < 255 →
      strcpy (strcpy body 0 (f ++ 0 :: t)) MAX_FILENAME_LEN (m ++ 0 :: extra) j = body j) ∧
    (∀ i, i < m.length →
      strcpy (strcpy body 0 (f ++ 0 :: t)) MAX_FILENAME_LEN (m ++ 0 :: extra) (255 + i)
        = m.getD i 0) ∧
    strcpy (strcpy body 0 (f ++ 0 :: t)) MAX_FILENAME_LEN (m ++ 0 :: extra) (255 + m.length) = 0 := by
  simp only [strcpy, c_str_append_nul f t hf, c_str_append_nul m extra hm, MAX_FILENAME_LEN]
  refine ⟨fun i hi => ?_, ?_, fun j h1 h2 => ?_, fun i hi => ?_, ?_⟩
  · rw [memcpy_outside _ _ _ _ (Or.inl (by omega))]
    have := memcpy_inside body 0 (f ++ [0]) i (by simp; omega)
    rw [Nat.zero_add] at this
    rw [this, getD_append_nul]
  · rw [memcpy_outside _ _ _ _ (Or.inl (by omega))]
    have := memcpy_inside body 0 (f ++ [0]) f.length (by simp)
    rw [Nat.zero_add] at this
    rw [this]
    simp [List.getD_eq_getElem?_getD]
  · rw [memcpy_outside _ _ _ _ (Or.inl (by omega)),
      memcpy_outside _ _ _ _ (Or.inr (by simp; omega))]
  · rw [memcpy_inside _ _ _ _ (by simp; omega), getD_append_nul]
  · rw [memcpy_inside _ _ _ _ (by simp)]
    simp [List.getD_eq_getElem?_getD]

/-- The file name a handler reads from an accepted request is the file name of the
request. -/
theorem extract_filename_parsed (op : Nat) (f m extra : List Byte) (packet : tftp_packet_t)
    (hop : op = TFTP_RRQ ∨ op = TFTP_WRQ) (hf : ∀ b ∈ f, b ≠ 0) (hm : ∀ b ∈ m, b ≠ 0)
    (hfl : f.length ≤ 254) (hml : m.length ≤ 9) :
    extract_filename (parse_tftp_packet (htons op ++ f ++ [0] ++ m ++ [0] ++ extra) packet).2
      = f := by
  rw [parse_request_accepted op f m extra packet hop hf hm hfl hml]
  have hb := request_body packet.body f m (m ++ 0 :: extra) extra hf hm hfl
  show fieldStr _ 0 514 = f
  apply fieldStr_eq _ _ _ _ hf (by omega)
  · intro i hi
    rw [Nat.zero_add]
    exact hb.1 i hi
  · rw [Nat.zero_add]
    exact hb.2.1

/-- The mode a handler reads from an accepted request whose file name is shorter
than 254 bytes is not the mode of the request: it is the string `s` that the
structure held behind the file name before the decoder was called (here for an `s`
that ends before offset 255). The decoder has put the mode of the request at offset
255, where the handler does not look. -/
theorem extract_mode_parsed_stale (op : Nat) (f m extra s : List Byte) (packet : tftp_packet_t)
    (hop : op = TFTP_RRQ ∨ op = TFTP_WRQ) (hf : ∀ b ∈ f, b ≠ 0) (hm : ∀ b ∈ m, b ≠ 0)
    (hml : m.length ≤ 9) (hs : ∀ b ∈ s, b ≠ 0) (hsl : f.length + 1 + s.length < 255)
    (hold : ∀ i, i < s.length → packet.body (f.length + 1 + i) = s.getD i 0)
    (hend : packet.body (f.length + 1 + s.length) = 0) :
    extract_mode (parse_tftp_packet (htons op ++ f ++ [0] ++ m ++ [0] ++ extra) packet).2 = s := by
  have hfl : f.length ≤ 254 := by omega
  have hfn := extract_filename_parsed op f m extra packet hop hf hm hfl hml
  unfold extract_mode
  simp only [hfn]
  rw [parse_request_accepted op f m extra packet hop hf hm hfl hml]
  have hb := request_body packet.body f m (m ++ 0 :: extra) extra hf hm hfl
  apply fieldStr_eq _ _ _ _ hs (by omega)
  · intro i hi
    exact (hb.2.2.1 _ (by omega) (by omega)).trans (hold i hi)
  · exact (hb.2.2.1 _ (by omega) (by omega)).trans hend

/-- The mode a handler reads from an accepted request is the mode of the request
when the file name has its greatest length, 254 bytes: only then does the walk over
the file name end at offset 255. -/
theorem extract_mode_parsed_254 (op : Nat) (f m extra : List Byte) (packet : tftp_packet_t)
    (hop : op = TFTP_RRQ ∨ op = TFTP_WRQ) (hf : ∀ b ∈ f, b ≠ 0) (hm : ∀ b ∈ m, b ≠ 0)
    (hfl : f.length = 254) (hml : m.length ≤ 9) :
    extract_mode (parse_tftp_packet (htons op ++ f ++ [0] ++ m ++ [0] ++ extra) packet).2 = m := by
  have hfn := extract_filename_parsed op f m extra packet hop hf hm (by omega) hml
  unfold extract_mode
  simp only [hfn]
  rw [parse_request_accepted op f m extra packet hop hf hm (by omega) hml]
  have hb := request_body packet.body f m (m ++ 0 :: extra) extra hf hm (by omega)
  rw [hfl]
  apply fieldStr_eq _ _ _ _ hm (by omega)
  · intro i hi
    exact hb.2.2.2.1 i hi
  · exact hb.2.2.2.2

/-- C22 fails on the code. The request `RRQ "a" netascii` is accepted and the
decoder stores the mode `netascii` in `request.mode`, at offset 255 of the union;
the handler looks for the mode right behind the file name, at offset 2, finds what
the structure held there before (nothing, in a structure of zero bytes) and opens
the file in binary mode. Decoded into the structure that a request for a file name
of 20 bytes has left, the request `RRQ "b" octet` gives the handler a mode of 18
bytes, left over from that file name, which does not fit its 10-byte buffer. -/
theorem handler_mode_not_request_mode :
    (parse_tftp_packet (htons 1 ++ lit "a" ++ [0] ++ lit "netascii" ++ [0]) zero_packet).1 = 0 ∧
    (parse_tftp_packet (htons 1 ++ lit "a" ++ [0] ++ lit "netascii" ++ [0])
      zero_packet).2.request_mode = lit "netascii" ∧
    extract_filename (parse_tftp_packet (htons 1 ++ lit "a" ++ [0] ++ lit "netascii" ++ [0])
      zero_packet).2 = lit "a" ∧
    extract_mode (parse_tftp_packet (htons 1 ++ lit "a" ++ [0] ++ lit "netascii" ++ [0])
      zero_packet).2 = [] ∧
    parse_mode (lit "netascii") = tftp_mode_t.MODE_NETASCII ∧
    (handle_rrq (acking_env [7])
      (parse_tftp_packet (htons 1 ++ lit "a" ++ [0] ++ lit "netascii" ++ [0])
        zero_packet).2).trace.head?
      = some (Event.fopen (lit "tftp_root/a") false false true) ∧
    (parse_tftp_packet (htons 1 ++ lit "b" ++ [0] ++ lit "octet" ++ [0])
      (parse_tftp_packet (htons 1 ++ List.replicate 20 97 ++ [0] ++ lit "octet" ++ [0])
        zero_packet).2).1 = 0 ∧
    extract_mode (parse_tftp_packet (htons 1 ++ lit "b" ++ [0] ++ lit "octet" ++ [0])
      (parse_tftp_packet (htons 1 ++ List.replicate 20 97 ++ [0] ++ lit "octet" ++ [0])
        zero_packet).2).2 = List.replicate 18 97 ∧
    MAX_MODE_LEN < (List.replicate 18 (97 : Byte)).length + 1 := by
  refine ⟨?_, ?_, ?_, ?_, ?_, ?_, ?_, ?_, ?_⟩ <;> (set_option maxRecDepth 1000000 in decide)

/-! ## The send-and-wait loop of `handle_rrq_mt` -/

/-- Against a peer that answers every DATA packet with the same datagram of four
bytes that is not the awaited ACK, the send-and-wait loop of `handle_rrq_mt`
is still running after any number of passes: `retries` stays where it is. -/
theorem rrq_mt_wait_loop_never_ends (env : RrqEnv) (data : List Byte)
    (b0 b1 b2 b3 : Byte) (k : Nat)
    (hsend : ∀ tr, env.sendto_ok tr = true)
    (hrecv : ∀ tr, env.recvfrom tr = RecvOutcome.datagram [b0, b1, b2, b3])
    (hbad : ¬ (ntohs b0 b1 = TFTP_ACK ∧ ntohs b2 b3 = k)) :
    ∀ (fuel retries : Nat) (st : RrqState), retries < MAX_RETRIES → st.block_num = k →
      rrq_mt_wait_loop env data fuel retries st = none := by
  intro fuel
  induction fuel with
  | zero =>
    intro retries st hr _
    simp only [rrq_mt_wait_loop, hr, if_true]
  | succ n ih =>
    intro retries st hr hk
    have hm := memcpy_header st.ack_buffer b0 b1 b2 b3 [] 4 (by decide)
    have hl : (([b0, b1, b2, b3] : List Byte).take 4).length = 4 := by simp
    have hfit : ¬ (([b0, b1, b2, b3] : List Byte).length > 4) := by simp
    simp only [rrq_mt_wait_loop, hr, if_true, hsend, Bool.not_true, Bool.false_eq_true, if_false,
      hrecv, hl, hfit, hm.1, hm.2.1, hm.2.2.1, hm.2.2.2, hk, hbad]
    exact ih retries _ hr rfl

/-- Against such a peer `handle_rrq_mt` does not return, whatever the fuel, as soon
as the file has a first block to send. -/
theorem handle_rrq_mt_never_ends (env : RrqEnv) (packet : tftp_packet_t) (file : List Byte)
    (b0 b1 b2 b3 : Byte)
    (hopen : env.fopen (make_filepath (extract_filename packet))
      (decide (parse_mode (extract_mode packet) = tftp_mode_t.MODE_NETASCII)) = some file)
    (hfile : file ≠ [])
    (hsock : env.socket_ok = true) (hbind : env.bind_ok = true)
    (hsend : ∀ tr, env.sendto_ok tr = true)
    (hrecv : ∀ tr, env.recvfrom tr = RecvOutcome.datagram [b0, b1, b2, b3])
    (hbad : ¬ (ntohs b0 b1 = TFTP_ACK ∧ ntohs b2 b3 = 1)) :
    ∀ fuel, handle_rrq_mt env fuel packet = none := by
  intro fuel
  have hloop : ∀ st : RrqState, st.block_num = 1 →
      rrq_mt_file_loop env fuel file.length file st = none := by
    intro st hst
    cases file with
    | nil => exact absurd rfl hfile
    | cons a t =>
      have hpos : ((a :: t).take DATA_SIZE).length > 0 := by simp [DATA_SIZE]
      simp only [List.length_cons, rrq_mt_file_loop, hpos, if_true]
      rw [rrq_mt_wait_loop_never_ends env _ b0 b1 b2 b3 1 hsend hrecv hbad fuel 0 st
        (by decide) hst]
  unfold handle_rrq_mt
  simp only [hopen, hsock, hbind, Bool.not_true, Bool.false_eq_true, if_false]
  rw [hloop _ rfl]

/-- C27 fails on the code. The peer answers block 1 six times with an ACK of block
0 and is silent afterwards: `handle_rrq_mt` sends block 1 eleven times, once for
each stray ACK and once for each of the five timeouts. Against a peer that answers
every DATA packet with an ACK of block 0 its send-and-wait loop does not end: it is
still running after any number of passes. On the first input the single-threaded
`handle_rrq` sends block 1 five times and then the ERROR packet. -/
theorem rrq_mt_unbounded_sending :
    (handle_rrq_mt (scripted_env [7]
        (List.replicate 6 (RecvOutcome.datagram (ack_packet_bytes 0)))) 20 zero_packet).map
        (fun st => sent st.trace)
      = some (List.replicate 11 (Sock.data_sock, data_packet_bytes 1 [7])) ∧
    (∀ fuel, handle_rrq_mt (repeating_env [7] (RecvOutcome.datagram (ack_packet_bytes 0)))
      fuel zero_packet = none) ∧
    sent (handle_rrq (scripted_env [7]
        (List.replicate 6 (RecvOutcome.datagram (ack_packet_bytes 0)))) zero_packet).trace
      = List.replicate 5 (Sock.data_sock, data_packet_bytes 1 [7])
        ++ [(Sock.data_sock, error_packet_bytes TFTP_ERROR_NOT_DEFINED (lit "Transfer timed out"))] := by
  refine ⟨by set_option maxRecDepth 100000 in decide, ?_,
    by set_option maxRecDepth 100000 in decide⟩
  exact handle_rrq_mt_never_ends
    (repeating_env [7] (RecvOutcome.datagram (ack_packet_bytes 0))) zero_packet [7] 0 4 0 0
    rfl (by decide) rfl rfl (fun _ => rfl) (fun _ => rfl) (by decide)

/-! ## `handle_wrq_mt` against `handle_wrq` -/

/-- A pass of the receive loop of `handle_wrq_mt` never calls `remove`. -/
theorem wrq_mt_iter_no_remove (env : WrqEnv) (inp : WrqInput) (st : WrqMtState)
    (p : List Byte) (h : Event.remove p ∉ st.trace) :
    Event.remove p ∉ (wrq_mt_iter env inp st).2.trace := by
  unfold wrq_mt_iter
  cases hr : inp.recv with
  | timeout => simpa using h
  | failure => simpa using h
  | datagram bytes =>
    simp only
    split_ifs <;> simp [send_error_packet, send_ack_packet, h]

/-- The receive loop of `handle_wrq_mt` never calls `remove`. -/
theorem wrq_mt_loop_no_remove (env : WrqEnv) (p : List Byte) :
    ∀ (inputs : List WrqInput) (st : WrqMtState), Event.remove p ∉ st.trace →
      Event.remove p ∉ (wrq_mt_loop env inputs st).2.trace := by
  intro inputs
  induction inputs with
  | nil =>
    intro st h
    exact h
  | cons inp rest ih =>
    intro st h
    have h1 := wrq_mt_iter_no_remove env inp st p h
    unfold wrq_mt_loop
    simp only
    split
    · exact h1
    · exact ih _ h1

/-- The handler `handle_wrq_mt` never calls `remove`, whatever happens: a file it
has created stays. -/
theorem handle_wrq_mt_no_remove (env : WrqEnv) (packet : tftp_packet_t) (p : List Byte) :
    Event.remove p ∉ (handle_wrq_mt env packet).trace := by
  unfold handle_wrq_mt
  simp only
  split_ifs
  · simp [send_error_packet]
  · simp [send_error_packet]
  · simp [send_ack_packet]
  · have h := wrq_mt_loop_no_remove env p env.inputs
      { trace := [Event.fopen (make_filepath (extract_filename packet)) false true false] ++
          [Event.fopen (make_filepath (extract_filename packet)) true
            (decide (parse_mode (extract_mode packet) = tftp_mode_t.MODE_NETASCII)) true] ++
          [send_ack_packet Sock.sock 0 (env.sendto_ok
            ([Event.fopen (make_filepath (extract_filename packet)) false true false] ++
              [Event.fopen (make_filepath (extract_filename packet)) true
                (decide (parse_mode (extract_mode packet) = tftp_mode_t.MODE_NETASCII)) true]))],
        data_packet := ⟨0, env.recv_buffer⟩, expected_block := 1,
        stats := { stats_zero with start_time := env.start_time }, returned := false }
      (by simp [send_ack_packet])
    simpa using h
  · exact wrq_mt_loop_no_remove env p env.inputs _ (by simp [send_ack_packet])

/-- The decoder of `src/tftp_server_mt.c` on a DATA packet of block `b` with a
payload of at most 512 bytes. -/
theorem mt_parse_data (b : Nat) (payload : List Byte) (packet : tftp_packet_t)
    (hb : b < 65536) (hp : payload.length ≤ 512) :
    Mt.parse_tftp_packet (data_packet_bytes b payload) packet
      = (0, { opcode := 3, body := memcpy (store16 packet.body 0 b) 2 payload }) := by
  have hv : ntohs (Fin.ofNat (b / 256)) (Fin.ofNat b) = b := ntohs_ofNat b hb
  have h3 : ntohs 0 3 = 3 := by decide
  have hlen : ¬ ((0 :: 3 :: Fin.ofNat (b / 256) :: Fin.ofNat b :: payload : List Byte).length < 2) := by
    simp
  have hlen4 : ¬ ((0 :: 3 :: Fin.ofNat (b / 256) :: Fin.ofNat b :: payload : List Byte).length < 4) := by
    simp
  have hd : ((((0 :: 3 :: Fin.ofNat (b / 256) :: Fin.ofNat b :: payload : List Byte).length : Int) - 4)
      % ((SIZE_MOD : Nat) : Int)).toNat = payload.length := by
    have h1 : (((0 :: 3 :: Fin.ofNat (b / 256) :: Fin.ofNat b :: payload : List Byte).length : Int) - 4)
        = (payload.length : Int) := by
      simp only [List.length_cons]
      push_cast
      omega
    rw [h1, Int.emod_eq_of_lt (by omega) (by
      have : (512 : Int) < ((SIZE_MOD : Nat) : Int) := by decide
      omega)]
    simp
  rw [data_packet_bytes_eq]
  unfold Mt.parse_tftp_packet
  simp only [hlen, hlen4, if_false, List.getD_cons_zero, List.getD_cons_succ, h3, hv, hd,
    List.drop_succ_cons, List.drop_zero, List.take_length]
  simp [Nat.not_lt.mpr hp]

/-- A pass of the receive loop of `handle_wrq_mt` that receives the expected DATA
block, the write and the `sendto` of the ACK succeeding: the payload is written, the
block is acknowledged on `sock`, the expected number advances, and the pass leaves
the loop exactly when the payload is shorter than 512 bytes. -/
theorem wrq_mt_iter_accept (env : WrqEnv) (inp : WrqInput) (st : WrqMtState)
    (payload : List Byte) (hp : payload.length ≤ 512) (he : st.expected_block < 65536)
    (hrecv : inp.recv = RecvOutcome.datagram (data_packet_bytes st.expected_block payload))
    (hw : inp.fwrite_ok = true) (hsend : ∀ tr, env.sendto_ok tr = true) :
    (wrq_mt_iter env inp st).1 = decide (payload.length < 512) ∧
    (wrq_mt_iter env inp st).2.trace
      = st.trace ++ [Event.recvfrom inp.recv, Event.fwrite payload.length payload true,
          send_ack_packet Sock.sock st.expected_block true] ∧
    (wrq_mt_iter env inp st).2.expected_block = (st.expected_block + 1) % 65536 := by
  have htake : (data_packet_bytes st.expected_block payload).take BUFFER_SIZE
      = data_packet_bytes st.expected_block payload := by
    apply List.take_of_length_le
    rw [data_packet_bytes_eq]
    simp only [List.length_cons, BUFFER_SIZE]
    omega
  have hlen : ((((data_packet_bytes st.expected_block payload).length : Int) - 4)
      % ((SIZE_MOD : Nat) : Int)).toNat = payload.length := by
    have h1 : ((data_packet_bytes st.expected_block payload).length : Int) - 4
        = (payload.length : Int) := by
      rw [data_packet_bytes_eq]
      simp only [List.length_cons]
      push_cast
      omega
    rw [h1, Int.emod_eq_of_lt (by omega) (by
      have : (512 : Int) < ((SIZE_MOD : Nat) : Int) := by decide
      omega)]
    simp
  have hparse := mt_parse_data st.expected_block payload st.data_packet he hp
  have hblock : tftp_packet_t.data_block_num
      ⟨3, memcpy (store16 st.data_packet.body 0 st.expected_block) 2 payload⟩
      = st.expected_block := by
    show load16 (memcpy (store16 st.data_packet.body 0 st.expected_block) 2 payload) 0 = _
    rw [load16_memcpy_above _ _ _ _ (by omega), load16_store16 _ _ _ he]
  have hdata : tftp_packet_t.data_data
      ⟨3, memcpy (store16 st.data_packet.body 0 st.expected_block) 2 payload⟩ payload.length
      = payload := readBytes_memcpy _ _ _
  unfold wrq_mt_iter
  rw [hrecv]
  simp -proj only [htake, hparse]
  simp only [hlen, hblock, hdata, hw, hsend, Bool.not_true, Bool.false_eq_true,
    if_false, if_true, lt_self_iff_false, TFTP_DATA, DATA_SIZE]
  by_cases hs : payload.length < 512
  · simp only [hs, if_true, decide_True]
    refine ⟨trivial, ?_, trivial⟩
    simp
  · simp only [hs, if_false, decide_False]
    refine ⟨trivial, ?_, trivial⟩
    simp

/-- A failure of `recvfrom` other than a timeout makes the pass of the upload loop
leave the loop without sending anything. -/
theorem wrq_iter_failure (sendto_ok : List Event → Bool) (inp : WrqInput) (st : WrqState)
    (hrecv : inp.recv = RecvOutcome.failure) :
    wrq_iter sendto_ok inp st
      = (true, { st with trace := st.trace ++ [Event.recvfrom RecvOutcome.failure] }) := by
  unfold wrq_iter
  rw [hrecv]

/-- The single-threaded upload of a new file that receives block 1 with 512 bytes
and whose next `recvfrom` fails: the calls of `handle_wrq`, ending with the removal
of the file. -/
theorem handle_wrq_one_block_trace (env : WrqEnv) (packet : tftp_packet_t) (payload : List Byte)
    (w : Bool)
    (hnew : env.file_exists (make_filepath (extract_filename packet)) = false)
    (hcreate : env.create_ok (make_filepath (extract_filename packet))
      (decide (parse_mode (extract_mode packet) = tftp_mode_t.MODE_NETASCII)) = true)
    (hsock : env.socket_ok = true) (hbind : env.bind_ok = true)
    (hsend : ∀ tr, env.sendto_ok tr = true)
    (hin : env.inputs = [⟨RecvOutcome.datagram (data_packet_bytes 1 payload), true⟩,
      ⟨RecvOutcome.failure, w⟩])
    (hp : payload.length = 512) :
    (handle_wrq env packet).trace
      = [Event.fopen (make_filepath (extract_filename packet)) false true false,
         Event.fopen (make_filepath (extract_filename packet)) true
           (decide (parse_mode (extract_mode packet) = tftp_mode_t.MODE_NETASCII)) true,
         Event.socket true, Event.bind true,
         send_ack_packet Sock.data_sock 0 true,
         Event.recvfrom (RecvOutcome.datagram (data_packet_bytes 1 payload)),
         Event.fwrite 512 payload true,
         send_ack_packet Sock.data_sock 1 true,
         Event.recvfrom RecvOutcome.failure,
         Event.fclose, Event.closesocket,
         Event.remove (make_filepath (extract_filename packet))] := by
  have hloop : ∀ st0 : WrqState, st0.expected_block = 1 → st0.transfer_complete = false →
      (wrq_loop env.sendto_ok [⟨RecvOutcome.datagram (data_packet_bytes 1 payload), true⟩,
          ⟨RecvOutcome.failure, w⟩] st0).trace
        = st0.trace ++ [Event.recvfrom (RecvOutcome.datagram (data_packet_bytes 1 payload)),
            Event.fwrite 512 payload true, send_ack_packet Sock.data_sock 1 true,
            Event.recvfrom RecvOutcome.failure] ∧
      (wrq_loop env.sendto_ok [⟨RecvOutcome.datagram (data_packet_bytes 1 payload), true⟩,
          ⟨RecvOutcome.failure, w⟩] st0).transfer_complete = false := by
    intro st0 he hc
    have ha := wrq_iter_accept env.sendto_ok
      ⟨RecvOutcome.datagram (data_packet_bytes 1 payload), true⟩ st0 payload (by omega)
      (by rw [he]; decide) (by rw [he]) rfl
    have hc1 : (wrq_iter env.sendto_ok
        ⟨RecvOutcome.datagram (data_packet_bytes 1 payload), true⟩ st0).2.transfer_complete
        = false := by
      cases hx : (wrq_iter env.sendto_ok
        ⟨RecvOutcome.datagram (data_packet_bytes 1 payload), true⟩ st0).2.transfer_complete with
      | false => rfl
      | true =>
        rcases ha.2.2.2.mp hx with h | h
        · rw [hc] at h; exact absurd h (by decide)
        · omega
    have hl : wrq_loop env.sendto_ok [⟨RecvOutcome.datagram (data_packet_bytes 1 payload), true⟩,
          ⟨RecvOutcome.failure, w⟩] st0
        = (wrq_iter env.sendto_ok ⟨RecvOutcome.failure, w⟩ (wrq_iter env.sendto_ok
            ⟨RecvOutcome.datagram (data_packet_bytes 1 payload), true⟩ st0).2).2 := by
      simp only [wrq_loop, hc, Bool.false_eq_true, if_false, ha.1, hc1,
        wrq_iter_failure env.sendto_ok ⟨RecvOutcome.failure, w⟩ _ rfl, if_true]
    rw [hl, wrq_iter_failure _ _ _ rfl]
    have ht := ha.2.1
    generalize wrq_iter env.sendto_ok
      ⟨RecvOutcome.datagram (data_packet_bytes 1 payload), true⟩ st0 = r at ht hc1 ⊢
    refine ⟨?_, hc1⟩
    show r.2.trace ++ _ = _
    rw [ht]
    simp only [hsend, he, hp, List.append_assoc]
    rfl
  unfold handle_wrq
  simp only [hnew, hcreate, hsock, hbind, hsend, hin, Bool.not_true, Bool.false_eq_true, if_false]
  have h := hloop (wrq_begin env
    ([Event.fopen (make_filepath (extract_filename packet)) false true false] ++
      [Event.fopen (make_filepath (extract_filename packet)) true
        (decide (parse_mode (extract_mode packet) = tftp_mode_t.MODE_NETASCII)) true,
        Event.socket true] ++ [Event.bind true] ++ [send_ack_packet Sock.data_sock 0 true]))
    rfl rfl
  generalize wrq_loop env.sendto_ok [⟨RecvOutcome.datagram (data_packet_bytes 1 payload), true⟩,
      ⟨RecvOutcome.failure, w⟩]
    (wrq_begin env
      ([Event.fopen (make_filepath (extract_filename packet)) false true false] ++
        [Event.fopen (make_filepath (extract_filename packet)) true
          (decide (parse_mode (extract_mode packet) = tftp_mode_t.MODE_NETASCII)) true,
          Event.socket true] ++ [Event.bind true] ++ [send_ack_packet Sock.data_sock 0 true]))
    = L at h ⊢
  simp only [wrq_teardown, h.1, h.2, Bool.not_false, if_true]
  simp [wrq_begin]

/-- The same upload in `handle_wrq_mt`: the handler returns and its calls end with
the `fclose`; the file is not removed. -/
theorem handle_wrq_mt_one_block_trace (env : WrqEnv) (packet : tftp_packet_t)
    (payload : List Byte) (w : Bool)
    (hnew : env.file_exists (make_filepath (extract_filename packet)) = false)
    (hcreate : env.create_ok (make_filepath (extract_filename packet))
      (decide (parse_mode (extract_mode packet) = tftp_mode_t.MODE_NETASCII)) = true)
    (hsend : ∀ tr, env.sendto_ok tr = true)
    (hin : env.inputs = [⟨RecvOutcome.datagram (data_packet_bytes 1 payload), true⟩,
      ⟨RecvOutcome.failure, w⟩])
    (hp : payload.length = 512) :
    (handle_wrq_mt env packet).trace
      = [Event.fopen (make_filepath (extract_filename packet)) false true false,
         Event.fopen (make_filepath (extract_filename packet)) true
           (decide (parse_mode (extract_mode packet) = tftp_mode_t.MODE_NETASCII)) true,
         send_ack_packet Sock.sock 0 true,
         Event.recvfrom (RecvOutcome.datagram (data_packet_bytes 1 payload)),
         Event.fwrite 512 payload true,
         send_ack_packet Sock.sock 1 true,
         Event.recvfrom RecvOutcome.failure,
         Event.fclose] ∧
    (handle_wrq_mt env packet).returned = true := by
  have hloop : ∀ st0 : WrqMtState, st0.expected_block = 1 →
      (wrq_mt_loop env [⟨RecvOutcome.datagram (data_packet_bytes 1 payload), true⟩,
          ⟨RecvOutcome.failure, w⟩] st0).1 = true ∧
      (wrq_mt_loop env [⟨RecvOutcome.datagram (data_packet_bytes 1 payload), true⟩,
          ⟨RecvOutcome.failure, w⟩] st0).2.trace
        = st0.trace ++ [Event.recvfrom (RecvOutcome.datagram (data_packet_bytes 1 payload)),
            Event.fwrite 512 payload true, send_ack_packet Sock.sock 1 true,
            Event.recvfrom RecvOutcome.failure] := by
    intro st0 he
    have ha := wrq_mt_iter_accept env
      ⟨RecvOutcome.datagram (data_packet_bytes 1 payload), true⟩ st0 payload (by omega)
      (by rw [he]; decide) (by rw [he]) rfl hsend
    have h1 : (wrq_mt_iter env ⟨RecvOutcome.datagram (data_packet_bytes 1 payload), true⟩ st0).1
        = false := by
      rw [ha.1, hp]; decide
    have hf : ∀ s : WrqMtState, wrq_mt_iter env ⟨RecvOutcome.failure, w⟩ s
        = (true, { s with trace := s.trace ++ [Event.recvfrom RecvOutcome.failure] }) := by
      intro s
      unfold wrq_mt_iter
      rfl
    have hl : wrq_mt_loop env [⟨RecvOutcome.datagram (data_packet_bytes 1 payload), true⟩,
          ⟨RecvOutcome.failure, w⟩] st0
        = (true, (wrq_mt_iter env ⟨RecvOutcome.failure, w⟩ (wrq_mt_iter env
            ⟨RecvOutcome.datagram (data_packet_bytes 1 payload), true⟩ st0).2).2) := by
      simp only [wrq_mt_loop, h1, Bool.false_eq_true, if_false, hf, if_true]
    rw [hl, hf]
    refine ⟨rfl, ?_⟩
    show (wrq_mt_iter env _ st0).2.trace ++ _ = _
    rw [ha.2.1, he, hp]
    simp
  have h := hloop
    { trace := [Event.fopen (make_filepath (extract_filename packet)) false true false] ++
        [Event.fopen (make_filepath (extract_filename packet)) true
          (decide (parse_mode (extract_mode packet) = tftp_mode_t.MODE_NETASCII)) true] ++
        [send_ack_packet Sock.sock 0 true],
      data_packet := ⟨0, env.recv_buffer⟩, expected_block := 1,
      stats := { stats_zero with start_time := env.start_time }, returned := false } rfl
  unfold handle_wrq_mt
  simp only [hnew, hcreate, hsend, hin, Bool.not_true, Bool.false_eq_true, if_false]
  generalize wrq_mt_loop env [⟨RecvOutcome.datagram (data_packet_bytes 1 payload), true⟩,
      ⟨RecvOutcome.failure, w⟩] _ = L at h ⊢
  simp only [h.1, if_true, h.2]
  simp

/-- C26 fails on the code. An upload of a new file receives block 1 with 512 bytes,
and the next `recvfrom` fails. Both handlers write the 512 bytes, acknowledge blocks
0 and 1 and leave their loop. `handle_wrq` then removes the file; `handle_wrq_mt`
only closes it, so the unfinished file of 512 bytes stays. The ACK packets of
`handle_wrq_mt` go out on the socket it was called with, those of `handle_wrq` on
its own socket. -/
theorem wrq_mt_keeps_unfinished_file (env : WrqEnv) (packet : tftp_packet_t)
    (payload : List Byte) (w : Bool)
    (hnew : env.file_exists (make_filepath (extract_filename packet)) = false)
    (hcreate : env.create_ok (make_filepath (extract_filename packet))
      (decide (parse_mode (extract_mode packet) = tftp_mode_t.MODE_NETASCII)) = true)
    (hsock : env.socket_ok = true) (hbind : env.bind_ok = true)
    (hsend : ∀ tr, env.sendto_ok tr = true)
    (hin : env.inputs = [⟨RecvOutcome.datagram (data_packet_bytes 1 payload), true⟩,
      ⟨RecvOutcome.failure, w⟩])
    (hp : payload.length = 512) :
    written (handle_wrq env packet).trace = [(512, payload)] ∧
    written (handle_wrq_mt env packet).trace = [(512, payload)] ∧
    file_exists_after (make_filepath (extract_filename packet)) false
      (handle_wrq env packet).trace = false ∧
    file_exists_after (make_filepath (extract_filename packet)) false
      (handle_wrq_mt env packet).trace = true ∧
    (handle_wrq_mt env packet).returned = true ∧
    sent (handle_wrq env packet).trace
      = [(Sock.data_sock, ack_packet_bytes 0), (Sock.data_sock, ack_packet_bytes 1)] ∧
    sent (handle_wrq_mt env packet).trace
      = [(Sock.sock, ack_packet_bytes 0), (Sock.sock, ack_packet_bytes 1)] := by
  have h1 := handle_wrq_one_block_trace env packet payload w hnew hcreate hsock hbind hsend hin hp
  have h2 := handle_wrq_mt_one_block_trace env packet payload w hnew hcreate hsend hin hp
  rw [h1, h2.1]
  refine ⟨rfl, rfl, ?_, ?_, h2.2, rfl, rfl⟩
  · simp [file_exists_after, fs_step, send_ack_packet]
  · simp [file_exists_after, fs_step, send_ack_packet]

theorem wrq_mt_keeps_unfinished_file_witness :
    file_exists_after (make_filepath (extract_filename zero_packet)) false
      (handle_wrq (upload_env
        [⟨RecvOutcome.datagram (data_packet_bytes 1 (List.replicate 512 7)), true⟩,
         ⟨RecvOutcome.failure, false⟩]) zero_packet).trace = false ∧
    file_exists_after (make_filepath (extract_filename zero_packet)) false
      (handle_wrq_mt (upload_env
        [⟨RecvOutcome.datagram (data_packet_bytes 1 (List.replicate 512 7)), true⟩,
         ⟨RecvOutcome.failure, false⟩]) zero_packet).trace = true :=
  have h := wrq_mt_keeps_unfinished_file
    (upload_env [⟨RecvOutcome.datagram (data_packet_bytes 1 (List.replicate 512 7)), true⟩,
      ⟨RecvOutcome.failure, false⟩])
    zero_packet (List.replicate 512 7) false rfl rfl rfl rfl (fun _ => rfl) rfl
    (List.length_replicate _ _)
  ⟨h.2.2.1, h.2.2.2.1⟩

/-- Further differences between the two upload handlers. When no datagram arrives
at all, `handle_wrq` answers the timeout with an ERROR packet, removes the file it
created and returns; `handle_wrq_mt` waits on a socket without timeout and does not
return, and the empty file stays. A datagram of two bytes `00 03` after the
datagram `00 09 00 01` is taken as block 1 by `handle_wrq`, and is passed over by
`handle_wrq_mt`, whose decoder rejects it. -/
theorem wrq_mt_other_differences :
    sent (handle_wrq (upload_env []) zero_packet).trace
      = [(Sock.data_sock, ack_packet_bytes 0),
         (Sock.data_sock, error_packet_bytes TFTP_ERROR_NOT_DEFINED (lit "Timeout"))] ∧
    sent (handle_wrq_mt (upload_env []) zero_packet).trace = [(Sock.sock, ack_packet_bytes 0)] ∧
    (handle_wrq_mt (upload_env []) zero_packet).returned = false ∧
    file_exists_after (lit "tftp_root/") false
      (handle_wrq (upload_env []) zero_packet).trace = false ∧
    file_exists_after (lit "tftp_root/") false
      (handle_wrq_mt (upload_env []) zero_packet).trace = true ∧
    written (handle_wrq (upload_env [⟨RecvOutcome.datagram [0, 9, 0, 1], true⟩,
        ⟨RecvOutcome.datagram [0, 3], true⟩]) zero_packet).trace = [(-2, [])] ∧
    written (handle_wrq_mt (upload_env [⟨RecvOutcome.datagram [0, 9, 0, 1], true⟩,
        ⟨RecvOutcome.datagram [0, 3], true⟩]) zero_packet).trace = [] := by
  refine ⟨?_, ?_, ?_, ?_, ?_, ?_, ?_⟩ <;> (set_option maxRecDepth 100000 in decide)

/-- A complete upload of three bytes in one block goes the same way in both
handlers, the socket apart: the same bytes are written, the same ACK packets are
sent, and the file is there at the end. -/
theorem wrq_mt_complete_upload :
    written (handle_wrq_mt (upload_env
        [⟨RecvOutcome.datagram (data_packet_bytes 1 [1, 2, 3]), true⟩]) zero_packet).trace
      = written (handle_wrq (upload_env
        [⟨RecvOutcome.datagram (data_packet_bytes 1 [1, 2, 3]), true⟩]) zero_packet).trace ∧
    (sent (handle_wrq_mt (upload_env
        [⟨RecvOutcome.datagram (data_packet_bytes 1 [1, 2, 3]), true⟩]) zero_packet).trace).map
        (fun x => x.2)
      = (sent (handle_wrq (upload_env
        [⟨RecvOutcome.datagram (data_packet_bytes 1 [1, 2, 3]), true⟩]) zero_packet).trace).map
        (fun x => x.2) ∧
    file_exists_after (lit "tftp_root/") false (handle_wrq_mt (upload_env
        [⟨RecvOutcome.datagram (data_packet_bytes 1 [1, 2, 3]), true⟩]) zero_packet).trace = true ∧
    file_exists_after (lit "tftp_root/") false (handle_wrq (upload_env
        [⟨RecvOutcome.datagram (data_packet_bytes 1 [1, 2, 3]), true⟩]) zero_packet).trace = true := by
  refine ⟨?_, ?_, ?_, ?_⟩ <;> (set_option maxRecDepth 100000 in decide)

/-! ## Retransmissions in the download -/

/-- Every datagram the wait loop sends for a block is the same DATA packet: the
block number and the payload it was started with. It sends it at least once when a
try is left and at most once per try. -/
theorem rrq_wait_loop_sent (env : RrqEnv) (data : List Byte) :
    ∀ (left : Nat) (st : RrqState),
      ∃ n, n ≤ left ∧ (0 < left → 1 ≤ n) ∧
        sent (rrq_wait_loop env data left st).2.trace
          = sent st.trace ++ List.replicate n (Sock.data_sock, data_packet_bytes st.block_num data) ∧
        (rrq_wait_loop env data left st).2.block_num = st.block_num := by
  intro left
  induction left with
  | zero =>
    intro st
    exact ⟨0, Nat.le_refl _, fun h => absurd h (by decide), by simp [rrq_wait_loop], rfl⟩
  | succ k ih =>
    intro st
    have hone : ∀ (t : List Event) (ok : Bool),
        sent (st.trace ++ [send_data_packet Sock.data_sock st.block_num data ok] ++ t)
          = sent st.trace ++ [(Sock.data_sock, data_packet_bytes st.block_num data)] ++ sent t := by
      intro t ok
      simp only [sent_append]
      rfl
    unfold rrq_wait_loop
    simp only
    split
    · refine ⟨1, by omega, fun _ => Nat.le_refl _, ?_, rfl⟩
      have := hone [] (env.sendto_ok st.trace)
      simpa using this
    · split
      · rename_i hr
        obtain ⟨n, hn, _, hs, hb⟩ := ih
          { trace := st.trace ++ [send_data_packet Sock.data_sock st.block_num data
              (env.sendto_ok st.trace)] ++ [Event.recvfrom (env.recvfrom
                (st.trace ++ [send_data_packet Sock.data_sock st.block_num data
                  (env.sendto_ok st.trace)]))],
            ack_buffer := st.ack_buffer, block_num := st.block_num,
            stats := { st.stats with
                       blocks_sent := st.stats.blocks_sent + 1,
                       retransmissions := st.stats.retransmissions + 1 } }
        refine ⟨n + 1, by omega, fun _ => by omega, ?_, hb⟩
        rw [hs, hone]
        simp [sent, List.replicate_succ]
      · refine ⟨1, by omega, fun _ => Nat.le_refl _, ?_, rfl⟩
        rw [hone]
        simp [sent]
      · rename_i bytes hr
        split
        · refine ⟨1, by omega, fun _ => Nat.le_refl _, ?_, rfl⟩
          rw [hone]
          simp [sent]
        · split
          · refine ⟨1, by omega, fun _ => Nat.le_refl _, ?_, rfl⟩
            rw [hone]
            simp [sent]
          · obtain ⟨n, hn, _, hs, hb⟩ := ih
              { trace := st.trace ++ [send_data_packet Sock.data_sock st.block_num data
                  (env.sendto_ok st.trace)] ++ [Event.recvfrom (env.recvfrom
                    (st.trace ++ [send_data_packet Sock.data_sock st.block_num data
                      (env.sendto_ok st.trace)]))],
                ack_buffer := memcpy st.ack_buffer 0 (bytes.take 4), block_num := st.block_num,
                stats := { st.stats with blocks_sent := st.stats.blocks_sent + 1 } }
            refine ⟨n + 1, by omega, fun _ => by omega, ?_, hb⟩
            rw [hs, hone]
            simp [sent, List.replicate_succ]

theorem repeat_each_nil {α : Type} (ps : List α) : repeat_each [] ps = [] := by
  simp [repeat_each]

theorem repeat_each_cons {α : Type} (n : Nat) (counts : List Nat) (p : α) (ps : List α) :
    repeat_each (n :: counts) (p :: ps) = List.replicate n p ++ repeat_each counts ps := by
  simp [repeat_each]

/-- The datagrams of the file loop, whatever the peer does: the DATA packets of a
download without loss, in their order, each sent between one and five times in a
row, followed by nothing or by the one ERROR packet that ends an unacknowledged
transfer. -/
theorem rrq_file_loop_sent (env : RrqEnv) :
    ∀ (fuel : Nat) (rest : List Byte) (st : RrqState),
      ∃ (counts : List Nat) (tail : List (Sock × List Byte)),
        sent (rrq_file_loop env fuel rest st).trace
          = sent st.trace ++ repeat_each counts (data_blocks counts.length st.block_num rest)
            ++ tail ∧
        (∀ n ∈ counts, 1 ≤ n ∧ n ≤ MAX_RETRIES) ∧
        (tail = [] ∨ tail = [(Sock.data_sock,
          error_packet_bytes TFTP_ERROR_NOT_DEFINED (lit "Transfer timed out"))]) ∧
        counts.length ≤ (rest.length + 511) / 512 := by
  intro fuel
  induction fuel with
  | zero =>
    intro rest st
    exact ⟨[], [], by simp [rrq_file_loop, repeat_each_nil], by simp, Or.inl rfl, Nat.zero_le _⟩
  | succ k ih =>
    intro rest st
    obtain ⟨n, hn, hn1, hs, hb⟩ := rrq_wait_loop_sent env (rest.take DATA_SIZE) MAX_RETRIES st
    have hn1 := hn1 (by decide)
    unfold rrq_file_loop
    simp only
    generalize rrq_wait_loop env (rest.take DATA_SIZE) MAX_RETRIES st = r at hs hb ⊢
    have hblocks : ∀ m, data_blocks (m + 1) st.block_num rest
        = (Sock.data_sock, data_packet_bytes st.block_num (rest.take DATA_SIZE))
          :: data_blocks m ((st.block_num + 1) % 65536) (rest.drop DATA_SIZE) := fun _ => rfl
    by_cases hpos : (rest.take DATA_SIZE).length > 0
    · have hrest : 0 < rest.length := by
        simp only [List.length_take, DATA_SIZE] at hpos; omega
      rw [if_pos hpos]
      split
      · refine ⟨[n], _, ?_, ?_, Or.inr rfl, by simp; omega⟩
        · rw [sent_append, hs, List.length_singleton, hblocks, repeat_each_cons, repeat_each_nil]
          simp [sent, send_error_packet]
        · simpa using ⟨hn1, hn⟩
      · by_cases hshort : (rest.take DATA_SIZE).length < DATA_SIZE
        · rw [if_pos hshort]
          refine ⟨[n], [], ?_, ?_, Or.inl rfl, by simp; omega⟩
          · show sent r.2.trace = _
            rw [hs, List.length_singleton, hblocks, repeat_each_cons, repeat_each_nil]
            simp
          · simpa using ⟨hn1, hn⟩
        · rw [if_neg hshort]
          have hrl : 512 ≤ rest.length := by
            simp only [List.length_take, DATA_SIZE] at hshort; omega
          have hd : (rest.drop DATA_SIZE).length = rest.length - 512 := List.length_drop _ _
          obtain ⟨counts, tail, hs2, hc, ht, hl⟩ := ih (rest.drop DATA_SIZE)
            { r.2 with block_num := (r.2.block_num + 1) % 65536 }
          refine ⟨n :: counts, tail, ?_, ?_, ht, by rw [hd] at hl; simp only [List.length_cons]; omega⟩
          · rw [hs2]
            show sent r.2.trace ++ repeat_each counts
              (data_blocks counts.length ((r.2.block_num + 1) % 65536) (rest.drop DATA_SIZE)) ++ tail = _
            rw [hs, hb, List.length_cons, hblocks, repeat_each_cons]
            simp
          · intro m hm
            rcases List.mem_cons.mp hm with h | h
            · rw [h]; exact ⟨hn1, hn⟩
            · exact hc m h
    · rw [if_neg hpos]
      exact ⟨[], [], by simp [repeat_each_nil], by simp, Or.inl rfl, Nat.zero_le _⟩

/-- Against a peer that acknowledges every block, the file loop sends exactly the
DATA packets of a download without loss, each once. -/
theorem rrq_file_loop_lossless (env : RrqEnv)
    (hsend : ∀ tr, env.sendto_ok tr = true) (hpeer : AcksEveryBlock env) :
    ∀ (fuel : Nat) (rest : List Byte) (st : RrqState),
      rest.length ≤ fuel → st.block_num < 65536 →
      sent (rrq_file_loop env fuel rest st).trace
        = sent st.trace ++ data_blocks ((rest.length + 511) / 512) st.block_num rest := by
  intro fuel
  induction fuel with
  | zero =>
    intro rest st h1 _
    have hr : rest = [] := List.length_eq_zero.mp (by omega)
    subst hr
    simp [rrq_file_loop, data_blocks]
  | succ f ih =>
    intro rest st h1 hb
    by_cases hr : rest = []
    · subst hr
      simp [rrq_file_loop, data_blocks]
    · have hlen : 0 < rest.length := List.length_pos.mpr hr
      have hpos : (List.take DATA_SIZE rest).length > 0 := by
        simp only [List.length_take, DATA_SIZE]; omega
      have hw := rrq_wait_loop_acked env (List.take DATA_SIZE rest) hsend hpeer 4 st hb
      simp only [rrq_file_loop, hpos, if_true, hw.1, Bool.not_true, Bool.false_eq_true, if_false,
        hw.2.1]
      by_cases hshort : (List.take DATA_SIZE rest).length < DATA_SIZE
      · have hrl : rest.length < 512 := by
          simp only [List.length_take, DATA_SIZE] at hshort; omega
        have hone : (rest.length + 511) / 512 = 1 := by omega
        simp only [hshort, if_true, hw.2.2, hone, data_blocks]
      · have hrl : 512 ≤ rest.length := by
          simp only [List.length_take, DATA_SIZE] at hshort; omega
        have hd : (rest.drop DATA_SIZE).length = rest.length - 512 := List.length_drop _ _
        have hcount : (rest.length + 511) / 512 = ((rest.drop DATA_SIZE).length + 511) / 512 + 1 := by
          rw [hd]; omega
        simp only [hshort, if_false]
        rw [ih (rest.drop DATA_SIZE) _ (by omega) (Nat.mod_lt _ (by decide)), hcount]
        show sent (rrq_wait_loop env (List.take DATA_SIZE rest) MAX_RETRIES st).2.trace ++ _ = _
        rw [hw.2.2]
        simp [data_blocks]

/-- The first `m` packets of a download without loss are a prefix of its first `n`
packets. -/
theorem data_blocks_take (m : Nat) :
    ∀ (n b : Nat) (rest : List Byte), m ≤ n →
      (data_blocks n b rest).take m = data_blocks m b rest := by
  induction m with
  | zero => intro n b rest _; simp [data_blocks]
  | succ k ih =>
    intro n b rest h
    obtain ⟨j, rfl⟩ : ∃ j, n = j + 1 := ⟨n - 1, by omega⟩
    simp only [data_blocks, List.take_succ_cons]
    rw [ih j _ _ (by omega)]

/-- The datagrams of `handle_rrq` once the file is open and the socket of the
transfer is set up are those of its file loop. -/
theorem handle_rrq_sent (env : RrqEnv) (packet : tftp_packet_t) (file : List Byte)
    (hopen : env.fopen (make_filepath (extract_filename packet))
      (decide (parse_mode (extract_mode packet) = tftp_mode_t.MODE_NETASCII)) = some file)
    (hsock : env.socket_ok = true) (hbind : env.bind_ok = true) :
    sent (handle_rrq env packet).trace
      = sent (rrq_file_loop env file.length file
          { trace := [Event.fopen (make_filepath (extract_filename packet)) false
              (decide (parse_mode (extract_mode packet) = tftp_mode_t.MODE_NETASCII)) true,
              Event.socket true] ++ [Event.bind true],
            ack_buffer := env.ack_buffer, block_num := 1,
            stats := { stats_zero with start_time := env.start_time } }).trace := by
  simp only [handle_rrq, hopen, hsock, hbind, Bool.not_true, Bool.false_eq_true, if_false,
    sent_append]
  simp [sent]

/-- C24: a block that `handle_rrq` sends again, after a timeout or for any other
reason, goes out as the same datagram: same block number, same payload. For every
behaviour of the peer the datagrams of a download are the DATA packets of the
download without loss of the same file (`env0`, a peer that acknowledges every
block), in the same order, each repeated between one and five times, up to the
block at which the transfer stops, followed at most by the one ERROR packet that
ends an unacknowledged transfer: no later part of the file is read before a block
is acknowledged, and the blocks that follow an acknowledged block are those of the
run without loss. -/
theorem identical_retransmission (env env0 : RrqEnv) (packet : tftp_packet_t) (file : List Byte)
    (hopen : env.fopen (make_filepath (extract_filename packet))
      (decide (parse_mode (extract_mode packet) = tftp_mode_t.MODE_NETASCII)) = some file)
    (hsock : env.socket_ok = true) (hbind : env.bind_ok = true)
    (hopen0 : env0.fopen (make_filepath (extract_filename packet))
      (decide (parse_mode (extract_mode packet) = tftp_mode_t.MODE_NETASCII)) = some file)
    (hsock0 : env0.socket_ok = true) (hbind0 : env0.bind_ok = true)
    (hsend0 : ∀ tr, env0.sendto_ok tr = true) (hpeer0 : AcksEveryBlock env0) :
    (∀ (data : List Byte) (left : Nat) (st : RrqState), ∃ n, n ≤ left ∧
      sent (rrq_wait_loop env data left st).2.trace
        = sent st.trace ++ List.replicate n (Sock.data_sock, data_packet_bytes st.block_num data)) ∧
    sent (handle_rrq env0 packet).trace = data_blocks ((file.length + 511) / 512) 1 file ∧
    ∃ (counts : List Nat) (tail : List (Sock × List Byte)),
      sent (handle_rrq env packet).trace
        = repeat_each counts ((sent (handle_rrq env0 packet).trace).take counts.length) ++ tail ∧
      counts.length ≤ (sent (handle_rrq env0 packet).trace).length ∧
      (∀ n ∈ counts, 1 ≤ n ∧ n ≤ MAX_RETRIES) ∧
      (tail = [] ∨ tail = [(Sock.data_sock,
        error_packet_bytes TFTP_ERROR_NOT_DEFINED (lit "Transfer timed out"))]) := by
  have h0 : sent (handle_rrq env0 packet).trace
      = data_blocks ((file.length + 511) / 512) 1 file := by
    rw [handle_rrq_sent env0 packet file hopen0 hsock0 hbind0,
      rrq_file_loop_lossless env0 hsend0 hpeer0 file.length file _ (Nat.le_refl _)
        (by show 1 < 65536; decide)]
    simp [sent]
  have hlen : ∀ (n b : Nat) (rest : List Byte), (data_blocks n b rest).length = n := by
    intro n
    induction n with
    | zero => intro b rest; rfl
    | succ k ih => intro b rest; simp [data_blocks, ih]
  refine ⟨fun data left st => ?_, h0, ?_⟩
  · obtain ⟨n, hn, _, hs, _⟩ := rrq_wait_loop_sent env data left st
    exact ⟨n, hn, hs⟩
  · obtain ⟨counts, tail, hs, hc, ht, hl⟩ := rrq_file_loop_sent env file.length file
      { trace := [Event.fopen (make_filepath (extract_filename packet)) false
          (decide (parse_mode (extract_mode packet) = tftp_mode_t.MODE_NETASCII)) true,
          Event.socket true] ++ [Event.bind true],
        ack_buffer := env.ack_buffer, block_num := 1,
        stats := { stats_zero with start_time := env.start_time } }
    refine ⟨counts, tail, ?_, ?_, hc, ht⟩
    · rw [handle_rrq_sent env packet file hopen hsock hbind, hs, h0,
        data_blocks_take _ _ _ _ hl]
      simp [sent]
    · rw [h0, hlen]
      exact hl

theorem identical_retransmission_witness :
    ∃ (counts : List Nat) (tail : List (Sock × List Byte)),
      sent (handle_rrq (scripted_env [7, 8, 9]
          [RecvOutcome.timeout, RecvOutcome.datagram (ack_packet_bytes 1)]) zero_packet).trace
        = repeat_each counts
            ((sent (handle_rrq (acking_env [7, 8, 9]) zero_packet).trace).take counts.length)
          ++ tail ∧
      counts.length ≤ (sent (handle_rrq (acking_env [7, 8, 9]) zero_packet).trace).length ∧
      (∀ n ∈ counts, 1 ≤ n ∧ n ≤ MAX_RETRIES) ∧
      (tail = [] ∨ tail = [(Sock.data_sock,
        error_packet_bytes TFTP_ERROR_NOT_DEFINED (lit "Transfer timed out"))]) :=
  (identical_retransmission
    (scripted_env [7, 8, 9] [RecvOutcome.timeout, RecvOutcome.datagram (ack_packet_bytes 1)])
    (acking_env [7, 8, 9]) zero_packet [7, 8, 9] rfl rfl rfl rfl rfl rfl (fun _ => rfl)
    (acking_env_acks _)).2.2

/-- The run of the test client `tools/lossy_rrq.c`, which drops the first ACK of
block 1: on a file of 1300 bytes the server sends block 1 twice, the same 516
bytes, and then blocks 2 and 3 as in the run without loss. -/
theorem lossy_rrq_run :
    sent (handle_rrq (scripted_env (List.replicate 1300 7)
        [RecvOutcome.timeout, RecvOutcome.datagram (ack_packet_bytes 1),
         RecvOutcome.datagram (ack_packet_bytes 2), RecvOutcome.datagram (ack_packet_bytes 3)])
        zero_packet).trace
      = [(Sock.data_sock, data_packet_bytes 1 (List.replicate 512 7)),
         (Sock.data_sock, data_packet_bytes 1 (List.replicate 512 7)),
         (Sock.data_sock, data_packet_bytes 2 (List.replicate 512 7)),
         (Sock.data_sock, data_packet_bytes 3 (List.replicate 276 7))] ∧
    sent (handle_rrq (acking_env (List.replicate 1300 7)) zero_packet).trace
      = [(Sock.data_sock, data_packet_bytes 1 (List.replicate 512 7)),
         (Sock.data_sock, data_packet_bytes 2 (List.replicate 512 7)),
         (Sock.data_sock, data_packet_bytes 3 (List.replicate 276 7))] := by
  constructor <;> (set_option maxRecDepth 1000000 in decide)

/-! ## The statistics of a download -/

theorem data_sent_append (a b : List Event) : data_sent (a ++ b) = data_sent a ++ data_sent b := by
  simp [data_sent, List.filterMap_append]

theorem timeouts_append (a b : List Event) : timeouts (a ++ b) = timeouts a + timeouts b := by
  simp [timeouts]

theorem data_sent_data (b : Nat) (data : List Byte) :
    data_sent [send_data_packet Sock.data_sock b data true] = [data_packet_bytes b data] := by
  have h : (data_packet_bytes b data).take 2 = [0, 3] := by
    rw [data_packet_bytes_eq]; rfl
  simp [data_sent, send_data_packet, h]

theorem data_sent_error (s : Sock) (c : Nat) (msg : List Byte) (ok : Bool) :
    data_sent [send_error_packet s c msg ok] = [] := by
  have h : (error_packet_bytes c msg).take 2 ≠ [0, 3] := by
    have h5 : htons TFTP_ERROR = [0, 5] := by decide
    rw [error_packet_bytes, h5]
    simp
  cases s <;> cases ok <;> simp [data_sent, send_error_packet, h]

theorem data_sent_failed (b : Nat) (data : List Byte) :
    data_sent [send_data_packet Sock.data_sock b data false] = [] := by
  simp [data_sent, send_data_packet]

theorem data_sent_recvfrom (r : RecvOutcome) : data_sent [Event.recvfrom r] = [] := by
  simp [data_sent]

theorem timeouts_sendto (s : Sock) (b : Nat) (data : List Byte) (ok : Bool) :
    timeouts [send_data_packet s b data ok] = 0 := by
  simp [timeouts, send_data_packet]

theorem timeouts_timeout : timeouts [Event.recvfrom RecvOutcome.timeout] = 1 := by
  simp [timeouts]

theorem timeouts_datagram (bytes : List Byte) :
    timeouts [Event.recvfrom (RecvOutcome.datagram bytes)] = 0 := by
  simp [timeouts]

theorem timeouts_failure : timeouts [Event.recvfrom RecvOutcome.failure] = 0 := by
  simp [timeouts]

/-- The counters of the wait loop. `blocks_sent` goes up by one for each DATA packet
transmitted, `retransmissions` by one for each timeout, and `bytes_transferred` by
the size of the block when the block is acknowledged. -/
theorem rrq_wait_loop_stats (env : RrqEnv) (data : List Byte) :
    ∀ (left : Nat) (st : RrqState),
      (rrq_wait_loop env data left st).2.stats.blocks_sent
          - ((data_sent (rrq_wait_loop env data left st).2.trace).length : Int)
        = st.stats.blocks_sent - ((data_sent st.trace).length : Int) ∧
      (rrq_wait_loop env data left st).2.stats.retransmissions
          - (timeouts (rrq_wait_loop env data left st).2.trace : Int)
        = st.stats.retransmissions - (timeouts st.trace : Int) ∧
      (rrq_wait_loop env data left st).2.stats.bytes_transferred
        = (if (rrq_wait_loop env data left st).1 = true
            then (st.stats.bytes_transferred + data.length) % SIZE_MOD
            else st.stats.bytes_transferred) ∧
      (rrq_wait_loop env data left st).2.stats.start_time = st.stats.start_time := by
  intro left
  induction left with
  | zero => intro st; simp [rrq_wait_loop]
  | succ k ih =>
    intro st
    cases hs : env.sendto_ok st.trace with
    | false =>
      simp only [rrq_wait_loop, hs, Bool.not_false, if_true, data_sent_append, data_sent_failed,
        timeouts_append, timeouts_sendto, List.append_nil, Nat.add_zero, Bool.false_eq_true,
        if_false]
      exact ⟨trivial, trivial, trivial, trivial⟩
    | true =>
      cases hr : env.recvfrom (st.trace ++ [send_data_packet Sock.data_sock st.block_num data true]) with
      | timeout =>
        simp only [rrq_wait_loop, hs, hr, Bool.not_true, Bool.false_eq_true, if_false]
        refine ⟨?_, ?_, ?_, ?_⟩
        · rw [(ih _).1]
          simp only [data_sent_append, data_sent_data, data_sent_recvfrom, List.length_append,
            List.length_singleton, List.length_nil]
          push_cast
          omega
        · rw [(ih _).2.1]
          simp only [timeouts_append, timeouts_sendto, timeouts_timeout]
          push_cast
          omega
        · rw [(ih _).2.2.1]
        · rw [(ih _).2.2.2]
      | failure =>
        simp only [rrq_wait_loop, hs, hr, Bool.not_true, Bool.false_eq_true, if_false,
          data_sent_append, data_sent_data, data_sent_recvfrom, List.length_append,
          List.length_singleton, List.length_nil, timeouts_append, timeouts_sendto,
          timeouts_failure]
        refine ⟨?_, ?_, trivial, trivial⟩
        · push_cast; omega
        · push_cast; omega
      | datagram bytes =>
        simp only [rrq_wait_loop, hs, hr, Bool.not_true, Bool.false_eq_true, if_false]
        split
        · simp only [data_sent_append, data_sent_data, data_sent_recvfrom, List.length_append,
            List.length_singleton, List.length_nil, timeouts_append, timeouts_sendto,
            timeouts_datagram, Bool.false_eq_true, if_false]
          refine ⟨?_, ?_, trivial, trivial⟩
          · push_cast; omega
          · push_cast; omega
        · split
          · simp only [data_sent_append, data_sent_data, data_sent_recvfrom, List.length_append,
              List.length_singleton, List.length_nil, timeouts_append, timeouts_sendto,
              timeouts_datagram, if_true]
            refine ⟨?_, ?_, trivial, trivial⟩
            · push_cast; omega
            · push_cast; omega
          · refine ⟨?_, ?_, ?_, ?_⟩
            · rw [(ih _).1]
              simp only [data_sent_append, data_sent_data, data_sent_recvfrom, List.length_append,
                List.length_singleton, List.length_nil]
              push_cast
              omega
            · rw [(ih _).2.1]
              simp only [timeouts_append, timeouts_sendto, timeouts_datagram]
              push_cast
              omega
            · rw [(ih _).2.2.1]
            · rw [(ih _).2.2.2]

/-- The counters of the file loop, whatever the peer does. `blocks_sent` counts the
DATA packets transmitted and `retransmissions` the timeouts; `a` blocks have been
acknowledged, the block number has advanced `a` times and `bytes_transferred` has
grown by the size of the first `a` blocks of the stream. -/
theorem rrq_file_loop_stats (env : RrqEnv) :
    ∀ (fuel : Nat) (rest : List Byte) (st : RrqState),
      st.block_num < 65536 → st.stats.bytes_transferred < SIZE_MOD →
      (rrq_file_loop env fuel rest st).stats.blocks_sent
          - ((data_sent (rrq_file_loop env fuel rest st).trace).length : Int)
        = st.stats.blocks_sent - ((data_sent st.trace).length : Int) ∧
      (rrq_file_loop env fuel rest st).stats.retransmissions
          - (timeouts (rrq_file_loop env fuel rest st).trace : Int)
        = st.stats.retransmissions - (timeouts st.trace : Int) ∧
      (rrq_file_loop env fuel rest st).stats.start_time = st.stats.start_time ∧
      ∃ a, a ≤ (rest.length + 511) / 512 ∧
        (rrq_file_loop env fuel rest st).block_num = (st.block_num + a) % 65536 ∧
        (rrq_file_loop env fuel rest st).stats.bytes_transferred
          = (st.stats.bytes_transferred + (rest.take (512 * a)).length) % SIZE_MOD := by
  intro fuel
  induction fuel with
  | zero =>
    intro rest st hb hx
    refine ⟨rfl, rfl, rfl, 0, Nat.zero_le _, ?_, ?_⟩
    · simp only [rrq_file_loop, Nat.add_zero]
      exact (Nat.mod_eq_of_lt hb).symm
    · simp only [rrq_file_loop, Nat.mul_zero, List.take_zero, List.length_nil, Nat.add_zero]
      exact (Nat.mod_eq_of_lt hx).symm
  | succ k ih =>
    intro rest st hb hx
    have hw := rrq_wait_loop_stats env (rest.take DATA_SIZE) MAX_RETRIES st
    obtain ⟨_, _, _, _, hwb⟩ := rrq_wait_loop_sent env (rest.take DATA_SIZE) MAX_RETRIES st
    unfold rrq_file_loop
    simp only
    generalize rrq_wait_loop env (rest.take DATA_SIZE) MAX_RETRIES st = r at hw hwb ⊢
    by_cases hpos : (rest.take DATA_SIZE).length > 0
    · have hrest : 0 < rest.length := by
        simp only [List.length_take, DATA_SIZE] at hpos; omega
      rw [if_pos hpos]
      by_cases hack : r.1 = true
      · simp only [hack, Bool.not_true, Bool.false_eq_true, if_false]
        have hbytes : r.2.stats.bytes_transferred
            = (st.stats.bytes_transferred + (rest.take DATA_SIZE).length) % SIZE_MOD := by
          rw [hw.2.2.1, if_pos hack]
        by_cases hshort : (rest.take DATA_SIZE).length < DATA_SIZE
        · rw [if_pos hshort]
          refine ⟨hw.1, hw.2.1, hw.2.2.2, 1, by omega, ?_, ?_⟩
          · show (r.2.block_num + 1) % 65536 = _
            rw [hwb]
          · show r.2.stats.bytes_transferred = _
            rw [hbytes]
        · rw [if_neg hshort]
          have hrl : 512 ≤ rest.length := by
            simp only [List.length_take, DATA_SIZE] at hshort; omega
          have hd : (rest.drop DATA_SIZE).length = rest.length - 512 := List.length_drop _ _
          obtain ⟨h1, h2, h3, a, ha, hab, hax⟩ := ih (rest.drop DATA_SIZE)
            { r.2 with block_num := (r.2.block_num + 1) % 65536 }
            (Nat.mod_lt _ (by decide)) (by rw [hbytes]; exact Nat.mod_lt _ (by decide))
          refine ⟨h1.trans hw.1, h2.trans hw.2.1, h3.trans hw.2.2.2, a + 1, ?_, ?_, ?_⟩
          · rw [hd] at ha; omega
          · rw [hab]
            show ((r.2.block_num + 1) % 65536 + a) % 65536 = _
            rw [hwb]
            omega
          · rw [hax]
            show (r.2.stats.bytes_transferred + _) % SIZE_MOD = _
            rw [hbytes, Nat.mod_add_mod]
            congr 1
            simp only [List.length_take, List.length_drop, DATA_SIZE]
            omega
      · have hnack : r.1 = false := by simpa using hack
        simp only [hnack, Bool.not_false, if_true]
        refine ⟨?_, ?_, hw.2.2.2, 0, Nat.zero_le _, ?_, ?_⟩
        · rw [data_sent_append, data_sent_error, List.append_nil]
          exact hw.1
        · rw [timeouts_append]
          have : timeouts [send_error_packet Sock.data_sock TFTP_ERROR_NOT_DEFINED
              (lit "Transfer timed out") (env.sendto_ok r.2.trace)] = 0 := by
            simp [timeouts, send_error_packet]
          rw [this, Nat.add_zero]
          exact hw.2.1
        · show r.2.block_num = _
          rw [hwb, Nat.add_zero]
          exact (Nat.mod_eq_of_lt hb).symm
        · show r.2.stats.bytes_transferred = _
          rw [hw.2.2.1, if_neg hack]
          simp only [Nat.mul_zero, List.take_zero, List.length_nil, Nat.add_zero]
          exact (Nat.mod_eq_of_lt hx).symm
    · rw [if_neg hpos]
      refine ⟨rfl, rfl, rfl, 0, Nat.zero_le _, ?_, ?_⟩
      · rw [Nat.add_zero]
        exact (Nat.mod_eq_of_lt hb).symm
      · simp only [Nat.mul_zero, List.take_zero, List.length_nil, Nat.add_zero]
        exact (Nat.mod_eq_of_lt hx).symm

/-- The two `int` counters of `handle_rrq` at its return, whatever the peer does:
`blocks_sent` is the number of DATA packets transmitted, `retransmissions` is the
number of timeouts. -/
theorem handle_rrq_counters (env : RrqEnv) (packet : tftp_packet_t) :
    (handle_rrq env packet).stats.blocks_sent
      = ((data_sent (handle_rrq env packet).trace).length : Int) ∧
    (handle_rrq env packet).stats.retransmissions
      = (timeouts (handle_rrq env packet).trace : Int) := by
  unfold handle_rrq
  simp only
  cases hopen : env.fopen (make_filepath (extract_filename packet))
      (decide (parse_mode (extract_mode packet) = tftp_mode_t.MODE_NETASCII)) with
  | none =>
    simp only [data_sent_append, data_sent_error, timeouts_append]
    simp [data_sent, timeouts, stats_zero, send_error_packet]
  | some file =>
    simp only
    split
    · simp only [data_sent_append, data_sent_error, timeouts_append]
      simp [data_sent, timeouts, stats_zero, send_error_packet]
    · split
      · simp only [data_sent_append, data_sent_error, timeouts_append]
        simp [data_sent, timeouts, stats_zero, send_error_packet]
      · have h := rrq_file_loop_stats env file.length file
          { trace := [Event.fopen (make_filepath (extract_filename packet)) false
              (decide (parse_mode (extract_mode packet) = tftp_mode_t.MODE_NETASCII)) true,
              Event.socket env.socket_ok] ++ [Event.bind env.bind_ok],
            ack_buffer := env.ack_buffer, block_num := 1,
            stats := { stats_zero with start_time := env.start_time } }
          (by show 1 < 65536; decide) (by show 0 < SIZE_MOD; decide)
        generalize rrq_file_loop env file.length file _ = f at h ⊢
        have h1 := h.1
        have h2 := h.2.1
        simp only [data_sent_append, timeouts_append] at h1 h2 ⊢
        have e1 : data_sent [Event.fclose, Event.closesocket] = [] := by simp [data_sent]
        have e2 : timeouts [Event.fclose, Event.closesocket] = 0 := by simp [timeouts]
        have e3 : data_sent [Event.fopen (make_filepath (extract_filename packet)) false
            (decide (parse_mode (extract_mode packet) = tftp_mode_t.MODE_NETASCII)) true,
            Event.socket env.socket_ok] = [] := by simp [data_sent]
        have e4 : data_sent [Event.bind env.bind_ok] = [] := by simp [data_sent]
        have e5 : timeouts [Event.fopen (make_filepath (extract_filename packet)) false
            (decide (parse_mode (extract_mode packet) = tftp_mode_t.MODE_NETASCII)) true,
            Event.socket env.socket_ok] = 0 := by simp [timeouts]
        have e6 : timeouts [Event.bind env.bind_ok] = 0 := by simp [timeouts]
        rw [e3, e4] at h1
        rw [e5, e6] at h2
        rw [e1, e2]
        simp only [stats_zero, List.append_nil, List.length_nil, Nat.add_zero] at h1 h2 ⊢
        constructor
        · have : f.stats.blocks_sent - ((data_sent f.trace).length : Int) = 0 := by
            simpa using h1
          omega
        · have : f.stats.retransmissions - (timeouts f.trace : Int) = 0 := by
            simpa using h2
          omega

/-- The byte counter of `handle_rrq` at its return, once the file is open and the
socket of the transfer is set up: when `a` blocks have been acknowledged,
`bytes_transferred` is the size of the first `a` blocks of the file. -/
theorem handle_rrq_bytes (env : RrqEnv) (packet : tftp_packet_t) (file : List Byte)
    (hopen : env.fopen (make_filepath (extract_filename packet))
      (decide (parse_mode (extract_mode packet) = tftp_mode_t.MODE_NETASCII)) = some file)
    (hsock : env.socket_ok = true) (hbind : env.bind_ok = true) :
    ∃ a, a ≤ (file.length + 511) / 512 ∧
      (handle_rrq env packet).block_num = (1 + a) % 65536 ∧
      (handle_rrq env packet).stats.bytes_transferred
        = (file.take (512 * a)).length % SIZE_MOD := by
  obtain ⟨_, _, _, a, ha, hb, hx⟩ := rrq_file_loop_stats env file.length file
    { trace := [Event.fopen (make_filepath (extract_filename packet)) false
        (decide (parse_mode (extract_mode packet) = tftp_mode_t.MODE_NETASCII)) true,
        Event.socket true] ++ [Event.bind true],
      ack_buffer := env.ack_buffer, block_num := 1,
      stats := { stats_zero with start_time := env.start_time } }
    (by show 1 < 65536; decide) (by show 0 < SIZE_MOD; decide)
  refine ⟨a, ha, ?_, ?_⟩
  · simp only [handle_rrq, hopen, hsock, hbind, Bool.not_true, Bool.false_eq_true, if_false]
    exact hb
  · simp only [handle_rrq, hopen, hsock, hbind, Bool.not_true, Bool.false_eq_true, if_false]
    rw [hx]
    simp [stats_zero]

/-- C25 fails on the code, in its third part. For every behaviour of the peer
`blocks_sent` is the number of DATA packets transmitted, but `retransmissions` is
the number of timeouts, which is not the number of transmissions that repeated a
block. Against a silent peer block 1 goes out five times, four of them repeats,
and `retransmissions` is 5: the fifth timeout is counted although nothing is sent
after it. After a stray ACK block 1 is sent a second time, one repeat, and
`retransmissions` stays 0. -/
theorem rrq_transfer_accounting :
    (∀ (env : RrqEnv) (packet : tftp_packet_t),
      (handle_rrq env packet).stats.blocks_sent
        = ((data_sent (handle_rrq env packet).trace).length : Int) ∧
      (handle_rrq env packet).stats.retransmissions
        = (timeouts (handle_rrq env packet).trace : Int)) ∧
    ((handle_rrq (silent_env [7]) zero_packet).stats.blocks_sent = 5 ∧
      repeated_sends (handle_rrq (silent_env [7]) zero_packet).trace = 4 ∧
      (handle_rrq (silent_env [7]) zero_packet).stats.retransmissions = 5) ∧
    ((handle_rrq (scripted_env [7] [RecvOutcome.datagram (ack_packet_bytes 0),
        RecvOutcome.datagram (ack_packet_bytes 1)]) zero_packet).stats.blocks_sent = 2 ∧
      repeated_sends (handle_rrq (scripted_env [7] [RecvOutcome.datagram (ack_packet_bytes 0),
        RecvOutcome.datagram (ack_packet_bytes 1)]) zero_packet).trace = 1 ∧
      (handle_rrq (scripted_env [7] [RecvOutcome.datagram (ack_packet_bytes 0),
        RecvOutcome.datagram (ack_packet_bytes 1)]) zero_packet).stats.retransmissions = 0) := by
  refine ⟨fun env packet => ?_, ⟨?_, ?_, ?_⟩, ⟨?_, ?_, ?_⟩⟩
  · exact handle_rrq_counters env packet
  all_goals (set_option maxRecDepth 100000 in decide)

/-- The statistics of a complete download of 1300 bytes without loss: three blocks
sent, 1300 bytes transferred, no retransmission. -/
theorem rrq_stats_1300 :
    (handle_rrq (acking_env (List.replicate 1300 7)) zero_packet).stats.blocks_sent = 3 ∧
    (handle_rrq (acking_env (List.replicate 1300 7)) zero_packet).stats.bytes_transferred = 1300 ∧
    (handle_rrq (acking_env (List.replicate 1300 7)) zero_packet).stats.retransmissions = 0 := by
  refine ⟨?_, ?_, ?_⟩ <;> (set_option maxRecDepth 1000000 in decide)

/-! ## Stop-and-wait in the download -/

theorem data_block_data (b : Nat) (data : List Byte) (hb : b < 65536) :
    data_block (data_packet_bytes b data) = some b := by
  rw [data_packet_bytes_eq]
  have hv : ntohs (Fin.ofNat (b / 256)) (Fin.ofNat b) = b := ntohs_ofNat b hb
  simp [data_block, hv]

theorem data_block_error (c : Nat) (msg : List Byte) :
    data_block (error_packet_bytes c msg) = none := by
  have h5 : htons TFTP_ERROR = [0, 5] := by decide
  rw [error_packet_bytes, h5]
  simp [data_block]

/-- The test `handle_rrq` makes on its buffer after a datagram of four bytes or
more is the test whether the datagram is an ACK of the block. -/
theorem ack_test_iff (buf : Mem) (d : List Byte) (k : Nat) (hd : 4 ≤ d.length) :
    (ntohs (memcpy buf 0 (d.take 4) 0) (memcpy buf 0 (d.take 4) 1) = TFTP_ACK ∧
      ntohs (memcpy buf 0 (d.take 4) 2) (memcpy buf 0 (d.take 4) 3) = k)
      ↔ is_ack_of k d = true := by
  match d, hd with
  | b0 :: b1 :: b2 :: b3 :: tail, _ =>
    have hm := memcpy_header buf b0 b1 b2 b3 tail 4 (by decide)
    rw [hm.1, hm.2.1, hm.2.2.1, hm.2.2.2]
    simp [is_ack_of]

/-- The observer after the transmission of the block the wait loop is at: the
block is the one last transmitted and is not acknowledged. -/
theorem sw_step_data (s : SwState) (sk : Sock) (b : Nat) (data : List Byte) (ok : Bool)
    (hb : b < 65536)
    (hpre : (s.acked = true ∧ (s.last + 1) % 65536 = b) ∨ (s.acked = false ∧ s.last = b)) :
    sw_step (some s) (send_data_packet sk b data ok) = some ⟨b, false⟩ := by
  simp only [sw_step, send_data_packet, data_block_data b data hb]
  rcases hpre with ⟨h1, h2⟩ | ⟨h1, h2⟩
  · simp [h1, h2]
  · cases s with
    | mk last acked =>
      simp only at h1 h2
      subst h1 h2
      simp

theorem sw_step_error (s : SwState) (sk : Sock) (c : Nat) (msg : List Byte) (ok : Bool) :
    sw_step (some s) (send_error_packet sk c msg ok) = some s := by
  simp only [sw_step, send_error_packet, data_block_error]

/-- The wait loop keeps to stop-and-wait when every datagram it receives has the
four bytes of a header at least: it only ever sends the block it is at, and it
reports an acknowledgment only after an ACK of that block has been received. -/
theorem rrq_wait_loop_sw (env : RrqEnv) (data : List Byte)
    (hlen : ∀ tr d, env.recvfrom tr = RecvOutcome.datagram d → 4 ≤ d.length) :
    ∀ (left : Nat) (st : RrqState) (s : SwState), st.block_num < 65536 →
      st.trace.foldl sw_step (some ⟨0, true⟩) = some s →
      ((s.acked = true ∧ (s.last + 1) % 65536 = st.block_num) ∨
        (s.acked = false ∧ s.last = st.block_num)) →
      ((rrq_wait_loop env data left st).1 = true →
        (rrq_wait_loop env data left st).2.trace.foldl sw_step (some ⟨0, true⟩)
          = some ⟨st.block_num, true⟩) ∧
      ((rrq_wait_loop env data left st).2.trace.foldl sw_step (some ⟨0, true⟩)).isSome = true := by
  intro left
  induction left with
  | zero =>
    intro st s _ hs _
    simp only [rrq_wait_loop, hs]
    exact ⟨fun h => absurd h (by decide), rfl⟩
  | succ k ih =>
    intro st s hb hs hpre
    have hsend : ∀ ok, (st.trace ++ [send_data_packet Sock.data_sock st.block_num data ok]).foldl
        sw_step (some ⟨0, true⟩) = some ⟨st.block_num, false⟩ := by
      intro ok
      rw [List.foldl_append, hs, List.foldl_cons, List.foldl_nil,
        sw_step_data s _ _ _ _ hb hpre]
    cases hok : env.sendto_ok st.trace with
    | false =>
      simp only [rrq_wait_loop, hok, Bool.not_false, if_true, hsend]
      exact ⟨fun h => absurd h (by decide), rfl⟩
    | true =>
      cases hr : env.recvfrom (st.trace ++ [send_data_packet Sock.data_sock st.block_num data true]) with
      | timeout =>
        simp only [rrq_wait_loop, hok, hr, Bool.not_true, Bool.false_eq_true, if_false]
        exact ih _ ⟨st.block_num, false⟩ hb
          (by rw [List.foldl_append, hsend, List.foldl_cons, List.foldl_nil]; rfl)
          (Or.inr ⟨rfl, rfl⟩)
      | failure =>
        simp only [rrq_wait_loop, hok, hr, Bool.not_true, Bool.false_eq_true, if_false]
        refine ⟨fun h => absurd h (by decide), ?_⟩
        rw [List.foldl_append, hsend, List.foldl_cons, List.foldl_nil]
        rfl
      | datagram d =>
        have h4 := hlen _ d hr
        have htest := ack_test_iff st.ack_buffer d st.block_num h4
        simp only [rrq_wait_loop, hok, hr, Bool.not_true, Bool.false_eq_true, if_false]
        by_cases hbig : d.length > 4
        · rw [if_pos hbig]
          refine ⟨fun h => absurd h Bool.false_ne_true, ?_⟩
          rw [List.foldl_append, hsend, List.foldl_cons, List.foldl_nil]
          simp only [sw_step]
          split <;> rfl
        · rw [if_neg hbig]
          by_cases hT : is_ack_of st.block_num d = true
          · rw [if_pos (htest.mpr hT)]
            have hF : (st.trace ++ [send_data_packet Sock.data_sock st.block_num data true] ++
                [Event.recvfrom (RecvOutcome.datagram d)]).foldl sw_step (some ⟨0, true⟩)
                = some ⟨st.block_num, true⟩ := by
              rw [List.foldl_append, hsend, List.foldl_cons, List.foldl_nil]
              simp only [sw_step, hT, if_true]
            exact ⟨fun _ => hF, by rw [hF]; rfl⟩
          · rw [if_neg (fun h => hT (htest.mp h))]
            exact ih _ ⟨st.block_num, false⟩ hb
              (by
                rw [List.foldl_append, hsend, List.foldl_cons, List.foldl_nil]
                simp only [sw_step, hT, Bool.false_eq_true, if_false])
              (Or.inr ⟨rfl, rfl⟩)

/-- The file loop keeps to stop-and-wait when every datagram it receives has the
four bytes of a header at least. -/
theorem rrq_file_loop_sw (env : RrqEnv)
    (hlen : ∀ tr d, env.recvfrom tr = RecvOutcome.datagram d → 4 ≤ d.length) :
    ∀ (fuel : Nat) (rest : List Byte) (st : RrqState) (s : SwState), st.block_num < 65536 →
      st.trace.foldl sw_step (some ⟨0, true⟩) = some s →
      s.acked = true → (s.last + 1) % 65536 = st.block_num →
      ((rrq_file_loop env fuel rest st).trace.foldl sw_step (some ⟨0, true⟩)).isSome = true := by
  intro fuel
  induction fuel with
  | zero =>
    intro rest st s _ hs _ _
    simp only [rrq_file_loop, hs]
    rfl
  | succ k ih =>
    intro rest st s hb hs ha hl
    have hw := rrq_wait_loop_sw env (rest.take DATA_SIZE) hlen MAX_RETRIES st s hb hs
      (Or.inl ⟨ha, hl⟩)
    obtain ⟨_, _, _, _, hwb⟩ := rrq_wait_loop_sent env (rest.take DATA_SIZE) MAX_RETRIES st
    unfold rrq_file_loop
    simp only
    generalize rrq_wait_loop env (rest.take DATA_SIZE) MAX_RETRIES st = r at hw hwb ⊢
    split
    · by_cases hack : r.1 = true
      · simp only [hack, Bool.not_true, Bool.false_eq_true, if_false]
        have hF := hw.1 hack
        split
        · show (r.2.trace.foldl sw_step (some ⟨0, true⟩)).isSome = true
          exact hw.2
        · exact ih _ _ ⟨st.block_num, true⟩ (Nat.mod_lt _ (by decide)) hF rfl
            (by show (st.block_num + 1) % 65536 = (r.2.block_num + 1) % 65536; rw [hwb])
      · have hnack : r.1 = false := by simpa using hack
        simp only [hnack, Bool.not_false, if_true]
        obtain ⟨s2, hs2⟩ := Option.isSome_iff_exists.mp hw.2
        rw [List.foldl_append, hs2, List.foldl_cons, List.foldl_nil, sw_step_error]
        rfl
    · rw [hs]
      rfl

/-- The download handler keeps to stop-and-wait when every datagram it receives
has the four bytes of a header at least. -/
theorem handle_rrq_sw (env : RrqEnv) (packet : tftp_packet_t)
    (hlen : ∀ tr d, env.recvfrom tr = RecvOutcome.datagram d → 4 ≤ d.length) :
    stop_and_wait (handle_rrq env packet).trace = true := by
  unfold stop_and_wait handle_rrq
  simp only
  cases hopen : env.fopen (make_filepath (extract_filename packet))
      (decide (parse_mode (extract_mode packet) = tftp_mode_t.MODE_NETASCII)) with
  | none =>
    simp only [List.foldl_append, List.foldl_cons, List.foldl_nil, sw_step, sw_step_error]
    rfl
  | some file =>
    simp only
    split
    · simp only [List.foldl_append, List.foldl_cons, List.foldl_nil, sw_step, sw_step_error]
      rfl
    · split
      · simp only [List.foldl_append, List.foldl_cons, List.foldl_nil, sw_step, sw_step_error]
        rfl
      · have h := rrq_file_loop_sw env hlen file.length file
          { trace := [Event.fopen (make_filepath (extract_filename packet)) false
              (decide (parse_mode (extract_mode packet) = tftp_mode_t.MODE_NETASCII)) true,
              Event.socket env.socket_ok] ++ [Event.bind env.bind_ok],
            ack_buffer := env.ack_buffer, block_num := 1,
            stats := { stats_zero with start_time := env.start_time } }
          ⟨0, true⟩ (by show 1 < 65536; decide)
          (by simp only [List.foldl_append, List.foldl_cons, List.foldl_nil, sw_step])
          rfl rfl
        generalize rrq_file_loop env file.length file _ = f at h ⊢
        obtain ⟨s2, hs2⟩ := Option.isSome_iff_exists.mp h
        simp only [List.foldl_append, hs2, List.foldl_cons, List.foldl_nil, sw_step]
        rfl

/-- C23 fails on the code, for datagrams shorter than an ACK. A file of 1025 bytes
is downloaded. Block 1 is acknowledged and block 2 is sent. The peer answers with
the four bytes `00 05 00 02`, not an ACK, so block 2 is sent again; it then answers
with the two bytes `00 04`. The buffer now reads `00 04 00 02`, its last two bytes
left from the datagram before, the handler takes this for the ACK of block 2 and
sends block 3, although no ACK of block 2 has been received. When every datagram
received has the four bytes of a header at least, the download keeps to
stop-and-wait, whatever the peer sends. -/
theorem rrq_stop_and_wait :
    (∀ (env : RrqEnv) (packet : tftp_packet_t),
      (∀ tr d, env.recvfrom tr = RecvOutcome.datagram d → 4 ≤ d.length) →
      stop_and_wait (handle_rrq env packet).trace = true) ∧
    sent (handle_rrq (scripted_env (List.replicate 1025 7)
        [RecvOutcome.datagram (ack_packet_bytes 1), RecvOutcome.datagram [0, 5, 0, 2],
         RecvOutcome.datagram [0, 4], RecvOutcome.datagram (ack_packet_bytes 3)])
        zero_packet).trace
      = [(Sock.data_sock, data_packet_bytes 1 (List.replicate 512 7)),
         (Sock.data_sock, data_packet_bytes 2 (List.replicate 512 7)),
         (Sock.data_sock, data_packet_bytes 2 (List.replicate 512 7)),
         (Sock.data_sock, data_packet_bytes 3 [7])] ∧
    (∀ d ∈ [ack_packet_bytes 1, [0, 5, 0, 2], [0, 4]], is_ack_of 2 d = false) ∧
    stop_and_wait (handle_rrq (scripted_env (List.replicate 1025 7)
        [RecvOutcome.datagram (ack_packet_bytes 1), RecvOutcome.datagram [0, 5, 0, 2],
         RecvOutcome.datagram [0, 4], RecvOutcome.datagram (ack_packet_bytes 3)])
        zero_packet).trace = false := by
  refine ⟨fun env packet hlen => handle_rrq_sw env packet hlen, ?_, ?_, ?_⟩
  · set_option maxRecDepth 1000000 in decide
  · decide
  · set_option maxRecDepth 1000000 in decide

theorem rrq_stop_and_wait_witness :
    stop_and_wait (handle_rrq (scripted_env [7, 8, 9]
      [RecvOutcome.datagram (ack_packet_bytes 0), RecvOutcome.datagram (ack_packet_bytes 1)])
      zero_packet).trace = true :=
  rrq_stop_and_wait.1
    (scripted_env [7, 8, 9]
      [RecvOutcome.datagram (ack_packet_bytes 0), RecvOutcome.datagram (ack_packet_bytes 1)])
    zero_packet
    (fun tr d h => by
      have hmem : d = ack_packet_bytes 0 ∨ d = ack_packet_bytes 1 := by
        simp only [scripted_env] at h
        rcases hc : recv_count tr with _ | _ | n
        · rw [hc] at h
          exact Or.inl (RecvOutcome.datagram.inj h).symm
        · rw [hc] at h
          exact Or.inr (RecvOutcome.datagram.inj h).symm
        · rw [hc] at h
          simp at h
      rcases hmem with h | h <;> rw [h] <;> decide)
end Tftp
